import Mathlib

/-!
# http_server: request parser and response builder

A shallow embedding of `src/utils/http_parser.c`, `src/utils/utils.c`,
`src/utils/response.c`, `src/utils/conf_parser.c` (`get_value`) and of
`_handle_client`, `_cleanup_handler`, `sigint_handler` and `server_listen`
in `src/server/reactive.c`.

Conventions of the embedding.

* A C string (`char *` read with `strlen`, `strcmp`, `%s`) is the `List Char`
  of its characters before the terminating NUL.
* A raw buffer (`void *content`) is the `List Char` of all its bytes, NULs
  included; `strlen` on it stops at the first NUL.
* The two blocks of fixed size that the code copies request text into,
  `parser->filename` (`MAX_PATH` bytes) and `parser->args` (`MAX_ARGS` bytes),
  keep their size: a copy that does not fit is a fault. The other heap
  buffers are sized by the code from what they receive or hold text of
  bounded length. The field widths of `sscanf` and the size of `command` in
  `open_script` are kept, since they change the values computed.
* A call that dereferences a null pointer or writes past the end of a block
  yields `Outcome.fault`; a function that returns `NULL` yields
  `Outcome.null`.
* Memory that the code reads before writing it (the `malloc`ed `filename`
  and `args`, the stack array `version`, the fields `type` and `version` of a
  fresh `Parser`) is a parameter, `Garbage`.
* The file system and the interpreters are a parameter, `Env`.
-/

namespace HttpServer

/-! ## Types of `utils.h`, `http_parser.h`, `response.h` -/

/-- The enum `File_type` of `utils.h`, in declaration order. -/
inductive File_type
  | JPG | HTML | TEXT | BINARY | GIF | MPEG | PHP | PYTHON | UNKNOWN | MP4
  deriving DecidableEq, Repr

/-- The enum `Method` of `utils.h`, and the value `UNKNOWN` (an enumerator of
`File_type`, 8) that `pars_http` and the initialiser of a fresh `Parser` store in a `Method` field. -/
inductive Method
  | GET | POST | OPTIONS | UNKNOWN_METHOD | UNKNOWN
  deriving DecidableEq, Repr

/-- The enum `HttpStatusCode`. -/
inductive HttpStatusCode
  | HTTP_OK | HTTP_BAD_REQUEST | HTTP_NOT_FOUND
  deriving DecidableEq, Repr

/-- The enum `Version`. -/
inductive Version
  | HTTP1_0 | HTTP1_1
  deriving DecidableEq, Repr

/-- The struct `Parser`. -/
structure Parser where
  method : Method
  filename : List Char
  args : List Char
  type : File_type
  status : HttpStatusCode
  version : Version
  deriving DecidableEq, Repr

/-- The struct `Response`; `content = none` is the null pointer and
`header` is a C string. -/
structure Response where
  content : Option (List Char)
  header : List Char
  content_length : Nat
  deriving DecidableEq, Repr

/-- Result of a C function that may return `NULL` (`null`) or run into
undefined behaviour (`fault`): a read through a null pointer or a write past
the end of a block. -/
inductive Outcome (α : Type)
  | ok (a : α)
  | null
  | fault
  deriving DecidableEq, Repr

/-- Contents of the memory that `pars_http` may read before writing it. -/
structure Garbage where
  filename : List Char
  args : List Char
  version : List Char
  type : File_type
  pversion : Version

/-- The world outside the process: `files` gives the bytes of a path that
`fopen` can open, `popen` the standard output of a shell command, `spawn`
the standard output of an interpreter run on a script with given standard
input (`none`: the call fails). -/
structure Env where
  files : List Char → Option (List Char)
  popen : List Char → Option (List Char)
  spawn : List Char → List Char → List Char → Option (List Char)

/-- The configuration dictionary: entries in file order. -/
abbrev Dict := List (List Char × List Char)

/-! ## libc -/

/-- The terminator of a C string. -/
def NUL : Char := Char.ofNat 0

/-- The macro `BUFFER_SIZE` of `utils.h`. -/
def BUFFER_SIZE : Nat := 4096

/-- The macro `MAX_PATH` of `http_parser.h`: the size of the block that
`parser->filename` points to. -/
def MAX_PATH : Nat := 256

/-- The macro `MAX_ARGS` of `http_parser.h`: the size of the block that
`parser->args` points into. -/
def MAX_ARGS : Nat := 1024

/-- Length of the C string stored at the start of a buffer. -/
def strlen (buf : List Char) : Nat := (buf.takeWhile (fun c => c != NUL)).length

/-- The C string stored at the start of a buffer. -/
def cstr (buf : List Char) : List Char := buf.takeWhile (fun c => c != NUL)

/-- The suffix starting at the last occurrence of `c`, `none` for a null result. -/
def strrchr : List Char → Char → Option (List Char)
  | [], _ => none
  | x :: xs, c =>
    match strrchr xs c with
    | some r => some r
    | none => if x = c then some (x :: xs) else none

/-- The suffix starting at the first occurrence of `needle`. -/
def strstr : List Char → List Char → Option (List Char)
  | [], needle => if needle = [] then some [] else none
  | x :: xs, needle =>
    if needle.isPrefixOf (x :: xs) then some (x :: xs) else strstr xs needle

/-- The classification `isspace` of the C locale. -/
def isspace (c : Char) : Bool :=
  c = ' ' || c = '\t' || c = '\n' || c = Char.ofNat 11 || c = Char.ofNat 12 || c = '\r'

/-- The conversion `%ld` (and `%d`) of a non-negative value. -/
def print_decimal (n : Nat) : List Char := Nat.toDigits 10 n

/-! ## `utils.c` -/

/-- Embeds `get_file_type`: `strrchr` then a chain of `strcmp`; a name
without `.` makes `strcmp` read through a null pointer. -/
def get_file_type (filename : List Char) : Outcome File_type :=
  match strrchr filename '.' with
  | none => Outcome.fault
  | some ext =>
    if ext = ".html".toList then Outcome.ok File_type.HTML
    else if ext = ".txt".toList then Outcome.ok File_type.TEXT
    else if ext = ".gif".toList then Outcome.ok File_type.GIF
    else if ext = ".jpg".toList ∨ ext = ".jpeg".toList ∨ ext = ".ico".toList then
      Outcome.ok File_type.JPG
    else if ext = ".mpeg".toList then Outcome.ok File_type.MPEG
    else if ext = ".py".toList then Outcome.ok File_type.PYTHON
    else if ext = ".php".toList then Outcome.ok File_type.PHP
    else if ext = ".mp4".toList then Outcome.ok File_type.MP4
    else Outcome.ok File_type.UNKNOWN

/-- Embeds `get_file_size`: `st_size`, or 0 when `stat` fails. -/
def get_file_size (env : Env) (filename : List Char) : Nat :=
  match env.files filename with
  | some data => data.length
  | none => 0

/-- Embeds `_replace_ampersand`: every `&` becomes a space, in place. -/
def _replace_ampersand : List Char → List Char
  | [] => []
  | c :: cs => (if c = '&' then ' ' else c) :: _replace_ampersand cs

/-- Embeds `open_file`. The text branch allocates `file_size` zeroed bytes and
reads `file_size - 1` of them; the binary branch reads `file_size` bytes.
`none` is the null pointer. -/
def open_file (env : Env) (filename : List Char) (type : File_type) : Option (List Char) :=
  let binary := type = File_type.BINARY ∨ type = File_type.JPG ∨ type = File_type.GIF
    ∨ type = File_type.MPEG ∨ type = File_type.MP4
  let text := type = File_type.TEXT ∨ type = File_type.HTML
  if binary ∨ text then
    match env.files filename with
    | none => none
    | some data =>
      let file_size := get_file_size env filename
      if file_size = 0 then none
      else if text then
        some (data.take (file_size - 1)
          ++ List.replicate (file_size - (data.take (file_size - 1)).length) NUL)
      else some (data.take file_size)
  else none

/-- One call of `fgets(buffer, size, stream)` on the unread input `s`: the
characters stored (at most `size - 1`, through the first newline) and the
input left. -/
def fgets (size : Nat) (s : List Char) : List Char × List Char :=
  let window := s.take (size - 1)
  let before := window.takeWhile (fun c => c != '\n')
  let line := if before.length < window.length then before ++ ['\n'] else before
  (line, s.drop line.length)

/-- The loop `while (fgets(buffer, sizeof(buffer), file_out))` of
`open_script`: each line contributes `strlen(buffer)` characters. -/
def read_lines : Nat → List Char → List Char
  | 0, _ => []
  | fuel + 1, s =>
    if s = [] then []
    else
      let r := fgets 1024 s
      cstr r.1 ++ read_lines fuel r.2

/-- Embeds `open_script`. The result is the output buffer with its
terminating NUL, `none` the null pointer (also when nothing was read, since
`output` is then never allocated). -/
def open_script (env : Env) (filename : List Char) (type : File_type) (method : Method)
    (input : List Char) : Option (List Char) :=
  let input := _replace_ampersand input
  if method = Method.GET then
    let command : Option (List Char) :=
      if type = File_type.PYTHON then
        some (("python3 ".toList ++ filename ++ " ".toList ++ input).take 255)
      else if type = File_type.PHP then
        some (("php ".toList ++ filename ++ " ".toList ++ input).take 255)
      else none
    match command with
    | none => none
    | some command =>
      match env.popen command with
      | none => none
      | some out =>
        if out = [] then none else some (read_lines out.length out ++ [NUL])
  else if method = Method.POST then
    let interpreter : Option (List Char) :=
      if type = File_type.PYTHON then some "python3".toList
      else if type = File_type.PHP then some "php".toList
      else none
    match interpreter with
    | none => none
    | some interpreter =>
      match env.spawn interpreter filename input with
      | none => none
      | some out => if out = [] then none else some (out ++ [NUL])
  else none

/-! ## `conf_parser.c` -/

/-- Embeds `get_value`: the value of the first entry with the key. -/
def get_value : Dict → List Char → Option (List Char)
  | [], _ => none
  | (k, v) :: rest, key => if k = key then some v else get_value rest key

/-! ## `http_parser.c` -/

/-- One conversion `%Ns` of `sscanf`: white space is skipped, then at most
`width` characters that are not white space are stored. `none` is an input
failure (the input ended first). The second component is the unread input. -/
def scan_s (width : Nat) (s : List Char) : Option (List Char × List Char) :=
  let s1 := s.dropWhile isspace
  let tok := (s1.takeWhile (fun c => !isspace c)).take width
  if tok = [] then none else some (tok, s1.drop tok.length)

/-- What `sscanf(petition, "%7s %256s %8s", ...)` returns and stores. -/
structure Scanned where
  ret : Int
  method : Option (List Char)
  filename : Option (List Char)
  version : Option (List Char)
  deriving DecidableEq, Repr

/-- The call `sscanf(petition, "%7s %256s %8s", method, parser->filename, version)`:
`EOF` (-1) when the input ends before the first conversion, else the number
of conversions done. -/
def sscanf_request (petition : List Char) : Scanned :=
  match scan_s 7 petition with
  | none => ⟨-1, none, none, none⟩
  | some (m, r1) =>
    match scan_s 256 r1 with
    | none => ⟨1, some m, none, none⟩
    | some (f, r2) =>
      match scan_s 8 r2 with
      | none => ⟨2, some m, some f, none⟩
      | some (v, _) => ⟨3, some m, some f, some v⟩

/-- The block of `pars_http` that splits the path token at the first `?`:
the path left in `parser->filename` and the contents of `parser->args`
(`args0` when there is no `?`, the buffer being left as allocated). -/
def split_query (filename args0 : List Char) : List Char × List Char :=
  match strstr filename ['?'] with
  | none => (filename, args0)
  | some query_string =>
    (filename.take (filename.length - query_string.length), query_string.drop 1)

/-- The block of `pars_http` that resolves the file name. A missing
`INDEX_FILE` makes `strcpy` read a null pointer; a missing `BASE_DIR` makes
`pars_http` return `NULL`. The name is written with `strcpy` and `strcat`
into the block of `MAX_PATH` bytes of `parser->filename`: a name that does
not fit there with its terminator is written past the end of the block. -/
def resolve_path (conf : Dict) (filename : List Char) : Outcome (List Char) :=
  if filename = ['/'] then
    match get_value conf "INDEX_FILE".toList with
    | none => Outcome.fault
    | some index =>
      if index.length + 1 > MAX_PATH then Outcome.fault else Outcome.ok index
  else
    match get_value conf "BASE_DIR".toList with
    | none => Outcome.null
    | some base_dir =>
      if (base_dir ++ filename).length + 1 > MAX_PATH then Outcome.fault
      else Outcome.ok (base_dir ++ filename)

/-- The block of `pars_http` that recognises the method: the method stored
and whether `fopen` gave a stream (`file != NULL`). -/
def probe (env : Env) (method filename : List Char) : Method × Bool :=
  if method = "GET".toList then (Method.GET, (env.files filename).isSome)
  else if method = "POST".toList then (Method.POST, (env.files filename).isSome)
  else if method = "OPTIONS".toList then (Method.OPTIONS, (env.files filename).isSome)
  else (Method.UNKNOWN, false)

/-- The block of `pars_http` that resolves the version: `strrchr` then
`strcmp`, which reads a null pointer when the token has no `.`. -/
def resolve_version (version : List Char) : Outcome Version :=
  match strrchr version '.' with
  | none => Outcome.fault
  | some temp => if temp = ".1".toList then Outcome.ok Version.HTTP1_1
    else Outcome.ok Version.HTTP1_0

/-- Embeds `pars_http`. The conversion `%256s` stores the path token and its
terminator in the block of `MAX_PATH` bytes of `parser->filename`: a token of
256 characters is written past the end of the block. -/
def pars_http (env : Env) (g : Garbage) (petition : List Char) (conf : Dict) :
    Outcome Parser :=
  let sc := sscanf_request petition
  if sc.ret < 0 then Outcome.null
  else if (sc.filename.getD []).length + 1 > MAX_PATH then Outcome.fault
  else
    let method := sc.method.getD []
    let version := sc.version.getD g.version
    let q := split_query (sc.filename.getD g.filename) g.args
    if q.1.length = 0 ∨ version.length = 0 then
      Outcome.ok ⟨Method.UNKNOWN, q.1, q.2, g.type, HttpStatusCode.HTTP_BAD_REQUEST, g.pversion⟩
    else
      match resolve_path conf q.1 with
      | Outcome.fault => Outcome.fault
      | Outcome.null => Outcome.null
      | Outcome.ok filename =>
        let m := probe env method filename
        let typed : Outcome (HttpStatusCode × File_type) :=
          if m.2 = false then Outcome.ok (HttpStatusCode.HTTP_NOT_FOUND, File_type.UNKNOWN)
          else
            match get_file_type filename with
            | Outcome.ok t => Outcome.ok (HttpStatusCode.HTTP_OK, t)
            | Outcome.null => Outcome.null
            | Outcome.fault => Outcome.fault
        match typed with
        | Outcome.fault => Outcome.fault
        | Outcome.null => Outcome.null
        | Outcome.ok st =>
          match resolve_version version with
          | Outcome.fault => Outcome.fault
          | Outcome.null => Outcome.null
          | Outcome.ok v => Outcome.ok ⟨m.1, filename, q.2, st.2, st.1, v⟩

/-! ## `response.c`: headers -/

/-- Embeds `_create_OPTIONS_header`; the buffer is zeroed by `calloc`, so a
type matched by no branch leaves the empty string. -/
def _create_OPTIONS_header (type : File_type) : List Char :=
  if type = File_type.HTML then
    ("HTTP/1.1 200 OK\r\n" ++ "Content-Type: html; charset=UTF-8\r\n"
      ++ "Allow: GET, OPTIONS\r\n" ++ "\r\n").toList
  else if type = File_type.JPG then
    ("HTTP/1.1 200 OK\r\n" ++ "Content-Type: image/jpeg\r\n"
      ++ "Allow: GET, OPTIONS\r\n" ++ "\r\n").toList
  else if type = File_type.PYTHON ∨ type = File_type.PHP then
    ("HTTP/1.1 200 OK\r\n" ++ "Content-Type: text/plain; charset=UTF-8\r\n"
      ++ "Allow: GET, POST, OPTIONS\r\n" ++ "\r\n").toList
  else if type = File_type.GIF then
    ("HTTP/1.1 200 OK\r\n" ++ "Content-Type: image/gif\r\n"
      ++ "Allow: GET, OPTIONS\r\n" ++ "\r\n").toList
  else if type = File_type.MPEG then
    ("HTTP/1.1 200 OK\r\n" ++ "Content-Type: video/mpeg\r\n"
      ++ "Allow: GET, OPTIONS\r\n" ++ "\r\n").toList
  else if type = File_type.TEXT then
    ("HTTP/1.1 200 OK\r\n" ++ "Content-Type: text/plain; charset=UTF-8\r\n"
      ++ "Allow: GET, OPTIONS\r\n" ++ "\r\n").toList
  else if type = File_type.MP4 then
    ("HTTP/1.1 200 OK\r\n" ++ "Content-Type: video/mp4\r\n"
      ++ "Allow: GET, OPTIONS\r\n" ++ "\r\n").toList
  else []

/-- Embeds `_create_GET_header`; a type matched by no branch leaves the
empty string. `filename` is not used by the code. -/
def _create_GET_header (_filename : List Char) (file_size : Nat) (type : File_type) :
    List Char :=
  if type = File_type.HTML then
    "HTTP/1.1 200 OK\r\nContent-Type: html; charset=UTF-8\r\nContent-Length: ".toList
      ++ print_decimal file_size ++ "\r\n\r\n".toList
  else if type = File_type.JPG then
    "HTTP/1.1 200 OK\r\nContent-Type: image/jpeg\r\nContent-Length: ".toList
      ++ print_decimal file_size ++ "\r\n\r\n".toList
  else if type = File_type.TEXT ∨ type = File_type.PYTHON ∨ type = File_type.PHP then
    "HTTP/1.1 200 OK\r\nContent-Type: text/plain; charset=UTF-8\r\nContent-Length: ".toList
      ++ print_decimal file_size ++ "\r\n\r\n".toList
  else if type = File_type.GIF then
    "HTTP/1.1 200 OK\r\nContent-Type: image/gif\r\nContent-Length: ".toList
      ++ print_decimal file_size ++ "\r\n\r\n".toList
  else if type = File_type.MPEG then
    "HTTP/1.1 200 OK\r\nContent-Type: video/mpeg\r\nContent-Length: ".toList
      ++ print_decimal file_size ++ "\r\n\r\n".toList
  else if type = File_type.MP4 then
    "HTTP/1.1 200 OK\r\nContent-Type: video/mp4\r\nContent-Length: ".toList
      ++ print_decimal file_size
      ++ "\r\nContent-Disposition: attachment; filename=\"video.mp4\"\r\n\r\n".toList
  else []

/-- Embeds `_create_POST_header`; `filename` and `type` are not used by the code. -/
def _create_POST_header (_filename : List Char) (file_size : Nat) (_type : File_type) :
    List Char :=
  "HTTP/1.1 200 OK\r\nContent-Type: text/plain; charset=UTF-8\r\nContent-Length: ".toList
    ++ print_decimal file_size ++ "\r\n\r\n".toList

/-- The local `body` of `_create_404_header`. -/
def body_404 : List Char :=
  ("<!DOCTYPE html>\n" ++ "<html>\n" ++ "<head>\n" ++ "<title>404 Not Found</title>\n"
    ++ "</head>\n" ++ "<body>\n" ++ "<h1>Error 404 Not Found</h1>\n" ++ "</body>\n"
    ++ "</html>\n").toList

/-- The local `body` of `_create_BadRequest_response`. -/
def body_400 : List Char :=
  ("<!DOCTYPE html>\n" ++ "<html>\n" ++ "<head>\n" ++ "<title>400 Bad Request</title>\n"
    ++ "</head>\n" ++ "<body>\n" ++ "<h1>Error 400 Bad Request</h1>\n" ++ "</body>\n"
    ++ "</html>\n").toList

/-- Embeds `_create_404_header`: the header printed with `strlen(body)`,
then `strcat(header, body)`. The parser is not read. -/
def _create_404_header (_ : Parser) : List Char :=
  ("HTTP/1.1 404 Not Found\r\nContent-Type: html; charset=UTF-8\r\nContent-Length: ".toList
    ++ print_decimal (strlen body_404) ++ "\r\n\r\n".toList) ++ body_404

/-- Embeds `_create_BadRequest_response`. The parser is not read. -/
def _create_BadRequest_response (_ : Parser) : List Char :=
  ("HTTP/1.1 400 Bad Request\r\nContent-Type: html; charset=UTF-8\r\nContent-Length: ".toList
    ++ print_decimal (strlen body_400) ++ "\r\n\r\n".toList) ++ body_400

/-! ## `response.c`: `create_response`, `send_file` -/

/-- A call made by `create_response` to one of the two body sources. -/
inductive Call
  | open_file (filename : List Char) (type : File_type)
  | open_script (filename : List Char) (type : File_type) (method : Method)
      (input : List Char)
  deriving DecidableEq, Repr

/-- Embeds `create_response`: the calls made to `open_file` and
`open_script`, in order, and the response (`none`: `NULL` is returned).
Allocation is taken to succeed. -/
def create_response (env : Env) (parser : Parser) : List Call × Option Response :=
  if parser.status = HttpStatusCode.HTTP_NOT_FOUND then
    ([], some ⟨none, _create_404_header parser, 0⟩)
  else if parser.status = HttpStatusCode.HTTP_BAD_REQUEST then
    ([], some ⟨none, _create_BadRequest_response parser, 0⟩)
  else if parser.method = Method.OPTIONS then
    ([], some ⟨none, _create_OPTIONS_header parser.type, 0⟩)
  else
    let opened : List Call × Option (List Char) :=
      if parser.type ≠ File_type.PYTHON ∧ parser.type ≠ File_type.PHP then
        ([Call.open_file parser.filename parser.type],
          open_file env parser.filename parser.type)
      else if parser.method ≠ Method.OPTIONS then
        ([Call.open_script parser.filename parser.type parser.method parser.args],
          open_script env parser.filename parser.type parser.method parser.args)
      else ([], none)
    match opened.2 with
    | none => (opened.1, none)
    | some file =>
      let sized : Option Nat :=
        if parser.type = File_type.TEXT ∨ parser.type = File_type.HTML
            ∨ parser.type = File_type.PYTHON ∨ parser.type = File_type.PHP then
          some (strlen file)
        else if parser.type = File_type.BINARY ∨ parser.type = File_type.JPG
            ∨ parser.type = File_type.GIF ∨ parser.type = File_type.MPEG
            ∨ parser.type = File_type.MP4 then
          some (get_file_size env parser.filename)
        else none
      match sized with
      | none => (opened.1, none)
      | some content_length =>
        if parser.method = Method.GET then
          (opened.1, some ⟨some file,
            _create_GET_header parser.filename content_length parser.type, content_length⟩)
        else if parser.method = Method.POST then
          (opened.1, some ⟨some file,
            _create_POST_header parser.filename content_length parser.type, content_length⟩)
        else (opened.1, none)

/-- The loop of `send_file`: `bytes_sent` so far, the remaining results of
`send` in `sock` (`none` is -1, `some k` a socket that takes at most `k`
bytes of the call; when `sock` is used up every call takes all it is
given). The result lists the bytes taken by each call; `none` means the
loop has not ended within `fuel` iterations. -/
def send_file_loop (content : List Char) (total_size : Nat) :
    Nat → Nat → List (Option Nat) → Option (List (List Char))
  | 0, bytes_sent, _ => if bytes_sent < total_size then none else some []
  | fuel + 1, bytes_sent, sock =>
    if bytes_sent < total_size then
      let bytes_to_send :=
        if total_size - bytes_sent > BUFFER_SIZE then BUFFER_SIZE else total_size - bytes_sent
      match sock with
      | none :: _ => some []
      | some k :: rest =>
        let status := min k bytes_to_send
        (send_file_loop content total_size fuel (bytes_sent + status) rest).map
          (fun l => (content.drop bytes_sent).take status :: l)
      | [] =>
        (send_file_loop content total_size fuel (bytes_sent + bytes_to_send) []).map
          (fun l => (content.drop bytes_sent).take bytes_to_send :: l)
    else some []

/-- Embeds `send_file` on a socket whose `send` results are `sock`. -/
def send_file (sock : List (Option Nat)) (response : Response) : Option (List (List Char)) :=
  send_file_loop (response.content.getD []) response.content_length
    (response.content_length + 1) 0 sock

/-- The bytes that one iteration of `_handle_client` writes for a parsed
request and its response on a socket that takes every byte it is given:
`send(header, strlen(header))`, then `send_file` when the status is
`HTTP_OK` and the method is not `OPTIONS`. -/
def transmitted (parser : Parser) (response : Response) : List Char :=
  response.header ++
    (if parser.status = HttpStatusCode.HTTP_OK ∧ parser.method ≠ Method.OPTIONS then
      ((send_file [] response).getD []).flatten
    else [])

/-! ## Reading a header back -/

/-- The text after the first occurrence of `key`, up to the next carriage
return: the value of the header field `key`. -/
def header_field (key : List Char) (header : List Char) : Option (List Char) :=
  match strstr header key with
  | none => none
  | some r => some ((r.drop key.length).takeWhile (fun c => c != '\r'))

/-- The number printed after `Content-Length: `, when there is one. -/
def read_decimal : Nat → List Char → Nat
  | acc, [] => acc
  | acc, c :: cs => if c.isDigit then read_decimal (acc * 10 + (c.toNat - 48)) cs else acc

/-- The value of the first `Content-Length` field of a byte stream: the
decimal number that follows `Content-Length: `. -/
def declared_length (wire : List Char) : Option Nat :=
  match strstr wire "Content-Length: ".toList with
  | none => none
  | some r =>
    match r.drop 16 with
    | [] => none
    | c :: cs => if c.isDigit then some (read_decimal 0 (c :: cs)) else none

/-- The bytes of a stream that follow its first blank line (CR LF CR LF). -/
def body_of (wire : List Char) : Option (List Char) :=
  (strstr wire "\r\n\r\n".toList).map (List.drop 4)

/-- Whether `needle` occurs in `s`. -/
def occurs (needle s : List Char) : Bool := (strstr s needle).isSome


/-- The value of a run of decimal digits, most significant first. -/
def digits_value (ds : List Char) : Nat :=
  ds.foldl (fun a c => a * 10 + (c.toNat - 48)) 0

/-- The complete response sent for a path that cannot be opened. -/
def response_404 : Response :=
  ⟨none,
    ("HTTP/1.1 404 Not Found\r\nContent-Type: html; charset=UTF-8\r\nContent-Length: 119\r\n\r\n"
      ++ "<!DOCTYPE html>\n<html>\n<head>\n<title>404 Not Found</title>\n</head>\n<body>\n"
      ++ "<h1>Error 404 Not Found</h1>\n</body>\n</html>\n").toList,
    0⟩

/-! ## Sample inputs -/

/-- The configuration of the end-to-end scenario. -/
def sample_conf : Dict :=
  [("PORT".toList, "8080".toList), ("MAX_CLIENTS".toList, "5".toList),
   ("TIMEOUT".toList, "10".toList), ("BASE_DIR".toList, "/srv".toList),
   ("INDEX_FILE".toList, "/srv/index.html".toList)]

/-- A document root with a few files; no interpreter is available. -/
def sample_env : Env :=
  ⟨fun path =>
      if path = "/srv/index.html".toList then some "<html>hello</html>\n".toList
      else if path = "/srv/a.txt".toList then some "hi".toList
      else if path = "/srv/pic.gif".toList then some "GIF89a".toList
      else if path = "/srv/empty.gif".toList then some []
      else if path = "/srv/style.css".toList then some "body \x7b\x7d".toList
      else none,
    fun _ => none, fun _ _ _ => none⟩

/-- Uninitialised memory that happens to hold empty strings. -/
def sample_garbage : Garbage := ⟨[], [], [], File_type.JPG, Version.HTTP1_0⟩


/-! ## `reactive.c`: the worker -/

/-- The macro `MAX_THREADS` of `reactive.h`. -/
def MAX_THREADS : Nat := 1024

/-- The globals of `reactive.c` that the supervisor and the workers share. -/
structure Globals where
  max_clients : Nat
  active_clients : Int
  client_sockets : List Int
  shutdown_flag : Bool
  deriving DecidableEq, Repr

/-- The loop of `server_listen` over the first `n` slots of the registry: the
first slot holding 0 receives the descriptor. -/
def reserve_slot : Nat → List Int → Int → List Int
  | 0, l, _ => l
  | _ + 1, [], _ => []
  | n + 1, x :: xs, fd => if x = 0 then fd :: xs else x :: reserve_slot n xs fd

/-- The loop of `_cleanup_handler` over the first `n` slots of the registry:
the first slot holding the descriptor is set to 0. -/
def release_slot : Nat → List Int → Int → List Int
  | 0, l, _ => l
  | _ + 1, [], _ => []
  | n + 1, x :: xs, fd => if x = fd then 0 :: xs else x :: release_slot n xs fd

/-- The loop of `sigint_handler` over the first `n` slots of the registry:
every slot that is not 0 is shut down, closed and set to 0. -/
def close_all : Nat → List Int → List Int
  | 0, l => l
  | _ + 1, [] => []
  | n + 1, x :: xs => (if x ≠ 0 then 0 else x) :: close_all n xs

/-- The block of `_handle_client` that runs for a POST request between
`pars_http` and `create_response`: `postargs = strstr(buffer, "\r\n\r\n")`,
`strcpy(parser->args, postargs)`, `parser->args += 4`. A buffer without a
blank line makes `strcpy` read a null pointer, and a text that does not fit
with its terminator in the block of `MAX_ARGS` bytes of `parser->args` is
written past the end of the block. -/
def take_post_body (buffer : List Char) (parser : Parser) : Outcome Parser :=
  if parser.method = Method.POST then
    match strstr buffer "\r\n\r\n".toList with
    | none => Outcome.fault
    | some postargs =>
      if postargs.length + 1 > MAX_ARGS then Outcome.fault
      else Outcome.ok { parser with args := postargs.drop 4 }
  else Outcome.ok parser

/-- The test of `_handle_client` that follows `create_response`: the value
of `keep_alive` after it, `shutdown_flag` being the value read there. -/
def keep_alive_after (buffer : List Char) (shutdown_flag : Bool) (parser : Parser) : Bool :=
  !((strstr buffer "Connection: close".toList).isSome || shutdown_flag
    || decide (parser.version = Version.HTTP1_0))

/-- What a worker does that is visible from outside or concerns a resource. -/
inductive Action
  | read
  | parser_alloc
  | response_alloc
  | send (bytes : List Char)
  | parser_free
  | response_free
  | close (fd : Int)
  | decrement
  deriving DecidableEq, Repr

/-- What one pass of the loop of `_handle_client` meets: the value of
`shutdown_flag` read by the loop condition, the result of `read` (`none`: 0 or
negative, else the C string left in `buffer`), the memory `pars_http` reads
before writing it, and the value of `shutdown_flag` read after
`create_response`. -/
structure Pass where
  shutdown_head : Bool
  read : Option (List Char)
  garbage : Garbage
  shutdown_if : Bool

/-- Whether the locals `parser` and `response` of `_handle_client` are not
null. -/
structure Held where
  parser : Bool
  response : Bool
  deriving DecidableEq, Repr

/-- How one pass of the loop ends: the loop is left (`exit`), the loop
condition is evaluated again with `keep_alive` still 1 (`again`), or the
pass runs into undefined behaviour, a read through a null pointer or a write
past the end of a block (`crash`); a read through a null pointer ends the
process. -/
inductive PassResult
  | exit (trace : List Action) (held : Held)
  | again (trace : List Action)
  | crash
  deriving DecidableEq, Repr

/-- One pass of the loop `while (keep_alive && !shutdown_flag)` of
`_handle_client`, entered with `keep_alive = 1` and both locals null. The
sockets take every byte they are given. -/
def worker_pass (env : Env) (conf : Dict) (pass : Pass) : PassResult :=
  if pass.shutdown_head then PassResult.exit [] ⟨false, false⟩
  else
    match pass.read with
    | none => PassResult.exit [Action.read] ⟨false, false⟩
    | some buffer =>
      match pars_http env pass.garbage buffer conf with
      | Outcome.fault => PassResult.crash
      | Outcome.null => PassResult.exit [Action.read] ⟨false, false⟩
      | Outcome.ok parsed =>
        match take_post_body buffer parsed with
        | Outcome.fault => PassResult.crash
        | Outcome.null => PassResult.crash
        | Outcome.ok parser =>
          match (create_response env parser).2 with
          | none => PassResult.exit [Action.read, Action.parser_alloc] ⟨true, false⟩
          | some response =>
            let trace :=
              [Action.read, Action.parser_alloc, Action.response_alloc,
                Action.send response.header]
              ++ (if parser.status = HttpStatusCode.HTTP_OK ∧ parser.method ≠ Method.OPTIONS
                  then [Action.send ((send_file [] response).getD []).flatten] else [])
              ++ [Action.parser_free, Action.response_free]
            if keep_alive_after buffer pass.shutdown_if parser then PassResult.again trace
            else PassResult.exit trace ⟨false, false⟩

/-- The loop of `_handle_client` over the passes it meets; when the list is
used up the worker is taken to leave the loop at its condition. `none`: a
pass ended in `crash`. -/
def worker_loop (env : Env) (conf : Dict) : List Pass → Option (List Action × Held)
  | [] => some ([], ⟨false, false⟩)
  | pass :: rest =>
    match worker_pass env conf pass with
    | PassResult.crash => none
    | PassResult.exit trace held => some (trace, held)
    | PassResult.again trace =>
      (worker_loop env conf rest).map (fun r => (trace ++ r.1, r.2))

/-- Embeds `_cleanup_handler`: what it does and the globals it leaves. -/
def _cleanup_handler (held : Held) (client_socket : Int) (g : Globals) :
    List Action × Globals :=
  ((if held.parser then [Action.parser_free] else [])
      ++ (if held.response then [Action.response_free] else [])
      ++ [Action.close client_socket, Action.decrement],
    { g with
      client_sockets := release_slot g.max_clients g.client_sockets client_socket
      active_clients := g.active_clients - 1 })

/-- Embeds `_handle_client` for the descriptor `client_socket`: the loop,
then `pthread_cleanup_pop(1)`, which runs `_cleanup_handler` on the globals
as they are at that time. `none`: a pass of the loop ended in `crash`. -/
def _handle_client (env : Env) (conf : Dict) (client_socket : Int) (passes : List Pass)
    (g : Globals) : Option (List Action × Globals) :=
  match worker_loop env conf passes with
  | none => none
  | some r =>
    some (r.1 ++ (_cleanup_handler r.2 client_socket g).1,
      (_cleanup_handler r.2 client_socket g).2)

/-- Embeds `sigint_handler`: the flag is set and every registered descriptor
is shut down, closed and forgotten. -/
def sigint_handler (g : Globals) : Globals :=
  { g with shutdown_flag := true, client_sockets := close_all g.max_clients g.client_sockets }

/-- What is held after a trace, starting from `held`: an allocation needs
the local to be null and a release needs it to be set; `none` when the trace
allocates over a held resource or frees one that is not held. -/
def resources : List Action → Held → Option Held
  | [], held => some held
  | Action.parser_alloc :: t, held =>
    if held.parser then none else resources t { held with parser := true }
  | Action.parser_free :: t, held =>
    if held.parser then resources t { held with parser := false } else none
  | Action.response_alloc :: t, held =>
    if held.response then none else resources t { held with response := true }
  | Action.response_free :: t, held =>
    if held.response then resources t { held with response := false } else none
  | Action.read :: t, held => resources t held
  | Action.send _ :: t, held => resources t held
  | Action.close _ :: t, held => resources t held
  | Action.decrement :: t, held => resources t held

/-- Whether a trace holds a step of the release sequence that the worker
runs on leaving: closing a descriptor or decrementing the counter. -/
def releases : List Action → Bool
  | [] => false
  | Action.close _ :: _ => true
  | Action.decrement :: _ => true
  | _ :: t => releases t

/-! ## `reactive.c`: the supervisor and the workers as a step system -/

/-- Where the supervisor is in the loop of `server_listen`. -/
inductive Phase
  | loop_head
  | admission
  | accepting
  | accepted (fd : Int)
  | reserving (fd : Int)
  | reserved (fd : Int)
  | creating (fd : Int)
  | created (fd : Int)
  | returned
  deriving DecidableEq, Repr

/-- The globals, the place of the supervisor, and the descriptors of the
workers that have been started and have not gone through their cleanup. -/
structure System where
  g : Globals
  phase : Phase
  workers : List Int
  deriving DecidableEq, Repr

/-- The atomic steps: the loop condition of `server_listen`, the admission
check, `accept` returning `fd`, the test of the flag after `accept`, the
reservation of a slot, the test `*client_socket < 0`, `pthread_create`
succeeding or not, the increment of `active_clients`, the cleanup of the
worker of `fd`, and `sigint_handler`. -/
inductive Label
  | loop_test
  | admission_check
  | accept (fd : Int)
  | shutdown_test
  | reserve
  | descriptor_test
  | create_thread (ok : Bool)
  | increment
  | worker_cleanup (fd : Int)
  | interrupt
  deriving DecidableEq, Repr

/-- One atomic step; `none` when the step cannot be taken in the state. -/
def step (l : Label) (s : System) : Option System :=
  match l, s.phase with
  | Label.loop_test, Phase.loop_head =>
    some { s with phase := if s.g.shutdown_flag then Phase.returned else Phase.admission }
  | Label.admission_check, Phase.admission =>
    some { s with phase :=
      if s.g.active_clients ≥ (s.g.max_clients : Int) then Phase.loop_head
      else Phase.accepting }
  | Label.accept fd, Phase.accepting => some { s with phase := Phase.accepted fd }
  | Label.shutdown_test, Phase.accepted fd =>
    some { s with phase := if s.g.shutdown_flag then Phase.returned else Phase.reserving fd }
  | Label.reserve, Phase.reserving fd =>
    some { s with
      g := { s.g with
        client_sockets := reserve_slot s.g.max_clients s.g.client_sockets fd }
      phase := Phase.reserved fd }
  | Label.descriptor_test, Phase.reserved fd =>
    some { s with phase := if fd < 0 then Phase.loop_head else Phase.creating fd }
  | Label.create_thread ok, Phase.creating fd =>
    if ok then some { s with workers := fd :: s.workers, phase := Phase.created fd }
    else some { s with phase := Phase.loop_head }
  | Label.increment, Phase.created _ =>
    some { s with
      g := { s.g with active_clients := s.g.active_clients + 1 }
      phase := Phase.loop_head }
  | Label.worker_cleanup fd, _ =>
    if fd ∈ s.workers then
      some { s with
        g := (_cleanup_handler ⟨false, false⟩ fd s.g).2
        workers := s.workers.erase fd }
    else none
  | Label.interrupt, _ => some { s with g := sigint_handler s.g }
  | _, _ => none

/-- The steps of a list taken in order. -/
def run : List Label → System → Option System
  | [], s => some s
  | l :: ls, s =>
    match step l s with
    | none => none
    | some t => run ls t

/-- The state in which `server_listen` enters its loop (the globals as
initialised, `max_clients` read from the configuration). -/
def initial (max_clients : Nat) : System :=
  ⟨⟨max_clients, 0, List.replicate MAX_THREADS 0, false⟩, Phase.loop_head, []⟩

/-- The part of `active_clients` that is still to come: 1 between
`pthread_create` and the increment. -/
def pending_increment : Phase → Nat
  | Phase.created _ => 1
  | _ => 0

/-- Whether the supervisor is between a passed admission check and the
increment that follows it. -/
def post_admission : Phase → Bool
  | Phase.accepting => true
  | Phase.accepted _ => true
  | Phase.reserving _ => true
  | Phase.reserved _ => true
  | Phase.creating _ => true
  | Phase.created _ => true
  | _ => false

/-- What every step keeps of the counter, whether `accept` and
`pthread_create` succeed or not: the bound on `active_clients` (strict
between the admission check and the increment) and the account of
`active_clients` against the live workers. -/
def counter_invariant (max : Nat) (s : System) : Prop :=
  s.g.max_clients = max ∧
  s.g.active_clients ≤ (max : Int) ∧
  (post_admission s.phase = true → s.g.active_clients < (max : Int)) ∧
  s.g.active_clients + (pending_increment s.phase : Int) = (s.workers.length : Int)

/-- A document root with a script and an interpreter that copies its
standard input to its standard output; `popen` gives the command line back. -/
def echo_env : Env :=
  ⟨fun path =>
      if path = "/srv/calc.py".toList then some "import sys\n".toList
      else if path = "/srv/index.html".toList then some "<html>hello</html>\n".toList
      else none,
    fun command => some command, fun _ _ input => some input⟩

/-! ## `reactive.c`: the shutdown, seen on the steps -/

/-- The number of worker threads that the steps of a list start. -/
def spawns : List Label → Nat
  | [] => 0
  | Label.create_thread true :: t => spawns t + 1
  | _ :: t => spawns t

/-- Whether a list of steps holds an `accept` followed, at any distance, by
the start of a worker thread. -/
def accept_then_spawn : List Label → Bool
  | [] => false
  | Label.accept _ :: t => decide (0 < spawns t) || accept_then_spawn t
  | _ :: t => accept_then_spawn t

/-- Whether the supervisor is past the test of the flag that follows
`accept` and has not yet called `pthread_create`. -/
def spawn_pending : Phase → Bool
  | Phase.reserving _ => true
  | Phase.reserved _ => true
  | Phase.creating _ => true
  | _ => false

/-! ## `reactive.c`: `server_listen` from its entry -/

/-- The function `strtol(s, NULL, 10)` of glibc: white space, an optional
sign, a run of digits; the value is clamped to the range of `long`. -/
def strtol (s : List Char) : Int :=
  let v : Int :=
    match s.dropWhile isspace with
    | [] => 0
    | c :: t =>
      if c = '-' then -((read_decimal 0 t : Nat) : Int)
      else if c = '+' then ((read_decimal 0 t : Nat) : Int)
      else ((read_decimal 0 (c :: t) : Nat) : Int)
  max (-(2 ^ 63)) (min v (2 ^ 63 - 1))

/-- The function `atoi` of glibc, `(int) strtol(s, NULL, 10)`: the value is
reduced to 32 bits, two's complement. -/
def atoi (s : List Char) : Int := (strtol s + 2 ^ 31) % 2 ^ 32 - 2 ^ 31

/-- How `server_listen` comes out of the checks that precede its loop: it
has returned `status`, or it is at the head of the loop with the globals
set. -/
inductive Entry
  | refused (status : Int)
  | listening (s : System) (timeout : Int)
  deriving DecidableEq, Repr

/-- The part of `server_listen` that precedes the loop. `atoi` applied to
the null pointer that `get_value` returns for a missing key is a fault. -/
def server_listen_entry (conf : Dict) : Outcome Entry :=
  match get_value conf "MAX_CLIENTS".toList with
  | none => Outcome.fault
  | some v =>
    let max_clients := atoi v
    if max_clients ≤ 0 ∨ max_clients > (MAX_THREADS : Int) then Outcome.ok (Entry.refused (-1))
    else
      match get_value conf "TIMEOUT".toList with
      | none => Outcome.fault
      | some t =>
        let timeout := atoi t
        if timeout ≤ 0 then Outcome.ok (Entry.refused (-1))
        else
          match get_value conf "PORT".toList with
          | none => Outcome.fault
          | some _ => Outcome.ok (Entry.listening (initial max_clients.toNat) timeout)

/-- Embeds `server_listen` along the steps `ls` of its loop and of the other
threads: the steps taken and the value returned (`none` while the loop is
running). A refusal takes no step; the loop, once left, returns 0; a list
that the loop cannot follow is not taken. -/
def server_listen (conf : Dict) (ls : List Label) : Outcome (List Label × Option Int) :=
  match server_listen_entry conf with
  | Outcome.fault => Outcome.fault
  | Outcome.null => Outcome.null
  | Outcome.ok (Entry.refused status) => Outcome.ok ([], some status)
  | Outcome.ok (Entry.listening s _) =>
    match run ls s with
    | none => Outcome.ok ([], none)
    | some t => Outcome.ok (ls, if t.phase = Phase.returned then some 0 else none)

/-! ## `response.c`: `send_file` with what each `send` is asked for -/

/-- The loop of `send_file` as `send_file_loop`, keeping for every call of
`send` the length it is asked for (`bytes_to_send`) and the bytes it takes
(`none`: the call returns -1 and `send_file` returns). -/
def send_file_calls (content : List Char) (total_size : Nat) :
    Nat → Nat → List (Option Nat) → Option (List (Nat × Option (List Char)))
  | 0, bytes_sent, _ => if bytes_sent < total_size then none else some []
  | fuel + 1, bytes_sent, sock =>
    if bytes_sent < total_size then
      let bytes_to_send :=
        if total_size - bytes_sent > BUFFER_SIZE then BUFFER_SIZE else total_size - bytes_sent
      match sock with
      | none :: _ => some [(bytes_to_send, none)]
      | some k :: rest =>
        let status := min k bytes_to_send
        (send_file_calls content total_size fuel (bytes_sent + status) rest).map
          (fun l => (bytes_to_send, some ((content.drop bytes_sent).take status)) :: l)
      | [] =>
        (send_file_calls content total_size fuel (bytes_sent + bytes_to_send) []).map
          (fun l => (bytes_to_send, some ((content.drop bytes_sent).take bytes_to_send)) :: l)
    else some []

/-- The calls of `send` made by `send_file` on a socket whose `send` results
are `sock`. -/
def send_file_trace (sock : List (Option Nat)) (response : Response) :
    Option (List (Nat × Option (List Char))) :=
  send_file_calls (response.content.getD []) response.content_length
    (response.content_length + 1) 0 sock

/-! ## Body sources and the block of arguments -/

/-- What a call of `create_response` to a body source returns. -/
def call_result (env : Env) : Call → Option (List Char)
  | Call.open_file filename type => open_file env filename type
  | Call.open_script filename type method input => open_script env filename type method input

/-- The block allocated for `parser->args`: the C string stored from its
first byte, and the offset of the pointer `parser->args` in it. -/
structure ArgsBlock where
  stored : List Char
  offset : Int
  deriving DecidableEq, Repr

/-- The POST block of `_handle_client` on the memory of `parser->args`:
`strcpy(parser->args, postargs)` then `parser->args += 4`. The behaviour is
undefined (`fault`) when `strstr` finds no blank line, `strcpy` then reading
a null pointer, and when the text and its terminator do not fit in the
`MAX_ARGS` bytes of the block. -/
def post_block (buffer : List Char) : Outcome ArgsBlock :=
  match strstr buffer "\r\n\r\n".toList with
  | none => Outcome.fault
  | some postargs =>
    if postargs.length + 1 > MAX_ARGS then Outcome.fault
    else Outcome.ok ⟨postargs, 4⟩

/-- The C string that `parser->args` points to. -/
def args_of (block : ArgsBlock) : List Char := block.stored.drop block.offset.toNat

/-- The lines that release `args` when the parser is freed: the offset in the block
of the pointer passed to `free`, which is defined for offset 0 only. -/
def free_parser_args (method : Method) (block : ArgsBlock) : Int :=
  if method = Method.POST then block.offset - 4 else block.offset

/-- A document root with a file whose name has no `.`. -/
def readme_env : Env :=
  ⟨fun path => if path = "/srv/README".toList then some "read me\n".toList else none,
    fun _ => none, fun _ _ _ => none⟩

/-- A document root with a script whose output starts with a NUL byte, in
both modes. -/
def nul_env : Env :=
  ⟨fun path => if path = "/srv/calc.py".toList then some "import sys\n".toList else none,
    fun _ => some [NUL, 'x'], fun _ _ _ => some [NUL, 'x']⟩

/-! ## Lemmas on the libc functions -/

theorem strrchr_eq_none_iff (s : List Char) (c : Char) : strrchr s c = none ↔ c ∉ s := by
  induction s with
  | nil => simp [strrchr]
  | cons x xs ih =>
    simp only [strrchr]
    cases h : strrchr xs c with
    | some r =>
      have : ¬ (c ∉ xs) := fun hn => by rw [ih.mpr hn] at h; cases h
      simp at this
      simp [this]
    | none =>
      have hc := ih.mp h
      by_cases hx : x = c
      · simp [hx]
      · simp [hx, hc, Ne.symm hx]

theorem strstr_char (s : List Char) (c : Char) :
    strstr s [c] = if c ∈ s then some (s.dropWhile (fun x => x != c)) else none := by
  induction s with
  | nil => simp [strstr]
  | cons x xs ih =>
    by_cases hx : x = c
    · subst hx
      simp [strstr, List.isPrefixOf, List.dropWhile]
    · have hx2 : ¬ c = x := fun h => hx h.symm
      have hb : (x != c) = true := by simp [hx]
      simp [strstr, List.isPrefixOf, List.dropWhile, hx2, ih, hb]

theorem strstr_length (needle : List Char) : ∀ (s r : List Char),
    strstr s needle = some r → needle.length ≤ r.length := by
  intro s
  induction s with
  | nil =>
    intro r h
    simp only [strstr] at h
    split_ifs at h with hn
    cases h
    simp [hn]
  | cons x xs ih =>
    intro r h
    simp only [strstr] at h
    split_ifs at h with hp
    · cases h
      exact (List.isPrefixOf_iff_prefix.mp hp).length_le
    · exact ih r h

/-! ## Lemmas on `%ld` -/

theorem digitChar_isDigit (d : Nat) (h : d < 10) : (Nat.digitChar d).isDigit = true := by
  interval_cases d <;> decide

theorem digitChar_value (d : Nat) (h : d < 10) : (Nat.digitChar d).toNat - 48 = d := by
  interval_cases d <;> decide

theorem toDigitsCore_acc (fuel : Nat) : ∀ (n : Nat) (acc : List Char),
    Nat.toDigitsCore 10 fuel n acc = Nat.toDigitsCore 10 fuel n [] ++ acc := by
  induction fuel with
  | zero => intro n acc; simp [Nat.toDigitsCore]
  | succ k ih =>
    intro n acc
    by_cases hq : n / 10 = 0
    · simp [Nat.toDigitsCore, hq]
    · simp only [Nat.toDigitsCore, hq, if_false]
      rw [ih (n / 10) (Nat.digitChar (n % 10) :: acc), ih (n / 10) [Nat.digitChar (n % 10)]]
      simp

theorem digits_value_snoc (ds : List Char) (d : Char) :
    digits_value (ds ++ [d]) = digits_value ds * 10 + (d.toNat - 48) := by
  simp [digits_value, List.foldl_append]

/-- With more fuel than the number, the text printed is a non-empty run of
decimal digits whose value is the number. -/
theorem toDigitsCore_readback (fuel : Nat) : ∀ n : Nat, n < fuel →
    Nat.toDigitsCore 10 fuel n [] ≠ [] ∧
      (∀ c ∈ Nat.toDigitsCore 10 fuel n [], c.isDigit = true) ∧
      digits_value (Nat.toDigitsCore 10 fuel n []) = n := by
  induction fuel with
  | zero => intro n h; omega
  | succ k ih =>
    intro n h
    have hmod : n % 10 < 10 := Nat.mod_lt _ (by decide)
    by_cases hq : n / 10 = 0
    · have hd : Nat.toDigitsCore 10 (k + 1) n [] = [Nat.digitChar (n % 10)] := by
        simp [Nat.toDigitsCore, hq]
      rw [hd]
      refine ⟨by simp, ?_, ?_⟩
      · intro c hc
        rw [List.mem_singleton] at hc
        rw [hc]
        exact digitChar_isDigit _ hmod
      · have := digits_value_snoc [] (Nat.digitChar (n % 10))
        simp only [List.nil_append] at this
        rw [this, digitChar_value _ hmod]
        simp [digits_value]
        omega
    · have hd : Nat.toDigitsCore 10 (k + 1) n []
          = Nat.toDigitsCore 10 k (n / 10) [] ++ [Nat.digitChar (n % 10)] := by
        simp only [Nat.toDigitsCore, hq, if_false]
        exact toDigitsCore_acc k (n / 10) [Nat.digitChar (n % 10)]
      obtain ⟨_, h2, h3⟩ := ih (n / 10) (by omega)
      rw [hd]
      refine ⟨by simp, ?_, ?_⟩
      · intro c hc
        rcases List.mem_append.mp hc with hc | hc
        · exact h2 c hc
        · rw [List.mem_singleton] at hc
          rw [hc]
          exact digitChar_isDigit _ hmod
      · rw [digits_value_snoc, h3, digitChar_value _ hmod]
        omega

theorem read_decimal_digits (ds rest : List Char) (hd : ∀ c ∈ ds, c.isDigit = true)
    (hr : ∀ c cs, rest = c :: cs → c.isDigit = false) :
    ∀ acc, read_decimal acc (ds ++ rest)
      = ds.foldl (fun a c => a * 10 + (c.toNat - 48)) acc := by
  induction ds with
  | nil =>
    intro acc
    cases rest with
    | nil => simp [read_decimal]
    | cons c cs => simp [read_decimal, hr c cs rfl]
  | cons d ds ih =>
    intro acc
    have h1 : d.isDigit = true := hd d (by simp)
    have h2 : ∀ c ∈ ds, c.isDigit = true := fun c hc => hd c (by simp [hc])
    simp [read_decimal, h1, ih h2]

/-- What `%ld` prints reads back as the number printed: the text is a
non-empty run of digits whose value is `n`. -/
theorem print_decimal_spec (n : Nat) :
    print_decimal n ≠ [] ∧ (∀ c ∈ print_decimal n, c.isDigit = true) ∧
      ∀ rest, (∀ c cs, rest = c :: cs → c.isDigit = false) →
        read_decimal 0 (print_decimal n ++ rest) = n := by
  have hp : print_decimal n = Nat.toDigitsCore 10 (n + 1) n [] := rfl
  obtain ⟨h2, h3, h4⟩ := toDigitsCore_readback (n + 1) n (by omega)
  rw [hp]
  refine ⟨h2, h3, ?_⟩
  intro rest hr
  rw [read_decimal_digits _ rest h3 hr 0]
  exact h4

/-! ## Reading back the headers built by `response.c` -/

theorem strstr_skip (ds t n : List Char) (c0 : Char) (h : ∀ c ∈ ds, c ≠ c0) :
    strstr (ds ++ t) (c0 :: n) = strstr t (c0 :: n) := by
  induction ds with
  | nil => simp
  | cons d ds ih =>
    have hd : ¬ c0 = d := fun e => h d (by simp) e.symm
    have h2 : ∀ c ∈ ds, c ≠ c0 := fun c hc => h c (by simp [hc])
    simp [strstr, List.isPrefixOf, hd, ih h2]

theorem isDigit_ne_cr (c : Char) (h : c.isDigit = true) : c ≠ '\r' := by
  intro e
  subst e
  revert h
  decide

/-- A byte stream made of a prefix ending in `Content-Length: `, a printed
number, a remainder of the header `mid` that begins with CR and holds the
first blank line at its end, and a body: the declared length is the number
and the body is what follows the blank line. -/
theorem wire_spec (pre mid body : List Char) (n : Nat)
    (h1 : ∀ t, strstr (pre ++ t) "\r\n\r\n".toList = strstr t "\r\n\r\n".toList)
    (h2 : ∀ t, strstr (pre ++ t) "Content-Length: ".toList
      = some ("Content-Length: ".toList ++ t))
    (h3 : ∀ t, strstr (mid ++ t) "\r\n\r\n".toList = some ("\r\n\r\n".toList ++ t))
    (h4 : ∃ m, mid = '\r' :: m) :
    body_of (pre ++ print_decimal n ++ mid ++ body) = some body ∧
      declared_length (pre ++ print_decimal n ++ mid ++ body) = some n := by
  obtain ⟨hne, hdig, hread⟩ := print_decimal_spec n
  obtain ⟨m, hm⟩ := h4
  constructor
  · have hs : strstr (print_decimal n ++ (mid ++ body)) "\r\n\r\n".toList
        = strstr (mid ++ body) "\r\n\r\n".toList :=
      strstr_skip _ _ _ _ (fun c hc => isDigit_ne_cr c (hdig c hc))
    simp only [body_of, List.append_assoc, h1]
    rw [hs, h3]
    simp
  · have hrest : ∀ c cs, mid ++ body = c :: cs → c.isDigit = false := by
      intro c cs hc
      rw [hm] at hc
      simp at hc
      rw [← hc.1]
      decide
    have hval := hread (mid ++ body) hrest
    simp only [declared_length, List.append_assoc, h2]
    have hdrop : List.drop 16 ("Content-Length: ".toList ++ (print_decimal n ++ (mid ++ body)))
        = print_decimal n ++ (mid ++ body) := by
      simp
    rw [hdrop]
    cases hp : print_decimal n with
    | nil => exact absurd hp hne
    | cons c cs =>
      have hc : c.isDigit = true := hdig c (by simp [hp])
      rw [hp] at hval
      simp only [List.cons_append, hc, if_true]
      simpa using hval

/-! ## `send_file` on a socket that takes every byte -/

theorem take_drop_split (l : List Char) (total bs k : Nat) (hk : bs + k ≤ total) :
    (l.take total).drop bs = (l.drop bs).take k ++ (l.take total).drop (bs + k) := by
  have e1 : (l.take total).drop bs = (l.drop bs).take (total - bs) := by
    rw [List.drop_take]
  have e2 : (l.take total).drop (bs + k) = ((l.drop bs).drop k).take (total - bs - k) := by
    rw [List.drop_take, List.drop_drop]
    congr 1
    omega
  rw [e1, e2]
  have e3 : total - bs = k + (total - bs - k) := by omega
  conv_lhs => rw [e3]
  rw [List.take_add]

theorem send_file_loop_all (content : List Char) (total : Nat) :
    ∀ fuel bytes_sent, total - bytes_sent ≤ fuel →
      ∃ chunks, send_file_loop content total fuel bytes_sent [] = some chunks ∧
        chunks.flatten = (content.take total).drop bytes_sent := by
  intro fuel
  induction fuel with
  | zero =>
    intro bs h
    have hb : ¬ bs < total := by omega
    refine ⟨[], by simp [send_file_loop, hb], ?_⟩
    simp
    omega
  | succ fuel ih =>
    intro bs h
    by_cases hb : bs < total
    · by_cases hbig : total - bs > BUFFER_SIZE
      · have hB : BUFFER_SIZE = 4096 := rfl
        obtain ⟨chunks, hc1, hc2⟩ := ih (bs + BUFFER_SIZE) (by omega)
        refine ⟨(content.drop bs).take BUFFER_SIZE :: chunks, ?_, ?_⟩
        · simp [send_file_loop, hb, hbig, hc1]
        · rw [List.flatten_cons, hc2]
          exact (take_drop_split content total bs BUFFER_SIZE (by omega)).symm
      · obtain ⟨chunks, hc1, hc2⟩ := ih (bs + (total - bs)) (by omega)
        refine ⟨(content.drop bs).take (total - bs) :: chunks, ?_, ?_⟩
        · simp [send_file_loop, hb, hbig, hc1]
        · rw [List.flatten_cons, hc2]
          exact (take_drop_split content total bs (total - bs) (by omega)).symm
    · refine ⟨[], by simp [send_file_loop, hb], ?_⟩
      simp
      omega

/-- On a socket that takes every byte, `send_file` ends and has sent the
first `content_length` bytes of `content`. -/
theorem send_file_all (r : Response) :
    ((send_file [] r).getD []).flatten = (r.content.getD []).take r.content_length := by
  obtain ⟨chunks, h1, h2⟩ :=
    send_file_loop_all (r.content.getD []) r.content_length (r.content_length + 1) 0 (by omega)
  simp [send_file, h1, h2]

/-! ## The headers read back -/

theorem get_header_wire (filename body : List Char) (n : Nat) (type : File_type)
    (ht : type ≠ File_type.BINARY ∧ type ≠ File_type.UNKNOWN) :
    body_of (_create_GET_header filename n type ++ body) = some body ∧
      declared_length (_create_GET_header filename n type ++ body) = some n := by
  cases type <;> simp only [_create_GET_header] <;>
    first
    | exact absurd rfl ht.1
    | exact absurd rfl ht.2
    | (simp only [reduceCtorEq, if_true, if_false, or_true, true_or, or_false, false_or]
       refine wire_spec _ _ body n ?_ ?_ ?_ ?_
       · intro t; simp [strstr, List.isPrefixOf]
       · intro t; simp [strstr, List.isPrefixOf]
       · intro t; simp [strstr, List.isPrefixOf]
       · exact ⟨_, rfl⟩)

theorem post_header_wire (filename body : List Char) (n : Nat) (type : File_type) :
    body_of (_create_POST_header filename n type ++ body) = some body ∧
      declared_length (_create_POST_header filename n type ++ body) = some n := by
  simp only [_create_POST_header]
  refine wire_spec _ _ body n ?_ ?_ ?_ ?_
  · intro t; simp [strstr, List.isPrefixOf]
  · intro t; simp [strstr, List.isPrefixOf]
  · intro t; simp [strstr, List.isPrefixOf]
  · exact ⟨_, rfl⟩

theorem not_found_wire (parser : Parser) :
    body_of (_create_404_header parser) = some body_404 ∧
      declared_length (_create_404_header parser) = some body_404.length := by
  have hl : strlen body_404 = body_404.length := by rfl
  simp only [_create_404_header, hl]
  refine wire_spec _ _ body_404 _ ?_ ?_ ?_ ?_
  · intro t; simp [strstr, List.isPrefixOf]
  · intro t; simp [strstr, List.isPrefixOf]
  · intro t; simp [strstr, List.isPrefixOf]
  · exact ⟨_, rfl⟩

theorem bad_request_wire (parser : Parser) :
    body_of (_create_BadRequest_response parser) = some body_400 ∧
      declared_length (_create_BadRequest_response parser) = some body_400.length := by
  have hl : strlen body_400 = body_400.length := by rfl
  simp only [_create_BadRequest_response, hl]
  refine wire_spec _ _ body_400 _ ?_ ?_ ?_ ?_
  · intro t; simp [strstr, List.isPrefixOf]
  · intro t; simp [strstr, List.isPrefixOf]
  · intro t; simp [strstr, List.isPrefixOf]
  · exact ⟨_, rfl⟩

/-! ## Lemmas on `pars_http` -/

theorem split_query_fst (f a : List Char) :
    (split_query f a).1 = f.takeWhile (fun c => c != '?') := by
  unfold split_query
  rw [strstr_char]
  by_cases h : '?' ∈ f
  · simp only [h, if_true]
    have hlen : f.length - (f.dropWhile (fun c => c != '?')).length
        = (f.takeWhile (fun c => c != '?')).length := by
      have := congrArg List.length (List.takeWhile_append_dropWhile (fun c => c != '?') f)
      simp only [List.length_append] at this
      omega
    rw [hlen]
    have key : ∀ a b : List Char, List.take a.length (a ++ b) = a := by
      intro a b
      simp
    have k2 := key (f.takeWhile (fun c => c != '?')) (f.dropWhile (fun c => c != '?'))
    rw [List.takeWhile_append_dropWhile] at k2
    exact k2
  · simp only [h, if_false]
    symm
    rw [List.takeWhile_eq_self_iff]
    intro c hc
    have : c ≠ '?' := fun e => h (e ▸ hc)
    simp [this]

theorem split_query_snd (f a : List Char) :
    (split_query f a).2
      = if '?' ∈ f then (f.dropWhile (fun c => c != '?')).drop 1 else a := by
  unfold split_query
  rw [strstr_char]
  by_cases h : '?' ∈ f <;> simp [h]

theorem scan_s_ne_nil (w : Nat) (s tok rest : List Char)
    (h : scan_s w s = some (tok, rest)) : tok ≠ [] := by
  unfold scan_s at h
  intro e
  by_cases hn : List.take w (List.takeWhile (fun c => !isspace c) (List.dropWhile isspace s)) = []
  · simp [hn] at h
  · simp [hn] at h
    exact hn (h.1.trans e)

theorem sscanf_version_ne_nil (petition : List Char) (r : Int) (m f : Option (List Char))
    (v : List Char) (h : sscanf_request petition = ⟨r, m, f, some v⟩) : v ≠ [] := by
  unfold sscanf_request at h
  cases h1 : scan_s 7 petition with
  | none => simp [h1] at h
  | some a =>
    obtain ⟨m1, r1⟩ := a
    cases h2 : scan_s 256 r1 with
    | none => simp [h1, h2] at h
    | some b =>
      obtain ⟨f1, r2⟩ := b
      cases h3 : scan_s 8 r2 with
      | none => simp [h1, h2, h3] at h
      | some c =>
        obtain ⟨v1, r3⟩ := c
        simp [h1, h2, h3] at h
        have := scan_s_ne_nil 8 r2 v1 r3 h3
        rw [h.2.2.2] at this
        exact this

/-- What `pars_http` computes once the three tokens are scanned, the path
left after the query is not empty and the file name is resolved. -/
theorem pars_http_resolved (env : Env) (g : Garbage) (petition : List Char) (conf : Dict)
    (m f v name : List Char)
    (hs : sscanf_request petition = ⟨3, some m, some f, some v⟩)
    (hf : f.length < MAX_PATH)
    (hp : f.takeWhile (fun c => c != '?') ≠ [])
    (hr : resolve_path conf (f.takeWhile (fun c => c != '?')) = Outcome.ok name) :
    pars_http env g petition conf =
      match (if (probe env m name).2 = false
              then Outcome.ok (HttpStatusCode.HTTP_NOT_FOUND, File_type.UNKNOWN)
              else match get_file_type name with
                | Outcome.ok t => Outcome.ok (HttpStatusCode.HTTP_OK, t)
                | Outcome.null => Outcome.null
                | Outcome.fault => Outcome.fault) with
      | Outcome.fault => Outcome.fault
      | Outcome.null => Outcome.null
      | Outcome.ok st =>
        match resolve_version v with
        | Outcome.fault => Outcome.fault
        | Outcome.null => Outcome.null
        | Outcome.ok ver =>
          Outcome.ok ⟨(probe env m name).1, name, (split_query f g.args).2, st.2, st.1, ver⟩ := by
  have hv : v ≠ [] := sscanf_version_ne_nil petition 3 (some m) (some f) v hs
  have hv2 : ¬ v.length = 0 := fun e => hv (List.length_eq_zero.mp e)
  have hp2 : ¬ (f.takeWhile (fun c => c != '?')).length = 0 :=
    fun e => hp (List.length_eq_zero.mp e)
  have hf2 : ¬ f.length + 1 > MAX_PATH := by omega
  unfold pars_http
  simp only [hs, Option.getD_some, split_query_fst, hp2, hv2, hf2, or_self, if_false, hr]
  simp

/-- When the version token has no `.`, a request that reaches the version
block ends in the null dereference of `strcmp(temp, ".1")`, whatever the
file system and the uninitialised memory hold. -/
theorem pars_http_version_fault (env : Env) (g : Garbage) (petition : List Char) (conf : Dict)
    (m f v name : List Char) (t : File_type)
    (hs : sscanf_request petition = ⟨3, some m, some f, some v⟩)
    (hp : f.takeWhile (fun c => c != '?') ≠ [])
    (hr : resolve_path conf (f.takeWhile (fun c => c != '?')) = Outcome.ok name)
    (ht : get_file_type name = Outcome.ok t)
    (hv : resolve_version v = Outcome.fault) :
    pars_http env g petition conf = Outcome.fault := by
  by_cases hf : f.length < MAX_PATH
  · rw [pars_http_resolved env g petition conf m f v name hs hf hp hr, ht, hv]
    by_cases hb : (probe env m name).2 = false <;> simp [hb]
  · have hf2 : f.length + 1 > MAX_PATH := by omega
    unfold pars_http
    simp [hs, hf2]

/-! ## Lemmas on `create_response` -/

theorem strlen_le_length (buf : List Char) : strlen buf ≤ buf.length := by
  unfold strlen
  exact List.IsPrefix.length_le ( List.takeWhile_prefix _)

theorem open_file_binary_length (env : Env) (filename file : List Char) (type : File_type)
    (hb : type ≠ File_type.TEXT ∧ type ≠ File_type.HTML)
    (h : open_file env filename type = some file) :
    file.length = get_file_size env filename := by
  unfold open_file get_file_size at *
  cases hf : env.files filename with
  | none => simp [hf] at h
  | some data =>
    simp only [hf] at h
    simp only [hb.1, hb.2, or_self, or_false] at h
    split_ifs at h <;> simp_all

/-- The shape of every response returned for a GET or POST request with
status `HTTP_OK`: a body buffer at least `content_length` long and the header
of the method, printed with `content_length`. -/
theorem create_response_ok_shape (env : Env) (p : Parser) (r : Response)
    (hs : p.status = HttpStatusCode.HTTP_OK)
    (hm : p.method = Method.GET ∨ p.method = Method.POST)
    (hr : (create_response env p).2 = some r) :
    ∃ file, r.content = some file ∧ r.content_length ≤ file.length ∧
      p.type ≠ File_type.UNKNOWN ∧
      r.header = (if p.method = Method.GET
        then _create_GET_header p.filename r.content_length p.type
        else _create_POST_header p.filename r.content_length p.type) := by
  rcases hm with h | h <;> cases hty : p.type <;>
    simp [create_response, hs, h, hty] at hr ⊢
  all_goals
    split at hr <;>
      first
      | (simp at hr; done)
      | (rename_i file hof
         simp at hr
         subst hr
         first
         | exact ⟨file, rfl, strlen_le_length file, rfl⟩
         | exact ⟨file, rfl,
             by rw [open_file_binary_length env _ file _ (by decide) hof], rfl⟩)

theorem get_file_type_ne_BINARY (filename : List Char) (t : File_type)
    (h : get_file_type filename = Outcome.ok t) : t ≠ File_type.BINARY := by
  unfold get_file_type at h
  split at h
  · cases h
  · split_ifs at h <;> cases h <;> decide

/-- A parser returned with status `HTTP_OK` carries the category computed by
`get_file_type` on its file name. -/
theorem pars_http_ok_type (env : Env) (g : Garbage) (petition : List Char) (conf : Dict)
    (p : Parser) (h : pars_http env g petition conf = Outcome.ok p)
    (hs : p.status = HttpStatusCode.HTTP_OK) :
    get_file_type p.filename = Outcome.ok p.type := by
  unfold pars_http at h
  simp only at h
  split_ifs at h with h1 h2
  · cases h
    cases hs
  · split at h
    · cases h
    · cases h
    · rename_i name hname
      cases hv : resolve_version ((sscanf_request petition).version.getD g.version) with
      | fault =>
        simp only [hv] at h
        split at h <;> cases h
      | null =>
        simp only [hv] at h
        split at h <;> cases h
      | ok v =>
        by_cases hb : (probe env ((sscanf_request petition).method.getD []) name).2 = false
        · simp [hb, hv] at h
          subst h
          cases hs
        · cases hg : get_file_type name with
          | fault => simp [hb, hg] at h
          | null => simp [hb, hg] at h
          | ok t =>
            simp [hb, hg, hv] at h
            subst h
            exact hg

theorem resolve_version_of_dot (v : List Char) (h : '.' ∈ v) :
    ∃ ver, resolve_version v = Outcome.ok ver := by
  unfold resolve_version
  cases hs : strrchr v '.' with
  | none => exact absurd h ((strrchr_eq_none_iff v '.').mp hs)
  | some temp =>
    by_cases ht : temp = ".1".toList
    · exact ⟨Version.HTTP1_1, by simp only [ht, if_true]⟩
    · exact ⟨Version.HTTP1_0, by simp only [ht, if_false]⟩

theorem get_file_type_of_dot (name : List Char) (h : '.' ∈ name) :
    ∃ t, get_file_type name = Outcome.ok t := by
  unfold get_file_type
  cases hs : strrchr name '.' with
  | none => exact absurd h ((strrchr_eq_none_iff name '.').mp hs)
  | some ext =>
    simp only
    split_ifs <;> exact ⟨_, rfl⟩

theorem probe_recognised (env : Env) (m name : List Char)
    (h : m = "GET".toList ∨ m = "POST".toList ∨ m = "OPTIONS".toList) :
    (probe env m name).2 = (env.files name).isSome ∧ (probe env m name).1 ≠ Method.UNKNOWN := by
  unfold probe
  rcases h with h | h | h <;> subst h <;> simp

theorem probe_other (env : Env) (m name : List Char)
    (h : ¬ (m = "GET".toList ∨ m = "POST".toList ∨ m = "OPTIONS".toList)) :
    probe env m name = (Method.UNKNOWN, false) := by
  unfold probe
  simp only [not_or] at h
  simp only [h.1, h.2.1, h.2.2, if_false]

theorem probe_snd_files (env : Env) (m name : List Char) (h : (probe env m name).2 = true) :
    (env.files name).isSome = true := by
  unfold probe at h
  split_ifs at h <;> simp_all

/-- With the three tokens scanned, a path token that fits in the block of
`parser->filename` and a path that is not empty, a resolved file name, a
version token holding a `.` and, when the probe opens the file, a file name
holding a `.`, `pars_http` returns a parser: status 404 and
category UNKNOWN when the probe gave no stream, else status 200 and the
category of `get_file_type`. -/
theorem pars_http_returns (env : Env) (g : Garbage) (petition : List Char) (conf : Dict)
    (m f v name : List Char)
    (hs : sscanf_request petition = ⟨3, some m, some f, some v⟩)
    (hf : f.length < MAX_PATH)
    (hp : f.takeWhile (fun c => c != '?') ≠ [])
    (hr : resolve_path conf (f.takeWhile (fun c => c != '?')) = Outcome.ok name)
    (hv : '.' ∈ v)
    (hn : (probe env m name).2 = true → '.' ∈ name) :
    ∃ ty ver, resolve_version v = Outcome.ok ver ∧
      (((probe env m name).2 = false ∧ ty = File_type.UNKNOWN ∧
          pars_http env g petition conf = Outcome.ok
            ⟨(probe env m name).1, name, (split_query f g.args).2, ty,
              HttpStatusCode.HTTP_NOT_FOUND, ver⟩) ∨
       ((probe env m name).2 = true ∧ get_file_type name = Outcome.ok ty ∧
          pars_http env g petition conf = Outcome.ok
            ⟨(probe env m name).1, name, (split_query f g.args).2, ty,
              HttpStatusCode.HTTP_OK, ver⟩)) := by
  obtain ⟨ver, hver⟩ := resolve_version_of_dot v hv
  rw [pars_http_resolved env g petition conf m f v name hs hf hp hr, hver]
  by_cases hb : (probe env m name).2 = false
  · exact ⟨File_type.UNKNOWN, ver, rfl, Or.inl ⟨hb, rfl, by simp [hb]⟩⟩
  · have hb2 : (probe env m name).2 = true := by simpa using hb
    obtain ⟨t, ht⟩ := get_file_type_of_dot name (hn hb2)
    exact ⟨t, ver, rfl, Or.inr ⟨hb2, ht, by simp [hb2, ht]⟩⟩

/-- The fields of any parser that `pars_http` returns: `args` is what the
query split left, and the file name is the unresolved path when the status
is `HTTP_BAD_REQUEST` and the resolved path otherwise. -/
theorem pars_http_ok_fields (env : Env) (g : Garbage) (petition : List Char) (conf : Dict)
    (p : Parser) (h : pars_http env g petition conf = Outcome.ok p) :
    p.args = (split_query ((sscanf_request petition).filename.getD g.filename) g.args).2 ∧
    ((p.status = HttpStatusCode.HTTP_BAD_REQUEST ∧
        p.filename
          = (split_query ((sscanf_request petition).filename.getD g.filename) g.args).1) ∨
     (p.status ≠ HttpStatusCode.HTTP_BAD_REQUEST ∧
        resolve_path conf
          (split_query ((sscanf_request petition).filename.getD g.filename) g.args).1
          = Outcome.ok p.filename)) := by
  unfold pars_http at h
  simp only at h
  split_ifs at h with h1 h2
  · cases h
    exact ⟨rfl, Or.inl ⟨rfl, rfl⟩⟩
  · split at h
    · cases h
    · cases h
    · rename_i name hname
      cases hv : resolve_version ((sscanf_request petition).version.getD g.version) with
      | fault =>
        simp only [hv] at h
        split at h <;> cases h
      | null =>
        simp only [hv] at h
        split at h <;> cases h
      | ok v =>
        by_cases hb : (probe env ((sscanf_request petition).method.getD []) name).2 = false
        · simp [hb, hv] at h
          subst h
          exact ⟨rfl, Or.inr ⟨by simp, hname⟩⟩
        · cases hg : get_file_type name with
          | fault => simp [hb, hg] at h
          | null => simp [hb, hg] at h
          | ok t =>
            simp [hb, hg, hv] at h
            subst h
            exact ⟨rfl, Or.inr ⟨by simp, hname⟩⟩

theorem dropWhile_ne_of_mem (f : List Char) (c : Char) (h : c ∈ f) :
    f.dropWhile (fun x => x != c) = c :: (f.dropWhile (fun x => x != c)).drop 1 := by
  induction f with
  | nil => simp at h
  | cons x xs ih =>
    by_cases hx : x = c
    · subst hx
      simp [List.dropWhile]
    · have hb : (x != c) = true := by simp [hx]
      have hm : c ∈ xs := by
        rcases List.mem_cons.mp h with e | e
        · exact absurd e.symm hx
        · exact e
      simp only [List.dropWhile, hb]
      exact ih hm

/-! ## Lemmas on `get_file_type` and `_replace_ampersand` -/

/-- The result of `strrchr` on a string that holds the character: the
string splits at that occurrence and the character does not occur after. -/
theorem strrchr_split (s : List Char) (c : Char) (h : c ∈ s) :
    ∃ pre ext, s = pre ++ c :: ext ∧ c ∉ ext ∧ strrchr s c = some (c :: ext) := by
  induction s with
  | nil => simp at h
  | cons x xs ih =>
    by_cases hxs : c ∈ xs
    · obtain ⟨pre, ext, h1, h2, h3⟩ := ih hxs
      refine ⟨x :: pre, ext, by simp [h1], h2, ?_⟩
      simp [strrchr, h3]
    · have hx : x = c := by
        rcases List.mem_cons.mp h with e | e
        · exact e.symm
        · exact absurd e hxs
      subst hx
      refine ⟨[], xs, rfl, hxs, ?_⟩
      have hn : strrchr xs x = none := (strrchr_eq_none_iff xs x).mpr hxs
      simp [strrchr, hn]

theorem replace_ampersand_length (s : List Char) :
    (_replace_ampersand s).length = s.length := by
  induction s with
  | nil => rfl
  | cons c cs ih => simp [_replace_ampersand, ih]

theorem replace_ampersand_getElem (s : List Char) : ∀ i : Nat,
    (_replace_ampersand s)[i]? = (s[i]?).map (fun c => if c = '&' then ' ' else c) := by
  induction s with
  | nil => intro i; simp [_replace_ampersand]
  | cons c cs ih =>
    intro i
    cases i with
    | zero => simp [_replace_ampersand]
    | succ j => simp [_replace_ampersand, ih j]

theorem replace_ampersand_clean (s : List Char) : '&' ∉ _replace_ampersand s := by
  induction s with
  | nil => simp [_replace_ampersand]
  | cons c cs ih =>
    by_cases hc : c = '&'
    · simp [_replace_ampersand, hc, ih]
    · have hc2 : ¬ '&' = c := fun e => hc e.symm
      simp [_replace_ampersand, hc, hc2, ih]

theorem replace_ampersand_fixed (s : List Char) (h : '&' ∉ s) : _replace_ampersand s = s := by
  induction s with
  | nil => rfl
  | cons c cs ih =>
    have hc : ¬ c = '&' := fun e => h (by simp [e])
    have hcs : '&' ∉ cs := fun e => h (by simp [e])
    simp [_replace_ampersand, hc, ih hcs]

/-! ## Lemmas on the fields of the headers -/

theorem print_decimal_ne_C (n : Nat) : ∀ c ∈ print_decimal n, c ≠ 'C' := by
  intro c hc e
  have hd := (print_decimal_spec n).2.1 c hc
  subst e
  revert hd
  decide

theorem occurs_disposition_through (pre suf : List Char) (n : Nat)
    (hpre : ∀ t : List Char, strstr (pre ++ t) "Content-Disposition: attachment".toList
      = strstr t "Content-Disposition: attachment".toList) :
    occurs "Content-Disposition: attachment".toList (pre ++ print_decimal n ++ suf)
      = occurs "Content-Disposition: attachment".toList suf := by
  unfold occurs
  rw [List.append_assoc, hpre]
  have hskip : strstr (print_decimal n ++ suf) "Content-Disposition: attachment".toList
      = strstr suf "Content-Disposition: attachment".toList :=
    strstr_skip _ suf _ 'C' (print_decimal_ne_C n)
  rw [hskip]

/-- Whether the GET header of a category holds a Content-Disposition field
does not depend on the length printed in it. -/
theorem get_header_disposition (filename : List Char) (n : Nat) (type : File_type) :
    occurs "Content-Disposition: attachment".toList (_create_GET_header filename n type)
      = decide (type = File_type.MP4) := by
  cases type <;>
    simp only [_create_GET_header, reduceCtorEq, if_true, if_false, or_true, true_or,
      or_false, false_or] <;>
    first
    | rfl
    | (rw [occurs_disposition_through _ _ n (by intro t; simp [strstr, List.isPrefixOf])]
       rfl)

theorem post_header_content_type (filename : List Char) (n : Nat) (type : File_type) :
    header_field "Content-Type: ".toList (_create_POST_header filename n type)
      = some "text/plain; charset=UTF-8".toList := by
  simp [header_field, _create_POST_header, strstr, List.isPrefixOf, List.takeWhile]

theorem get_header_content_type_html (filename : List Char) (n : Nat) :
    header_field "Content-Type: ".toList (_create_GET_header filename n File_type.HTML)
      = some "html; charset=UTF-8".toList := by
  simp [header_field, _create_GET_header, strstr, List.isPrefixOf, List.takeWhile]

/-! ## Lemmas on the worker -/

theorem resources_append (t u : List Action) : ∀ held : Held,
    resources (t ++ u) held = (resources t held).bind (resources u) := by
  induction t with
  | nil => intro held; simp [resources]
  | cons a t ih =>
    intro held
    cases a <;> simp only [List.cons_append, resources] <;>
      first
      | exact ih _
      | (split_ifs <;> first | rfl | exact ih _)

theorem releases_append (t u : List Action) :
    releases (t ++ u) = (releases t || releases u) := by
  induction t with
  | nil => simp [releases]
  | cons a t ih => cases a <;> simp [releases, ih]

/-- The trace of one pass: it leaves held what the result says, starting
from nothing held, and holds no step of the release sequence. -/
theorem worker_pass_trace (env : Env) (conf : Dict) (pass : Pass) :
    (∀ trace held, worker_pass env conf pass = PassResult.exit trace held →
      resources trace ⟨false, false⟩ = some held ∧ releases trace = false) ∧
    (∀ trace, worker_pass env conf pass = PassResult.again trace →
      resources trace ⟨false, false⟩ = some ⟨false, false⟩ ∧ releases trace = false) := by
  by_cases hh : pass.shutdown_head = true
  · constructor
    · intro trace held h
      simp [worker_pass, hh] at h
      obtain ⟨h1, h2⟩ := h
      subst h1 h2
      exact ⟨rfl, rfl⟩
    · intro trace h
      simp [worker_pass, hh] at h
  · cases hread : pass.read with
    | none =>
      constructor
      · intro trace held h
        simp [worker_pass, hh, hread] at h
        obtain ⟨h1, h2⟩ := h
        subst h1 h2
        exact ⟨rfl, rfl⟩
      · intro trace h
        simp [worker_pass, hh, hread] at h
    | some buffer =>
      cases hp : pars_http env pass.garbage buffer conf with
      | fault =>
        constructor
        · intro trace held h
          simp [worker_pass, hh, hread, hp] at h
        · intro trace h
          simp [worker_pass, hh, hread, hp] at h
      | null =>
        constructor
        · intro trace held h
          simp [worker_pass, hh, hread, hp] at h
          obtain ⟨h1, h2⟩ := h
          subst h1 h2
          exact ⟨rfl, rfl⟩
        · intro trace h
          simp [worker_pass, hh, hread, hp] at h
      | ok parsed =>
        cases hb : take_post_body buffer parsed with
        | fault =>
          constructor
          · intro trace held h
            simp [worker_pass, hh, hread, hp, hb] at h
          · intro trace h
            simp [worker_pass, hh, hread, hp, hb] at h
        | null =>
          constructor
          · intro trace held h
            simp [worker_pass, hh, hread, hp, hb] at h
          · intro trace h
            simp [worker_pass, hh, hread, hp, hb] at h
        | ok parser =>
          cases hr : (create_response env parser).2 with
          | none =>
            constructor
            · intro trace held h
              simp [worker_pass, hh, hread, hp, hb, hr] at h
              obtain ⟨h1, h2⟩ := h
              subst h1 h2
              exact ⟨rfl, rfl⟩
            · intro trace h
              simp [worker_pass, hh, hread, hp, hb, hr] at h
          | some response =>
            by_cases hk : keep_alive_after buffer pass.shutdown_if parser = true
            · constructor
              · intro trace held h
                simp [worker_pass, hh, hread, hp, hb, hr, hk] at h
              · intro trace h
                simp [worker_pass, hh, hread, hp, hb, hr, hk] at h
                subst h
                split_ifs <;> exact ⟨rfl, rfl⟩
            · constructor
              · intro trace held h
                simp [worker_pass, hh, hread, hp, hb, hr, hk] at h
                obtain ⟨h1, h2⟩ := h
                subst h1 h2
                split_ifs <;> exact ⟨rfl, rfl⟩
              · intro trace h
                simp [worker_pass, hh, hread, hp, hb, hr, hk] at h

/-- The trace of the loop: it leaves held what the loop reports and holds
no step of the release sequence; the loop gives no result only when one of
its passes ends in `crash`. -/
theorem worker_loop_trace (env : Env) (conf : Dict) : ∀ passes : List Pass,
    (∀ trace held, worker_loop env conf passes = some (trace, held) →
      resources trace ⟨false, false⟩ = some held ∧ releases trace = false) ∧
    (worker_loop env conf passes = none →
      ∃ pass ∈ passes, worker_pass env conf pass = PassResult.crash) := by
  intro passes
  induction passes with
  | nil =>
    constructor
    · intro trace held h
      simp [worker_loop] at h
      obtain ⟨h1, h2⟩ := h
      subst h1 h2
      exact ⟨rfl, rfl⟩
    · intro h
      simp [worker_loop] at h
  | cons pass rest ih =>
    cases hw : worker_pass env conf pass with
    | crash =>
      constructor
      · intro trace held h
        simp [worker_loop, hw] at h
      · intro _
        exact ⟨pass, by simp, hw⟩
    | exit t hd =>
      constructor
      · intro trace held h
        simp [worker_loop, hw] at h
        obtain ⟨h1, h2⟩ := h
        subst h1 h2
        exact (worker_pass_trace env conf pass).1 t hd hw
      · intro h
        simp [worker_loop, hw] at h
    | again t =>
      have ht := (worker_pass_trace env conf pass).2 t hw
      constructor
      · intro trace held h
        simp only [worker_loop, hw] at h
        cases hrest : worker_loop env conf rest with
        | none => simp [hrest] at h
        | some r =>
          simp only [hrest, Option.map_some', Option.some.injEq, Prod.mk.injEq] at h
          obtain ⟨h1, h2⟩ := h
          subst h1 h2
          have hr := ih.1 r.1 r.2 hrest
          rw [resources_append, ht.1, releases_append, ht.2, hr.2]
          exact ⟨hr.1, rfl⟩
      · intro h
        simp only [worker_loop, hw] at h
        cases hrest : worker_loop env conf rest with
        | none =>
          obtain ⟨p, hp1, hp2⟩ := ih.2 hrest
          exact ⟨p, by simp [hp1], hp2⟩
        | some r => simp [hrest] at h

/-- What the loop of `_cleanup_handler` does to the registry: the first of
the first `n` slots that holds the descriptor is set to 0 and nothing else
changes; when none holds it the registry is unchanged. -/
theorem release_slot_spec : ∀ (n : Nat) (l : List Int) (fd : Int),
    release_slot n l fd
      = if fd ∈ l.take n then l.set ((l.take n).indexOf fd) 0 else l := by
  intro n
  induction n with
  | zero => intro l fd; simp [release_slot]
  | succ k ih =>
    intro l fd
    cases l with
    | nil => simp [release_slot]
    | cons x xs =>
      by_cases hx : x = fd
      · subst hx
        simp [release_slot]
      · have hx2 : ¬ fd = x := fun e => hx e.symm
        simp only [release_slot, hx, if_false, ih xs fd, List.take_succ_cons, List.mem_cons,
          hx2, false_or]
        by_cases hm : fd ∈ xs.take k
        · simp [hm, List.indexOf_cons_ne _ hx]
        · simp [hm]

/-! ## Lemmas on the registry -/

theorem step_worker_cleanup (fd : Int) (s : System) :
    step (Label.worker_cleanup fd) s
      = if fd ∈ s.workers then
          some { s with
            g := (_cleanup_handler ⟨false, false⟩ fd s.g).2
            workers := s.workers.erase fd }
        else none := by
  unfold step
  cases s.phase <;> rfl

theorem step_interrupt (s : System) :
    step Label.interrupt s = some { s with g := sigint_handler s.g } := by
  unfold step
  cases s.phase <;> rfl

/-- A property kept by every step is kept by every run. -/
theorem run_keeps (P : System → Prop)
    (hstep : ∀ l s t, P s → step l s = some t → P t) :
    ∀ (ls : List Label) (s t : System), P s → run ls s = some t → P t := by
  intro ls
  induction ls with
  | nil =>
    intro s t hs h
    simp [run] at h
    exact h ▸ hs
  | cons l ls ih =>
    intro s t hs h
    simp only [run] at h
    cases hl : step l s with
    | none => simp [hl] at h
    | some u =>
      simp only [hl] at h
      exact ih u t (hstep l s u hs hl) h

theorem step_counter (max : Nat) (l : Label) (s t : System)
    (hinv : counter_invariant max s) (h : step l s = some t) : counter_invariant max t := by
  obtain ⟨h1, h2, h3, h4⟩ := hinv
  cases l with
  | worker_cleanup fd =>
    rw [step_worker_cleanup] at h
    split_ifs at h with hm
    cases h
    have hlen := List.length_erase_of_mem hm
    have hpos : 0 < s.workers.length := List.length_pos_of_mem hm
    refine ⟨h1, ?_, ?_, ?_⟩
    · simp only [_cleanup_handler]; omega
    · intro hp; have := h3 hp; simp only [_cleanup_handler]; omega
    · simp only [_cleanup_handler, hlen]; omega
  | interrupt =>
    rw [step_interrupt] at h
    cases h
    exact ⟨h1, h2, h3, h4⟩
  | loop_test =>
    cases hph : s.phase <;> simp [step, hph] at h
    subst h
    rw [hph] at h4
    refine ⟨h1, h2, ?_, ?_⟩
    · intro hp; split_ifs at hp <;> simp [post_admission] at hp
    · split_ifs <;> simpa [pending_increment] using h4
  | admission_check =>
    cases hph : s.phase <;> simp [step, hph] at h
    subst h
    rw [hph] at h4
    refine ⟨h1, h2, ?_, ?_⟩
    · intro hp
      split_ifs at hp with hc
      · simp [post_admission] at hp
      · rw [h1] at hc; simpa using hc
    · split_ifs <;> simpa [pending_increment] using h4
  | accept fd =>
    cases hph : s.phase <;> simp [step, hph] at h
    subst h
    rw [hph] at h3 h4
    exact ⟨h1, h2, fun _ => h3 rfl, by simpa [pending_increment] using h4⟩
  | shutdown_test =>
    cases hph : s.phase <;> simp [step, hph] at h
    subst h
    rw [hph] at h3 h4
    refine ⟨h1, h2, fun _ => h3 rfl, ?_⟩
    split_ifs <;> simpa [pending_increment] using h4
  | reserve =>
    cases hph : s.phase <;> simp [step, hph] at h
    subst h
    rw [hph] at h3 h4
    exact ⟨h1, h2, fun _ => h3 rfl, by simpa [pending_increment] using h4⟩
  | descriptor_test =>
    cases hph : s.phase <;> simp [step, hph] at h
    subst h
    rw [hph] at h3 h4
    refine ⟨h1, h2, fun _ => h3 rfl, ?_⟩
    split_ifs <;> simpa [pending_increment] using h4
  | create_thread ok =>
    cases hph : s.phase <;> simp [step, hph] at h
    rw [hph] at h3 h4
    cases ok with
    | true =>
      simp at h
      subst h
      refine ⟨h1, h2, fun _ => h3 rfl, ?_⟩
      simp [pending_increment] at h4 ⊢
      omega
    | false =>
      simp at h
      subst h
      exact ⟨h1, h2, fun _ => h3 rfl, by simpa [pending_increment] using h4⟩
  | increment =>
    cases hph : s.phase <;> simp [step, hph] at h
    subst h
    rw [hph] at h3 h4
    have := h3 rfl
    refine ⟨h1, by simp only; omega, ?_, ?_⟩
    · intro hp; simp [post_admission] at hp
    · simp [pending_increment] at h4 ⊢
      omega

theorem initial_counter (max : Nat) : counter_invariant max (initial max) := by
  refine ⟨rfl, by simp [initial], ?_, by simp [initial, pending_increment]⟩
  intro hp
  simp [initial, post_admission] at hp

theorem step_keeps_flag (l : Label) (s t : System) (h : step l s = some t)
    (hf : s.g.shutdown_flag = true) : t.g.shutdown_flag = true := by
  cases l <;> cases hp : s.phase <;> simp [step, hp] at h <;>
    first
    | (subst h; simp [sigint_handler, _cleanup_handler, hf])
    | (obtain ⟨_, h⟩ := h; subst h; simp [sigint_handler, _cleanup_handler, hf])
    | (split_ifs at h <;> (cases h; simp [hf]))

theorem step_settled (l : Label) (s t : System) (h : step l s = some t)
    (hf : s.g.shutdown_flag = true) (hs : spawn_pending s.phase = false) :
    spawn_pending t.phase = false ∧ spawns [l] = 0 := by
  cases l <;> cases hp : s.phase <;> simp [step, hp] at h <;> simp [hp, spawn_pending] at hs <;>
    first
    | (subst h; (try split_ifs) <;> simp [spawn_pending, spawns, hf, hp])
    | (obtain ⟨_, h⟩ := h; subst h; simp [spawn_pending, spawns, hf, hp])

theorem spawns_cons (l : Label) (ls : List Label) : spawns (l :: ls) = spawns [l] + spawns ls := by
  cases l with
  | create_thread ok => cases ok <;> simp [spawns]; omega
  | _ => simp [spawns]

theorem run_settled : ∀ (ls : List Label) (s t : System), run ls s = some t →
    s.g.shutdown_flag = true → spawn_pending s.phase = false → spawns ls = 0 := by
  intro ls
  induction ls with
  | nil => intros; rfl
  | cons l ls ih =>
    intro s t h hf hs
    cases hst : step l s with
    | none => simp [run, hst] at h
    | some u =>
      simp only [run, hst] at h
      obtain ⟨h1, h2⟩ := step_settled l s u hst hf hs
      rw [spawns_cons, h2, ih u t h (step_keeps_flag l s u hst hf) h1]

theorem run_after_flag : ∀ (ls : List Label) (s t : System), run ls s = some t →
    s.g.shutdown_flag = true →
    t.g.shutdown_flag = true ∧ accept_then_spawn ls = false ∧ spawns ls ≤ 1 := by
  intro ls
  induction ls with
  | nil =>
    intro s t h hf
    simp only [run, Option.some.injEq] at h
    subst h
    exact ⟨hf, rfl, by simp [spawns]⟩
  | cons l ls ih =>
    intro s t h hf
    cases hst : step l s with
    | none => simp [run, hst] at h
    | some u =>
      simp only [run, hst] at h
      have hu := step_keeps_flag l s u hst hf
      obtain ⟨h1, h2, h3⟩ := ih u t h hu
      refine ⟨h1, ?_, ?_⟩
      · cases l with
        | accept fd =>
          have hph : spawn_pending u.phase = false := by
            cases hp : s.phase <;> simp [step, hp] at hst
            subst hst
            rfl
          have h0 := run_settled ls u t h hu hph
          simp [accept_then_spawn, h0, h2]
        | _ => simpa [accept_then_spawn] using h2
      · cases l with
        | create_thread ok =>
          cases ok with
          | false => simpa [spawns] using h3
          | true =>
            have hph : spawn_pending u.phase = false := by
              cases hp : s.phase <;> simp [step, hp] at hst
              subst hst
              rfl
            have h0 := run_settled ls u t h hu hph
            simp [spawns, h0]
        | _ => simpa [spawns] using h3

theorem run_append : ∀ (a b : List Label) (s : System),
    run (a ++ b) s = (run a s).bind (run b) := by
  intro a
  induction a with
  | nil => intro b s; simp [run]
  | cons l a ih =>
    intro b s
    cases hst : step l s with
    | none => simp [run, hst]
    | some u => simp [run, hst, ih]

theorem close_all_take : ∀ (n : Nat) (l : List Int), ∀ x ∈ (close_all n l).take n, x = 0 := by
  intro n
  induction n with
  | zero => intro l x hx; simp at hx
  | succ n ih =>
    intro l x hx
    cases l with
    | nil => simp [close_all] at hx
    | cons y ys =>
      simp only [close_all, List.take_succ_cons, List.mem_cons] at hx
      rcases hx with hx | hx
      · rw [hx]; split_ifs with h0
        · rfl
        · simpa using h0
      · exact ih ys x hx

/-! ## Lemmas on the exits of the worker -/

theorem worker_loop_again (env : Env) (conf : Dict) (rest : List Pass) :
    ∀ (pre : List Pass) (traces : List (List Action)),
      List.Forall₂ (fun p t => worker_pass env conf p = PassResult.again t) pre traces →
      worker_loop env conf (pre ++ rest)
        = (worker_loop env conf rest).map (fun r => (traces.flatten ++ r.1, r.2)) := by
  intro pre traces h
  induction h with
  | nil =>
    simp only [List.nil_append, List.flatten_nil]
    cases worker_loop env conf rest <;> simp
  | cons hp _ ih =>
    cases hw : worker_loop env conf rest with
    | none => rw [hw] at ih; simp [worker_loop, hp, ih]
    | some r => rw [hw] at ih; simp [worker_loop, hp, ih]

theorem create_response_calls (env : Env) (p : Parser) :
    (create_response env p).1 =
      if p.status = HttpStatusCode.HTTP_NOT_FOUND ∨ p.status = HttpStatusCode.HTTP_BAD_REQUEST
          ∨ p.method = Method.OPTIONS then []
      else if p.type ≠ File_type.PYTHON ∧ p.type ≠ File_type.PHP then
        [Call.open_file p.filename p.type]
      else [Call.open_script p.filename p.type p.method p.args] := by
  unfold create_response
  by_cases h1 : p.status = HttpStatusCode.HTTP_NOT_FOUND
  · simp [h1]
  by_cases h2 : p.status = HttpStatusCode.HTTP_BAD_REQUEST
  · simp [h2]
  by_cases h3 : p.method = Method.OPTIONS
  · simp [h1, h2, h3]
  simp only [h1, h2, h3, if_false, false_or]
  by_cases h4 : p.type ≠ File_type.PYTHON ∧ p.type ≠ File_type.PHP
  · simp only [h4, if_true]
    repeat (first | rfl | split)
  · simp only [h4, if_false]
    repeat (first | rfl | split)

theorem create_response_call (env : Env) (p : Parser) (c : Call)
    (hc : (create_response env p).1 = [c]) (hn : call_result env c = none) :
    (create_response env p).2 = none := by
  rw [create_response_calls] at hc
  split_ifs at hc with h0 h4
  · simp only [List.cons.injEq, and_true] at hc
    subst hc
    simp only [call_result] at hn
    push_neg at h0
    simp [create_response, h0.1, h0.2.1, h0.2.2, h4, hn]
  · simp only [List.cons.injEq, and_true] at hc
    subst hc
    simp only [call_result] at hn
    push_neg at h0
    simp [create_response, h0.1, h0.2.1, h0.2.2, h4, hn]


theorem send_file_calls_chunks (content : List Char) (total : Nat) :
    ∀ (fuel bytes_sent : Nat) (sock : List (Option Nat)),
      (send_file_calls content total fuel bytes_sent sock).map (List.filterMap Prod.snd)
        = send_file_loop content total fuel bytes_sent sock := by
  intro fuel
  induction fuel with
  | zero =>
    intro bs sock
    by_cases hb : bs < total <;> simp [send_file_calls, send_file_loop, hb]
  | succ fuel ih =>
    intro bs sock
    by_cases hb : bs < total
    · rcases sock with _ | ⟨x, rest⟩
      · simp only [send_file_calls, send_file_loop, hb, if_true]
        rw [← ih]
        cases send_file_calls content total fuel
          (bs + if total - bs > BUFFER_SIZE then BUFFER_SIZE else total - bs) [] <;> simp
      · cases x with
        | none => simp [send_file_calls, send_file_loop, hb]
        | some k =>
          simp only [send_file_calls, send_file_loop, hb, if_true]
          rw [← ih]
          cases send_file_calls content total fuel
            (bs + min k (if total - bs > BUFFER_SIZE then BUFFER_SIZE else total - bs)) rest <;>
            simp
    · simp [send_file_calls, send_file_loop, hb]

theorem send_file_calls_spec (content : List Char) (total : Nat) :
    ∀ (fuel bytes_sent : Nat) (sock : List (Option Nat)),
      (∀ x ∈ sock, ∃ k, 0 < k ∧ x = some k) → total - bytes_sent ≤ fuel →
      ∃ calls, send_file_calls content total fuel bytes_sent sock = some calls ∧
        (∀ c ∈ calls, 0 < c.1 ∧ c.1 ≤ BUFFER_SIZE ∧
          ∃ chunk, c.2 = some chunk ∧ chunk.length ≤ c.1) ∧
        (calls.filterMap Prod.snd).flatten = (content.take total).drop bytes_sent ∧
        (total ≤ bytes_sent → calls = []) := by
  intro fuel
  induction fuel with
  | zero =>
    intro bs sock _ h
    have hb : ¬ bs < total := by omega
    refine ⟨[], by simp [send_file_calls, hb], by simp, ?_, fun _ => rfl⟩
    simp
    omega
  | succ fuel ih =>
    intro bs sock hs h
    have hB : BUFFER_SIZE = 4096 := rfl
    by_cases hb : bs < total
    · have hbt : ∃ b, b = (if total - bs > BUFFER_SIZE then BUFFER_SIZE else total - bs) ∧
          0 < b ∧ b ≤ BUFFER_SIZE ∧ bs + b ≤ total := by
        refine ⟨_, rfl, ?_⟩
        split_ifs <;> omega
      obtain ⟨b, hbdef, hb0, hbB, hbt⟩ := hbt
      rcases sock with _ | ⟨x, rest⟩
      · obtain ⟨calls, hc1, hc2, hc3, _⟩ := ih (bs + b) [] (by simp) (by omega)
        refine ⟨(b, some ((content.drop bs).take b)) :: calls, ?_, ?_, ?_, ?_⟩
        · simp only [send_file_calls, hb, if_true, ← hbdef, hc1, Option.map_some']
        · intro c hc
          rcases List.mem_cons.mp hc with hc | hc
          · subst hc
            exact ⟨hb0, hbB, _, rfl, by simp⟩
          · exact hc2 c hc
        · simp only [List.filterMap_cons, List.flatten_cons, hc3]
          exact (take_drop_split content total bs b hbt).symm
        · intro hle; omega
      · obtain ⟨k, hk0, hk⟩ := hs x (by simp)
        subst hk
        have hm0 : 0 < min k b := by omega
        have hmb : min k b ≤ b := by omega
        obtain ⟨calls, hc1, hc2, hc3, _⟩ := ih (bs + min k b) rest
          (fun y hy => hs y (by simp [hy])) (by omega)
        refine ⟨(b, some ((content.drop bs).take (min k b))) :: calls, ?_, ?_, ?_, ?_⟩
        · simp only [send_file_calls, hb, if_true, ← hbdef, hc1, Option.map_some']
        · intro c hc
          rcases List.mem_cons.mp hc with hc | hc
          · subst hc
            refine ⟨hb0, hbB, _, rfl, ?_⟩
            simp only [List.length_take]
            omega
          · exact hc2 c hc
        · simp only [List.filterMap_cons, List.flatten_cons, hc3]
          exact (take_drop_split content total bs (min k b) (by omega)).symm
        · intro hle; omega
    · refine ⟨[], by simp [send_file_calls, hb], by simp, ?_, fun _ => rfl⟩
      simp
      omega

/-! ## Lemmas on the length of a body -/

theorem strlen_append_NUL (s t : List Char) (h : NUL ∉ s) : strlen (s ++ NUL :: t) = s.length := by
  induction s with
  | nil => simp [strlen]
  | cons c s ih =>
    have hc : c ≠ NUL := fun e => h (by simp [e])
    have hs : NUL ∉ s := fun e => h (by simp [e])
    have := ih hs
    simp only [strlen] at this ⊢
    simp [List.takeWhile_cons, hc, this]

theorem strlen_pos_of_head (s : List Char) (c : Char) (t : List Char) (h : c ≠ NUL)
    (hs : s.head? = some c) : 1 ≤ strlen (s ++ t) := by
  cases s with
  | nil => simp at hs
  | cons x xs =>
    simp only [List.head?_cons, Option.some.injEq] at hs
    subst hs
    simp [strlen, List.takeWhile_cons, h]

theorem read_lines_head (n : Nat) (c : Char) (cs : List Char) (hc : c ≠ NUL) :
    (read_lines (n + 1) (c :: cs)).head? = some c := by
  have hw : List.take (1024 - 1) (c :: cs) = c :: List.take 1022 cs := by simp
  simp only [read_lines, fgets, reduceCtorEq, if_false, hw]
  by_cases hnl : c = '\n'
  · subst hnl
    simp [cstr, List.takeWhile_cons, hc]
  · simp only [List.takeWhile_cons, bne_iff_ne, ne_eq, hnl, not_false_eq_true, decide_True,
      if_true]
    split_ifs <;> simp [cstr, List.takeWhile_cons, hc]


theorem open_script_get (env : Env) (filename : List Char) (type : File_type)
    (input : List Char) (ht : type = File_type.PYTHON ∨ type = File_type.PHP) :
    open_script env filename type Method.GET input =
      match env.popen (((if type = File_type.PYTHON then "python3 ".toList else "php ".toList)
          ++ filename ++ " ".toList ++ _replace_ampersand input).take 255) with
      | none => none
      | some out => if out = [] then none else some (read_lines out.length out ++ [NUL]) := by
  rcases ht with h | h <;> subst h <;> rfl

theorem open_script_post (env : Env) (filename : List Char) (type : File_type)
    (input : List Char) (ht : type = File_type.PYTHON ∨ type = File_type.PHP) :
    open_script env filename type Method.POST input =
      match env.spawn (if type = File_type.PYTHON then "python3".toList else "php".toList)
          filename (_replace_ampersand input) with
      | none => none
      | some out => if out = [] then none else some (out ++ [NUL]) := by
  rcases ht with h | h <;> subst h <;> rfl

theorem read_lines_strlen (out : List Char) (hne : out ≠ []) (hh : out.head? ≠ some NUL) :
    1 ≤ strlen (read_lines out.length out ++ [NUL]) := by
  obtain ⟨c, cs, rfl⟩ := List.exists_cons_of_ne_nil hne
  have hc : c ≠ NUL := by
    intro e
    exact hh (by simp [e])
  exact strlen_pos_of_head _ c _ hc (read_lines_head _ c cs hc)

theorem output_strlen (out : List Char) (hne : out ≠ []) (hh : out.head? ≠ some NUL) :
    1 ≤ strlen (out ++ [NUL]) := by
  obtain ⟨c, cs, rfl⟩ := List.exists_cons_of_ne_nil hne
  have hc : c ≠ NUL := by
    intro e
    exact hh (by simp [e])
  exact strlen_pos_of_head _ c _ hc rfl

theorem create_response_script (env : Env) (p : Parser)
    (hm : p.method = Method.GET ∨ p.method = Method.POST)
    (hs : p.status = HttpStatusCode.HTTP_OK)
    (ht : p.type = File_type.PYTHON ∨ p.type = File_type.PHP) :
    (create_response env p).2 =
      (open_script env p.filename p.type p.method p.args).map (fun file =>
        ⟨some file,
          (if p.method = Method.GET then _create_GET_header p.filename (strlen file) p.type
            else _create_POST_header p.filename (strlen file) p.type),
          strlen file⟩) := by
  have hno : p.method ≠ Method.OPTIONS := by
    rcases hm with h | h <;> simp [h]
  cases ho : open_script env p.filename p.type p.method p.args with
  | none =>
    rcases ht with h | h <;> simp [create_response, hs, hno, h] <;> rw [h] at ho <;> simp [ho]
  | some file =>
    rcases hm with hm | hm <;> rcases ht with h | h <;>
      (rw [h, hm] at ho; simp [create_response, hs, hm, h, ho])

/-! ## Claims -/

/-- C1 fails at an empty static file: `GET /empty.gif` resolves to an existing
GIF file of 0 bytes, and `create_response` returns no response at all instead
of one with Content-Length 0 and an empty body. -/
theorem static_get_roundtrip_counterexample :
    sample_env.files "/srv/empty.gif".toList = some [] ∧
    pars_http sample_env sample_garbage "GET /empty.gif HTTP/1.1\r\n\r\n".toList sample_conf
      = Outcome.ok ⟨Method.GET, "/srv/empty.gif".toList, [], File_type.GIF,
          HttpStatusCode.HTTP_OK, Version.HTTP1_1⟩ ∧
    (create_response sample_env ⟨Method.GET, "/srv/empty.gif".toList, [], File_type.GIF,
          HttpStatusCode.HTTP_OK, Version.HTTP1_1⟩).2 = none := by
  refine ⟨by rfl, by rfl, by rfl⟩

/-- C1 (amended): for every GET request with status `HTTP_OK` that resolves
to an existing, non-empty static file of category JPG, GIF, MPEG or MP4 with
contents `F`, `create_response` returns a response whose `content_length` and
declared Content-Length are the byte length of `F`, whose first
`content_length` bytes of `content` are `F`, and the bytes the worker writes
after the blank line are `F`. -/
theorem binary_get_roundtrip (env : Env) (p : Parser) (F : List Char)
    (hm : p.method = Method.GET) (hs : p.status = HttpStatusCode.HTTP_OK)
    (ht : p.type = File_type.JPG ∨ p.type = File_type.GIF ∨ p.type = File_type.MPEG
      ∨ p.type = File_type.MP4)
    (hf : env.files p.filename = some F) (hne : F ≠ []) :
    ∃ r, (create_response env p).2 = some r ∧ r.content_length = F.length ∧
      declared_length r.header = some F.length ∧
      (r.content.getD []).take r.content_length = F ∧
      body_of (transmitted p r) = some F := by
  have hb : p.type ≠ File_type.BINARY ∧ p.type ≠ File_type.UNKNOWN := by
    rcases ht with h | h | h | h <;> simp [h]
  have hr : (create_response env p).2
      = some ⟨some F, _create_GET_header p.filename F.length p.type, F.length⟩ := by
    rcases ht with h | h | h | h <;>
      simp [create_response, open_file, get_file_size, hm, hs, h, hf, hne]
  refine ⟨_, hr, rfl, ?_, by simp, ?_⟩
  · have := (get_header_wire p.filename [] F.length p.type hb).2
    simpa using this
  · have hw : transmitted p ⟨some F, _create_GET_header p.filename F.length p.type, F.length⟩
        = _create_GET_header p.filename F.length p.type ++ F := by
      simp [transmitted, hs, hm, send_file_all]
    rw [hw]
    exact (get_header_wire p.filename F F.length p.type hb).1

theorem binary_get_roundtrip_witness :
    (Method.GET = Method.GET ∧ HttpStatusCode.HTTP_OK = HttpStatusCode.HTTP_OK ∧
      sample_env.files "/srv/pic.gif".toList = some "GIF89a".toList ∧
      "GIF89a".toList ≠ []) ∧
    ∃ r, (create_response sample_env ⟨Method.GET, "/srv/pic.gif".toList, [], File_type.GIF,
        HttpStatusCode.HTTP_OK, Version.HTTP1_1⟩).2 = some r ∧
      r.content_length = "GIF89a".toList.length ∧
      declared_length r.header = some "GIF89a".toList.length ∧
      (r.content.getD []).take r.content_length = "GIF89a".toList ∧
      body_of (transmitted ⟨Method.GET, "/srv/pic.gif".toList, [], File_type.GIF,
        HttpStatusCode.HTTP_OK, Version.HTTP1_1⟩ r) = some "GIF89a".toList :=
  ⟨⟨rfl, rfl, by rfl, by decide⟩,
    binary_get_roundtrip sample_env
      ⟨Method.GET, "/srv/pic.gif".toList, [], File_type.GIF, HttpStatusCode.HTTP_OK,
        Version.HTTP1_1⟩
      "GIF89a".toList rfl rfl (Or.inr (Or.inl rfl)) (by rfl) (by decide)⟩

/-- C2: take any request buffer that `pars_http` parses into `p`, any
contents `a` of `args` at the time the response is built (the worker
overwrites `args` for POST), and the response `r` that `create_response`
returns, for a GET or POST request when the status is `HTTP_OK` and for any
method when it is 404 or 400. In the bytes the worker writes, the number
after `Content-Length: ` is the number of bytes after the blank line; those
bytes are the first `content_length` bytes of `content` streamed by
`send_file` for `HTTP_OK`, and the fixed document appended to the header for
404 and 400. -/
theorem declared_length_matches_body (env : Env) (g : Garbage) (petition : List Char)
    (conf : Dict) (p : Parser) (a : List Char) (r : Response)
    (hp : pars_http env g petition conf = Outcome.ok p)
    (hm : p.status = HttpStatusCode.HTTP_OK → p.method = Method.GET ∨ p.method = Method.POST)
    (hr : (create_response env { p with args := a }).2 = some r) :
    ∃ body, body_of (transmitted p r) = some body ∧
      declared_length (transmitted p r) = some body.length ∧
      (p.status = HttpStatusCode.HTTP_OK →
        body = (r.content.getD []).take r.content_length ∧ body.length = r.content_length) ∧
      (p.status = HttpStatusCode.HTTP_NOT_FOUND → body = body_404) ∧
      (p.status = HttpStatusCode.HTTP_BAD_REQUEST → body = body_400) := by
  cases hst : p.status with
  | HTTP_OK =>
    have hmeth := hm hst
    obtain ⟨file, hc, hle, hu, hh⟩ :=
      create_response_ok_shape env { p with args := a } r hst hmeth hr
    have hb : p.type ≠ File_type.BINARY :=
      get_file_type_ne_BINARY _ _ (pars_http_ok_type env g petition conf p hp hst)
    have hno : p.method ≠ Method.OPTIONS := by
      rcases hmeth with h | h <;> simp [h]
    have hw : transmitted p r = r.header ++ file.take r.content_length := by
      simp [transmitted, hst, hno, send_file_all, hc]
    have hlen : (file.take r.content_length).length = r.content_length := by
      simp [List.length_take, hle]
    refine ⟨file.take r.content_length, ?_, ?_, ?_, by simp, by simp⟩
    · rw [hw, hh]
      by_cases hget : p.method = Method.GET
      · simp only [hget, if_true]
        exact (get_header_wire _ _ _ _ ⟨hb, hu⟩).1
      · simp only [hget, if_false]
        exact (post_header_wire _ _ _ _).1
    · rw [hw, hh, hlen]
      by_cases hget : p.method = Method.GET
      · simp only [hget, if_true]
        exact (get_header_wire _ _ _ _ ⟨hb, hu⟩).2
      · simp only [hget, if_false]
        exact (post_header_wire _ _ _ _).2
    · intro _
      exact ⟨by simp [hc], hlen⟩
  | HTTP_NOT_FOUND =>
    have hr2 : r = ⟨none, _create_404_header { p with args := a }, 0⟩ := by
      simp [create_response, hst] at hr
      exact hr.symm
    have hw : transmitted p r = _create_404_header { p with args := a } := by
      simp [transmitted, hst, hr2]
    refine ⟨body_404, ?_, ?_, by simp, by simp, by simp⟩
    · rw [hw]
      exact (not_found_wire _).1
    · rw [hw]
      exact (not_found_wire _).2
  | HTTP_BAD_REQUEST =>
    have hr2 : r = ⟨none, _create_BadRequest_response { p with args := a }, 0⟩ := by
      simp [create_response, hst] at hr
      exact hr.symm
    have hw : transmitted p r = _create_BadRequest_response { p with args := a } := by
      simp [transmitted, hst, hr2]
    refine ⟨body_400, ?_, ?_, by simp, by simp, by simp⟩
    · rw [hw]
      exact (bad_request_wire _).1
    · rw [hw]
      exact (bad_request_wire _).2

theorem declared_length_matches_body_witness :
    (pars_http sample_env sample_garbage "GET /pic.gif HTTP/1.1\r\n\r\n".toList sample_conf
        = Outcome.ok ⟨Method.GET, "/srv/pic.gif".toList, [], File_type.GIF,
            HttpStatusCode.HTTP_OK, Version.HTTP1_1⟩ ∧
      (create_response sample_env ⟨Method.GET, "/srv/pic.gif".toList, [], File_type.GIF,
            HttpStatusCode.HTTP_OK, Version.HTTP1_1⟩).2
        = some ⟨some "GIF89a".toList,
            "HTTP/1.1 200 OK\r\nContent-Type: image/gif\r\nContent-Length: 6\r\n\r\n".toList,
            6⟩) ∧
    ∃ body,
      body_of ("HTTP/1.1 200 OK\r\nContent-Type: image/gif\r\nContent-Length: 6\r\n\r\nGIF89a".toList)
        = some body ∧
      declared_length
        ("HTTP/1.1 200 OK\r\nContent-Type: image/gif\r\nContent-Length: 6\r\n\r\nGIF89a".toList)
        = some body.length ∧ body = "GIF89a".toList := by
  refine ⟨⟨by rfl, by rfl⟩, ?_⟩
  obtain ⟨body, h1, h2, h3, _, _⟩ :=
    declared_length_matches_body sample_env sample_garbage
      "GET /pic.gif HTTP/1.1\r\n\r\n".toList sample_conf
      ⟨Method.GET, "/srv/pic.gif".toList, [], File_type.GIF, HttpStatusCode.HTTP_OK,
        Version.HTTP1_1⟩ []
      ⟨some "GIF89a".toList,
        "HTTP/1.1 200 OK\r\nContent-Type: image/gif\r\nContent-Length: 6\r\n\r\n".toList, 6⟩
      (by rfl) (fun _ => Or.inl rfl) (by rfl)
  have hw : transmitted
      ⟨Method.GET, "/srv/pic.gif".toList, [], File_type.GIF, HttpStatusCode.HTTP_OK,
        Version.HTTP1_1⟩
      ⟨some "GIF89a".toList,
        "HTTP/1.1 200 OK\r\nContent-Type: image/gif\r\nContent-Length: 6\r\n\r\n".toList, 6⟩
      = "HTTP/1.1 200 OK\r\nContent-Type: image/gif\r\nContent-Length: 6\r\n\r\nGIF89a".toList := by
    rfl
  rw [hw] at h1 h2
  exact ⟨body, h1, h2, (h3 rfl).1⟩

set_option maxRecDepth 100000 in
/-- C3: for every parsed request with status `HTTP_NOT_FOUND`, whatever its
method, content category, arguments and version, `create_response` returns
the same fixed response (the 404 status line and header followed by the
fixed 404 document, `content` null, `content_length` 0) and calls neither
`open_file` nor `open_script`. -/
theorem not_found_response_is_fixed (env : Env) (parser : Parser)
    (h : parser.status = HttpStatusCode.HTTP_NOT_FOUND) :
    create_response env parser = ([], some response_404) := by
  have hh : _create_404_header parser = response_404.header := by
    unfold _create_404_header
    rfl
  unfold create_response
  rw [if_pos h, hh]
  rfl

theorem not_found_response_is_fixed_witness :
    (⟨Method.POST, "/srv/nothing.py".toList, "a=1".toList, File_type.UNKNOWN,
        HttpStatusCode.HTTP_NOT_FOUND, Version.HTTP1_0⟩ : Parser).status
      = HttpStatusCode.HTTP_NOT_FOUND ∧
    create_response sample_env
      ⟨Method.POST, "/srv/nothing.py".toList, "a=1".toList, File_type.UNKNOWN,
        HttpStatusCode.HTTP_NOT_FOUND, Version.HTTP1_0⟩ = ([], some response_404) :=
  ⟨rfl, not_found_response_is_fixed sample_env _ rfl⟩

/-- C4, at the request `GET /index.html` followed by a `Host:` line (the
request line has no version token): `sscanf` stores the next token, `Host:`,
as the version, so the check for an empty version does not fire; `pars_http`
goes on to resolve the path, recognise the method and probe the file, and
then fails in the version block instead of returning a parser with status
`HTTP_BAD_REQUEST`. When the buffer ends after the path, the version array is
read as it was left: holding `HTTP/1.1`, the request is answered with status
`HTTP_OK`. -/
theorem missing_version_is_not_rejected :
    sscanf_request "GET /index.html\r\nHost: localhost\r\n\r\n".toList
      = ⟨3, some "GET".toList, some "/index.html".toList, some "Host:".toList⟩ ∧
    (∀ (env : Env) (g : Garbage),
      pars_http env g "GET /index.html\r\nHost: localhost\r\n\r\n".toList sample_conf
        = Outcome.fault) ∧
    pars_http sample_env ⟨[], [], "HTTP/1.1".toList, File_type.JPG, Version.HTTP1_0⟩
        "GET /index.html\r\n\r\n".toList sample_conf
      = Outcome.ok ⟨Method.GET, "/srv/index.html".toList, [], File_type.HTML,
          HttpStatusCode.HTTP_OK, Version.HTTP1_1⟩ := by
  refine ⟨by rfl, ?_, by rfl⟩
  intro env g
  exact pars_http_version_fault env g _ sample_conf "GET".toList "/index.html".toList
    "Host:".toList "/srv/index.html".toList File_type.HTML (by rfl) (by decide) (by rfl)
    (by rfl) (by rfl)

/-- C5 fails at a method token that is not GET, POST or OPTIONS:
`DELETE /a.txt HTTP/1.1` names a file that can be opened, and `pars_http`
sets status `HTTP_NOT_FOUND` and category UNKNOWN. -/
theorem status_follows_probe_counterexample :
    (sample_env.files "/srv/a.txt".toList).isSome = true ∧
    get_file_type "/srv/a.txt".toList = Outcome.ok File_type.TEXT ∧
    pars_http sample_env sample_garbage "DELETE /a.txt HTTP/1.1\r\n\r\n".toList sample_conf
      = Outcome.ok ⟨Method.UNKNOWN, "/srv/a.txt".toList, [], File_type.UNKNOWN,
          HttpStatusCode.HTTP_NOT_FOUND, Version.HTTP1_1⟩ := by
  refine ⟨by rfl, by rfl, by rfl⟩

/-- C5 (amended): take a request with the three tokens `m`, `f`, `v`, a path
token `f` of fewer than `MAX_PATH` (256) characters, so that it fits with
its terminator in the block of `parser->filename`, a path that is not empty
once the query is removed, resolved to `name` (which `resolve_path` does
only when `name` fits in that block too), a version token that holds a `.`,
and a `.` in `name` whenever `name` can be opened. Then `pars_http` returns
a parser for `name`, and: when `m` is GET, POST or
OPTIONS, the status is `HTTP_OK` exactly when `name` can be opened, with the
category `get_file_type name`, and `HTTP_NOT_FOUND` exactly when it cannot;
for any other method token the status is `HTTP_NOT_FOUND` and the category
UNKNOWN, whether or not `name` can be opened. -/
theorem status_follows_probe (env : Env) (g : Garbage) (petition : List Char) (conf : Dict)
    (m f v name : List Char)
    (hs : sscanf_request petition = ⟨3, some m, some f, some v⟩)
    (hf : f.length < MAX_PATH)
    (hp : f.takeWhile (fun c => c != '?') ≠ [])
    (hr : resolve_path conf (f.takeWhile (fun c => c != '?')) = Outcome.ok name)
    (hv : '.' ∈ v)
    (hn : (env.files name).isSome = true → '.' ∈ name) :
    ∃ p, pars_http env g petition conf = Outcome.ok p ∧ p.filename = name ∧
      ((m = "GET".toList ∨ m = "POST".toList ∨ m = "OPTIONS".toList) →
        (p.status = HttpStatusCode.HTTP_OK ↔ (env.files name).isSome = true) ∧
        (p.status = HttpStatusCode.HTTP_NOT_FOUND ↔ (env.files name).isSome = false) ∧
        (p.status = HttpStatusCode.HTTP_OK → get_file_type name = Outcome.ok p.type)) ∧
      (¬ (m = "GET".toList ∨ m = "POST".toList ∨ m = "OPTIONS".toList) →
        p.status = HttpStatusCode.HTTP_NOT_FOUND ∧ p.type = File_type.UNKNOWN ∧
        p.method = Method.UNKNOWN) := by
  obtain ⟨ty, ver, _, hcase⟩ := pars_http_returns env g petition conf m f v name hs hf hp hr hv
    (fun hb => hn (probe_snd_files env m name hb))
  rcases hcase with ⟨hb, hty, hres⟩ | ⟨hb, hty, hres⟩
  · refine ⟨_, hres, rfl, ?_, ?_⟩
    · intro hrec
      have hfile : (env.files name).isSome = false := by
        rw [← (probe_recognised env m name hrec).1]
        exact hb
      simp [hfile]
    · intro hrec
      rw [probe_other env m name hrec]
      exact ⟨rfl, hty, rfl⟩
  · refine ⟨_, hres, rfl, ?_, ?_⟩
    · intro hrec
      have hfile : (env.files name).isSome = true := by
        rw [← (probe_recognised env m name hrec).1]
        exact hb
      simp [hfile, hty]
    · intro hrec
      rw [probe_other env m name hrec] at hb
      cases hb

theorem status_follows_probe_witness :
    (sscanf_request "POST /a.txt HTTP/1.1\r\n\r\nx=1".toList
        = ⟨3, some "POST".toList, some "/a.txt".toList, some "HTTP/1.1".toList⟩ ∧
      "/a.txt".toList.length < MAX_PATH ∧
      "/a.txt".toList.takeWhile (fun c => c != '?') ≠ [] ∧
      resolve_path sample_conf ("/a.txt".toList.takeWhile (fun c => c != '?'))
        = Outcome.ok "/srv/a.txt".toList ∧
      '.' ∈ "HTTP/1.1".toList ∧ '.' ∈ "/srv/a.txt".toList) ∧
    ∃ p, pars_http sample_env sample_garbage "POST /a.txt HTTP/1.1\r\n\r\nx=1".toList sample_conf
        = Outcome.ok p ∧ p.filename = "/srv/a.txt".toList ∧
      (p.status = HttpStatusCode.HTTP_OK
        ↔ (sample_env.files "/srv/a.txt".toList).isSome = true) := by
  refine ⟨⟨by rfl, by decide, by decide, by rfl, by decide, by decide⟩, ?_⟩
  obtain ⟨p, h1, h2, h3, _⟩ :=
    status_follows_probe sample_env sample_garbage "POST /a.txt HTTP/1.1\r\n\r\nx=1".toList
      sample_conf "POST".toList "/a.txt".toList "HTTP/1.1".toList "/srv/a.txt".toList
      (by rfl) (by decide) (by decide) (by rfl) (by decide) (fun _ => by decide)
  exact ⟨p, h1, h2, (h3 (Or.inr (Or.inl rfl))).1⟩

/-- C6: the header built by `_create_OPTIONS_header` has the Allow field
`GET, POST, OPTIONS` for the script types PYTHON and PHP, and the Allow field
`GET, OPTIONS`, with no occurrence of `POST` anywhere in the header, for the
static types HTML, TEXT, JPG, GIF, MPEG and MP4. -/
theorem options_header_allow (type : File_type) :
    ((type = File_type.PYTHON ∨ type = File_type.PHP) →
      header_field "Allow: ".toList (_create_OPTIONS_header type)
        = some "GET, POST, OPTIONS".toList) ∧
    ((type = File_type.HTML ∨ type = File_type.TEXT ∨ type = File_type.JPG
        ∨ type = File_type.GIF ∨ type = File_type.MPEG ∨ type = File_type.MP4) →
      header_field "Allow: ".toList (_create_OPTIONS_header type)
        = some "GET, OPTIONS".toList ∧
      occurs "POST".toList (_create_OPTIONS_header type) = false) := by
  cases type <;> decide

/-- C7, at the request `OPTIONS /style.css HTTP/1.1` for an existing file:
`pars_http` gives method OPTIONS, status `HTTP_OK` and category UNKNOWN, and
`create_response` returns a response whose header is the empty string: no
status line and no Allow field. -/
theorem options_unknown_category_empty_header :
    pars_http sample_env sample_garbage "OPTIONS /style.css HTTP/1.1\r\n\r\n".toList sample_conf
      = Outcome.ok ⟨Method.OPTIONS, "/srv/style.css".toList, [], File_type.UNKNOWN,
          HttpStatusCode.HTTP_OK, Version.HTTP1_1⟩ ∧
    create_response sample_env ⟨Method.OPTIONS, "/srv/style.css".toList, [], File_type.UNKNOWN,
          HttpStatusCode.HTTP_OK, Version.HTTP1_1⟩ = ([], some ⟨none, [], 0⟩) ∧
    header_field "Allow: ".toList ([] : List Char) = none := by
  refine ⟨by rfl, by rfl, by rfl⟩

/-- C8 fails at a request whose path is empty once the query is removed:
for `GET ?x=1 HTTP/1.1` the file name returned is the empty string, not
`BASE_DIR` followed by the path. -/
theorem path_resolution_counterexample :
    get_value sample_conf "BASE_DIR".toList = some "/srv".toList ∧
    (split_query "?x=1".toList []).1 = [] ∧
    pars_http sample_env sample_garbage "GET ?x=1 HTTP/1.1\r\n\r\n".toList sample_conf
      = Outcome.ok ⟨Method.UNKNOWN, [], "x=1".toList, File_type.JPG,
          HttpStatusCode.HTTP_BAD_REQUEST, Version.HTTP1_0⟩ := by
  refine ⟨by rfl, by rfl, by rfl⟩

/-- C8 (amended): take a request with the three tokens `m`, `f`, `v` whose
path `p` (the token `f` up to its first `?`) is not empty, with `BASE_DIR = B`
and `INDEX_FILE = I` configured, a path token `f` and a resolved name (`I`
when `p` is exactly `/`, `B ++ p` otherwise) of fewer than `MAX_PATH` (256)
characters each, so that they fit with their terminator in the block of
`parser->filename`, a version token that holds a `.`, and a `.` in the
resolved name whenever that name can be opened. Then `pars_http` returns a
parser whose file name is `I` when `p` is exactly `/` and the plain
concatenation `B ++ p` otherwise. -/
theorem path_resolution (env : Env) (g : Garbage) (petition : List Char) (conf : Dict)
    (m f v B I : List Char)
    (hs : sscanf_request petition = ⟨3, some m, some f, some v⟩)
    (hf : f.length < MAX_PATH)
    (hp : f.takeWhile (fun c => c != '?') ≠ [])
    (hB : get_value conf "BASE_DIR".toList = some B)
    (hI : get_value conf "INDEX_FILE".toList = some I)
    (hfit : (if f.takeWhile (fun c => c != '?') = ['/'] then I
      else B ++ f.takeWhile (fun c => c != '?')).length < MAX_PATH)
    (hv : '.' ∈ v)
    (hn : (env.files (if f.takeWhile (fun c => c != '?') = ['/'] then I
            else B ++ f.takeWhile (fun c => c != '?'))).isSome = true →
          '.' ∈ (if f.takeWhile (fun c => c != '?') = ['/'] then I
            else B ++ f.takeWhile (fun c => c != '?'))) :
    ∃ p, pars_http env g petition conf = Outcome.ok p ∧
      p.status ≠ HttpStatusCode.HTTP_BAD_REQUEST ∧
      p.filename = (if f.takeWhile (fun c => c != '?') = ['/'] then I
        else B ++ f.takeWhile (fun c => c != '?')) := by
  have hr : resolve_path conf (f.takeWhile (fun c => c != '?'))
      = Outcome.ok (if f.takeWhile (fun c => c != '?') = ['/'] then I
        else B ++ f.takeWhile (fun c => c != '?')) := by
    unfold resolve_path
    by_cases h : f.takeWhile (fun c => c != '?') = ['/']
    · simp only [h, if_true] at hfit
      have hI2 : ¬ I.length + 1 > MAX_PATH := by omega
      simp only [h, if_true, hI, hI2, if_false]
    · simp only [h, if_false] at hfit
      have hB2 : ¬ (B ++ f.takeWhile (fun c => c != '?')).length + 1 > MAX_PATH := by omega
      simp only [h, if_false, hB, hB2]
  obtain ⟨ty, ver, _, hcase⟩ := pars_http_returns env g petition conf m f v _ hs hf hp hr hv
    (fun hb => hn (probe_snd_files env m _ hb))
  rcases hcase with ⟨_, _, hres⟩ | ⟨_, _, hres⟩
  · exact ⟨_, hres, by simp, rfl⟩
  · exact ⟨_, hres, by simp, rfl⟩

theorem path_resolution_witness :
    (sscanf_request "GET /../etc/passwd.bak HTTP/1.1\r\n\r\n".toList
        = ⟨3, some "GET".toList, some "/../etc/passwd.bak".toList, some "HTTP/1.1".toList⟩ ∧
      "/../etc/passwd.bak".toList.length < MAX_PATH ∧
      "/../etc/passwd.bak".toList.takeWhile (fun c => c != '?') ≠ [] ∧
      get_value sample_conf "BASE_DIR".toList = some "/srv".toList ∧
      get_value sample_conf "INDEX_FILE".toList = some "/srv/index.html".toList ∧
      "/srv/../etc/passwd.bak".toList.length < MAX_PATH ∧
      '.' ∈ "HTTP/1.1".toList) ∧
    ∃ p, pars_http sample_env sample_garbage "GET /../etc/passwd.bak HTTP/1.1\r\n\r\n".toList
        sample_conf = Outcome.ok p ∧
      p.status ≠ HttpStatusCode.HTTP_BAD_REQUEST ∧
      p.filename = "/srv/../etc/passwd.bak".toList := by
  refine ⟨⟨by rfl, by decide, by decide, by rfl, by rfl, by decide, by decide⟩, ?_⟩
  obtain ⟨p, h1, h2, h3⟩ :=
    path_resolution sample_env sample_garbage "GET /../etc/passwd.bak HTTP/1.1\r\n\r\n".toList
      sample_conf "GET".toList "/../etc/passwd.bak".toList "HTTP/1.1".toList "/srv".toList
      "/srv/index.html".toList (by rfl) (by decide) (by decide) (by rfl) (by rfl) (by decide)
      (by decide) (fun _ => by decide)
  exact ⟨p, h1, h2, h3⟩

/-- C9: for every request whose path token `f` contains `?`, the query split
of `pars_http` leaves as path everything before the first `?` and as `args`
everything after it; that path contains no `?`, and path, `?` and `args` put
together give back `f`. Every parser that `pars_http` returns has these
`args`, and its file name is that path, unresolved when the status is
`HTTP_BAD_REQUEST` and resolved by `resolve_path` otherwise. -/
theorem query_split (env : Env) (g : Garbage) (petition : List Char) (conf : Dict)
    (f : List Char) (hs : (sscanf_request petition).filename = some f) (hq : '?' ∈ f) :
    split_query f g.args
      = (f.takeWhile (fun c => c != '?'), (f.dropWhile (fun c => c != '?')).drop 1) ∧
    '?' ∉ f.takeWhile (fun c => c != '?') ∧
    f.takeWhile (fun c => c != '?') ++ ['?'] ++ (f.dropWhile (fun c => c != '?')).drop 1 = f ∧
    ∀ p, pars_http env g petition conf = Outcome.ok p →
      p.args = (f.dropWhile (fun c => c != '?')).drop 1 ∧
      ((p.status = HttpStatusCode.HTTP_BAD_REQUEST ∧
          p.filename = f.takeWhile (fun c => c != '?')) ∨
       (p.status ≠ HttpStatusCode.HTTP_BAD_REQUEST ∧
          resolve_path conf (f.takeWhile (fun c => c != '?')) = Outcome.ok p.filename)) := by
  have h1 := split_query_fst f g.args
  have h2 := split_query_snd f g.args
  simp only [hq, if_true] at h2
  refine ⟨Prod.ext h1 h2, ?_, ?_, ?_⟩
  · intro hmem
    have := List.mem_takeWhile_imp hmem
    simp at this
  · have hd := dropWhile_ne_of_mem f '?' hq
    have ht := List.takeWhile_append_dropWhile (fun c => c != '?') f
    rw [hd] at ht
    simpa using ht
  · intro p hpars
    have hfields := pars_http_ok_fields env g petition conf p hpars
    simp only [hs, Option.getD_some, h1, h2] at hfields
    exact hfields

theorem query_split_witness :
    ((sscanf_request "GET /calc.py?a=1&b=2 HTTP/1.1\r\n\r\n".toList).filename
        = some "/calc.py?a=1&b=2".toList ∧
      '?' ∈ "/calc.py?a=1&b=2".toList) ∧
    split_query "/calc.py?a=1&b=2".toList sample_garbage.args
      = ("/calc.py".toList, "a=1&b=2".toList) ∧
    pars_http sample_env sample_garbage "GET /calc.py?a=1&b=2 HTTP/1.1\r\n\r\n".toList
        sample_conf
      = Outcome.ok ⟨Method.GET, "/srv/calc.py".toList, "a=1&b=2".toList, File_type.UNKNOWN,
          HttpStatusCode.HTTP_NOT_FOUND, Version.HTTP1_1⟩ := by
  refine ⟨⟨by rfl, by decide⟩, ?_, by rfl⟩
  have h := (query_split sample_env sample_garbage
    "GET /calc.py?a=1&b=2 HTTP/1.1\r\n\r\n".toList sample_conf "/calc.py?a=1&b=2".toList
    (by rfl) (by decide)).1
  rw [h]
  rfl

/-- C10, at the version tokens `HTTP` and `Host:` (no `.`): `strrchr` gives a
null pointer that `strcmp` reads, so the version is not resolved to `HTTP1_0`
and `pars_http` returns no parser for `GET /index.html HTTP`. -/
theorem version_without_dot_faults :
    resolve_version "HTTP".toList = Outcome.fault ∧
    resolve_version "Host:".toList = Outcome.fault ∧
    (∀ (env : Env) (g : Garbage),
      pars_http env g "GET /index.html HTTP\r\n\r\n".toList sample_conf = Outcome.fault) := by
  refine ⟨by rfl, by rfl, ?_⟩
  intro env g
  exact pars_http_version_fault env g _ sample_conf "GET".toList "/index.html".toList
    "HTTP".toList "/srv/index.html".toList File_type.HTML (by rfl) (by decide) (by rfl)
    (by rfl) (by rfl)


/-- C11: every file name that contains a `.` splits as `pre ++ '.' :: ext`
with no `.` in `ext` (the suffix starting at the last `.`), and
`get_file_type` classifies by `ext` alone: `html` gives HTML, `txt` TEXT,
`gif` GIF, `jpg`, `jpeg` and `ico` JPG, `mpeg` MPEG, `mp4` MP4, `py` PYTHON,
`php` PHP, and any other suffix, compared character by character, UNKNOWN. -/
theorem get_file_type_by_last_suffix (filename : List Char) (h : '.' ∈ filename) :
    ∃ pre ext, filename = pre ++ '.' :: ext ∧ '.' ∉ ext ∧
      (ext = "html".toList → get_file_type filename = Outcome.ok File_type.HTML) ∧
      (ext = "txt".toList → get_file_type filename = Outcome.ok File_type.TEXT) ∧
      (ext = "gif".toList → get_file_type filename = Outcome.ok File_type.GIF) ∧
      (ext = "jpg".toList ∨ ext = "jpeg".toList ∨ ext = "ico".toList →
        get_file_type filename = Outcome.ok File_type.JPG) ∧
      (ext = "mpeg".toList → get_file_type filename = Outcome.ok File_type.MPEG) ∧
      (ext = "mp4".toList → get_file_type filename = Outcome.ok File_type.MP4) ∧
      (ext = "py".toList → get_file_type filename = Outcome.ok File_type.PYTHON) ∧
      (ext = "php".toList → get_file_type filename = Outcome.ok File_type.PHP) ∧
      (ext ∉ ["html".toList, "txt".toList, "gif".toList, "jpg".toList, "jpeg".toList,
          "ico".toList, "mpeg".toList, "mp4".toList, "py".toList, "php".toList] →
        get_file_type filename = Outcome.ok File_type.UNKNOWN) := by
  obtain ⟨pre, ext, h1, h2, h3⟩ := strrchr_split filename '.' h
  have hg : ∀ e : List Char, strrchr filename '.' = some ('.' :: e) →
      get_file_type filename = get_file_type ('.' :: e) ∨ '.' ∈ e := by
    intro e he
    by_cases hd : '.' ∈ e
    · exact Or.inr hd
    · left
      have hn : strrchr e '.' = none := (strrchr_eq_none_iff e '.').mpr hd
      simp [get_file_type, he, strrchr, hn]
  have hgf : get_file_type filename = get_file_type ('.' :: ext) := by
    rcases hg ext h3 with e | e
    · exact e
    · exact absurd e h2
  refine ⟨pre, ext, h1, h2, ?_, ?_, ?_, ?_, ?_, ?_, ?_, ?_, ?_⟩
  · intro e; rw [hgf, e]; rfl
  · intro e; rw [hgf, e]; rfl
  · intro e; rw [hgf, e]; rfl
  · intro e
    rw [hgf]
    rcases e with e | e | e <;> rw [e] <;> rfl
  · intro e; rw [hgf, e]; rfl
  · intro e; rw [hgf, e]; rfl
  · intro e; rw [hgf, e]; rfl
  · intro e; rw [hgf, e]; rfl
  · intro e
    rw [hgf]
    have hn : strrchr ext '.' = none := (strrchr_eq_none_iff ext '.').mpr h2
    simp at e
    simp [get_file_type, strrchr, hn, e]

theorem get_file_type_by_last_suffix_witness :
    '.' ∈ "/srv/archive.tar.JPG".toList ∧
    ∃ pre ext, "/srv/archive.tar.JPG".toList = pre ++ '.' :: ext ∧ '.' ∉ ext ∧
      (ext ∉ ["html".toList, "txt".toList, "gif".toList, "jpg".toList, "jpeg".toList,
          "ico".toList, "mpeg".toList, "mp4".toList, "py".toList, "php".toList] →
        get_file_type "/srv/archive.tar.JPG".toList = Outcome.ok File_type.UNKNOWN) := by
  refine ⟨by decide, ?_⟩
  obtain ⟨pre, ext, h1, h2, _, _, _, _, _, _, _, _, h9⟩ :=
    get_file_type_by_last_suffix "/srv/archive.tar.JPG".toList (by decide)
  exact ⟨pre, ext, h1, h2, h9⟩

/-- C15: for every string `s`, `_replace_ampersand s` has the length of `s`;
at every position it holds a space where `s` holds `&` and the character of
`s` elsewhere; it contains no `&`; and applying the function twice gives the
same as applying it once. -/
theorem replace_ampersand_spec (s : List Char) :
    (_replace_ampersand s).length = s.length ∧
    (∀ i : Nat, (_replace_ampersand s)[i]?
      = (s[i]?).map (fun c => if c = '&' then ' ' else c)) ∧
    '&' ∉ _replace_ampersand s ∧
    _replace_ampersand (_replace_ampersand s) = _replace_ampersand s :=
  ⟨replace_ampersand_length s, replace_ampersand_getElem s, replace_ampersand_clean s,
    replace_ampersand_fixed _ (replace_ampersand_clean s)⟩

/-- C12, at the request `POST /index.html HTTP/1.1` for an existing HTML
file: the response has Content-Type `text/plain; charset=UTF-8`, while the
GET request for the same resource has `html; charset=UTF-8`. The header of
`_create_POST_header` has the Content-Type `text/plain` for every category
and every length. -/
theorem post_content_type_ignores_category :
    pars_http sample_env sample_garbage "POST /index.html HTTP/1.1\r\n\r\n".toList sample_conf
      = Outcome.ok ⟨Method.POST, "/srv/index.html".toList, [], File_type.HTML,
          HttpStatusCode.HTTP_OK, Version.HTTP1_1⟩ ∧
    take_post_body "POST /index.html HTTP/1.1\r\n\r\n".toList
        ⟨Method.POST, "/srv/index.html".toList, [], File_type.HTML,
          HttpStatusCode.HTTP_OK, Version.HTTP1_1⟩
      = Outcome.ok ⟨Method.POST, "/srv/index.html".toList, [], File_type.HTML,
          HttpStatusCode.HTTP_OK, Version.HTTP1_1⟩ ∧
    (create_response sample_env ⟨Method.POST, "/srv/index.html".toList, [], File_type.HTML,
        HttpStatusCode.HTTP_OK, Version.HTTP1_1⟩).2.map
        (fun r => header_field "Content-Type: ".toList r.header)
      = some (some "text/plain; charset=UTF-8".toList) ∧
    (create_response sample_env ⟨Method.GET, "/srv/index.html".toList, [], File_type.HTML,
        HttpStatusCode.HTTP_OK, Version.HTTP1_1⟩).2.map
        (fun r => header_field "Content-Type: ".toList r.header)
      = some (some "html; charset=UTF-8".toList) ∧
    (∀ (filename : List Char) (n : Nat) (type : File_type),
      header_field "Content-Type: ".toList (_create_POST_header filename n type)
        = some "text/plain; charset=UTF-8".toList) ∧
    (∀ (filename : List Char) (n : Nat),
      header_field "Content-Type: ".toList (_create_GET_header filename n File_type.HTML)
        = some "html; charset=UTF-8".toList) :=
  ⟨by rfl, by rfl, by rfl, by rfl, post_header_content_type, get_header_content_type_html⟩

/-- C13 fails at the category MPEG: the GET header of an MPEG file holds no
`Content-Disposition: attachment` field. -/
theorem video_attachment_counterexample :
    occurs "Content-Disposition: attachment".toList
        (_create_GET_header "/srv/clip.mpeg".toList 2048 File_type.MPEG) = false ∧
    _create_GET_header "/srv/clip.mpeg".toList 2048 File_type.MPEG
      = "HTTP/1.1 200 OK\r\nContent-Type: video/mpeg\r\nContent-Length: 2048\r\n\r\n".toList := by
  refine ⟨by rfl, by rfl⟩

/-- C13 (amended): for every file name, length and category, the header
built by `_create_GET_header` contains a `Content-Disposition: attachment`
field exactly when the category is MP4; for MPEG and every other category it
contains none. -/
theorem attachment_only_for_mp4 (filename : List Char) (n : Nat) (type : File_type) :
    occurs "Content-Disposition: attachment".toList (_create_GET_header filename n type) = true
      ↔ type = File_type.MP4 := by
  rw [get_header_disposition]
  simp

/-- C14 fails at the request of the scenario: for `POST /calc.py HTTP/1.1`
with body `a=1&b=2` and an interpreter that copies its input to its output,
the output captured is `a=1 b=2`: the input stream received a space in the
place of `&`. -/
theorem post_body_stdin_counterexample :
    pars_http echo_env sample_garbage "POST /calc.py HTTP/1.1\r\n\r\na=1&b=2".toList sample_conf
      = Outcome.ok ⟨Method.POST, "/srv/calc.py".toList, [], File_type.PYTHON,
          HttpStatusCode.HTTP_OK, Version.HTTP1_1⟩ ∧
    take_post_body "POST /calc.py HTTP/1.1\r\n\r\na=1&b=2".toList
        ⟨Method.POST, "/srv/calc.py".toList, [], File_type.PYTHON,
          HttpStatusCode.HTTP_OK, Version.HTTP1_1⟩
      = Outcome.ok ⟨Method.POST, "/srv/calc.py".toList, "a=1&b=2".toList, File_type.PYTHON,
          HttpStatusCode.HTTP_OK, Version.HTTP1_1⟩ ∧
    open_script echo_env "/srv/calc.py".toList File_type.PYTHON Method.POST "a=1&b=2".toList
      = some ("a=1 b=2".toList ++ [NUL]) ∧
    echo_env.spawn "python3".toList "/srv/calc.py".toList "a=1 b=2".toList
      = some "a=1 b=2".toList := by
  refine ⟨by rfl, by rfl, by rfl, by rfl⟩

/-- C14 (amended): for every parsed POST request with status `HTTP_OK` to a
script resource (PYTHON or PHP) whose buffer carries body `B` after the
first blank line, `B` having fewer than `MAX_ARGS - 4` (1020) characters, so
that the text from the blank line on fits with its terminator in the block
of `parser->args`, the worker stores `B` in `args`, `create_response` calls
`open_script` once with input `B`, and the interpreter is run with `B` in
which every `&` is replaced by a space on its standard input. -/
theorem post_body_reaches_stdin (env : Env) (buffer B : List Char) (p : Parser)
    (hm : p.method = Method.POST) (hs : p.status = HttpStatusCode.HTTP_OK)
    (ht : p.type = File_type.PYTHON ∨ p.type = File_type.PHP)
    (hB : body_of buffer = some B) (hfit : B.length + 4 < MAX_ARGS) :
    take_post_body buffer p = Outcome.ok { p with args := B } ∧
    (create_response env { p with args := B }).1
      = [Call.open_script p.filename p.type Method.POST B] ∧
    open_script env p.filename p.type Method.POST B
      = (match env.spawn (if p.type = File_type.PYTHON then "python3".toList
            else "php".toList) p.filename (_replace_ampersand B) with
        | none => none
        | some out => if out = [] then none else some (out ++ [NUL])) := by
  refine ⟨?_, ?_, ?_⟩
  · unfold body_of at hB
    unfold take_post_body
    cases hst : strstr buffer "\r\n\r\n".toList with
    | none =>
      rw [hst] at hB
      cases hB
    | some postargs =>
      rw [hst] at hB
      simp only [Option.map_some', Option.some.injEq] at hB
      have hl := strstr_length _ buffer postargs hst
      have h4 : ("\r\n\r\n".toList).length = 4 := rfl
      have hlen : postargs.length = B.length + 4 := by
        rw [← hB, List.length_drop]
        omega
      have hno : ¬ postargs.length + 1 > MAX_ARGS := by omega
      simp only [hm, if_true, hno, if_false, hB]
  · rcases ht with h | h <;> simp [create_response, hs, hm, h] <;> split <;> rfl
  · rcases ht with h | h <;> simp [open_script, h]

theorem post_body_reaches_stdin_witness :
    (body_of "POST /calc.py HTTP/1.1\r\n\r\na=1&b=2".toList = some "a=1&b=2".toList) ∧
    "a=1&b=2".toList.length + 4 < MAX_ARGS ∧
    take_post_body "POST /calc.py HTTP/1.1\r\n\r\na=1&b=2".toList
        ⟨Method.POST, "/srv/calc.py".toList, [], File_type.PYTHON,
          HttpStatusCode.HTTP_OK, Version.HTTP1_1⟩
      = Outcome.ok ⟨Method.POST, "/srv/calc.py".toList, "a=1&b=2".toList, File_type.PYTHON,
          HttpStatusCode.HTTP_OK, Version.HTTP1_1⟩ ∧
    _replace_ampersand "a=1&b=2".toList = "a=1 b=2".toList :=
  ⟨by rfl, by decide,
    (post_body_reaches_stdin echo_env "POST /calc.py HTTP/1.1\r\n\r\na=1&b=2".toList
      "a=1&b=2".toList
      ⟨Method.POST, "/srv/calc.py".toList, [], File_type.PYTHON, HttpStatusCode.HTTP_OK,
        Version.HTTP1_1⟩ rfl rfl (Or.inl rfl) (by rfl) (by decide)).1,
    by rfl⟩

/-- C16: take a pass of the worker loop in which a request is read and
parsed and its response is built. The pass sends the header and then either
leaves the loop or goes back to the loop condition. It leaves the loop
exactly when the buffer contains `Connection: close`, or the version of the
parser is `HTTP1_0`, or `shutdown_flag` is read as set after
`create_response`; in that case no later pass is run. Otherwise the next
pass is run, and it leaves the loop without reading exactly when
`shutdown_flag` is read as set by the loop condition. -/
theorem keep_alive_decision (env : Env) (conf : Dict) (pass : Pass) (buffer : List Char)
    (parsed parser : Parser) (response : Response)
    (hh : pass.shutdown_head = false) (hread : pass.read = some buffer)
    (hp : pars_http env pass.garbage buffer conf = Outcome.ok parsed)
    (hb : take_post_body buffer parsed = Outcome.ok parser)
    (hr : (create_response env parser).2 = some response) :
    ∃ trace, Action.send response.header ∈ trace ∧
      (worker_pass env conf pass = PassResult.exit trace ⟨false, false⟩ ↔
        (occurs "Connection: close".toList buffer = true ∨ parser.version = Version.HTTP1_0
          ∨ pass.shutdown_if = true)) ∧
      (worker_pass env conf pass = PassResult.again trace ↔
        ¬ (occurs "Connection: close".toList buffer = true ∨ parser.version = Version.HTTP1_0
          ∨ pass.shutdown_if = true)) ∧
      (∀ rest : List Pass, worker_pass env conf pass = PassResult.exit trace ⟨false, false⟩ →
        worker_loop env conf (pass :: rest) = some (trace, ⟨false, false⟩)) ∧
      (∀ rest : List Pass, worker_pass env conf pass = PassResult.again trace →
        worker_loop env conf (pass :: rest)
          = (worker_loop env conf rest).map (fun r => (trace ++ r.1, r.2))) ∧
      (∀ next : Pass, worker_pass env conf next = PassResult.exit [] ⟨false, false⟩ ↔
        next.shutdown_head = true) := by
  have hcond : keep_alive_after buffer pass.shutdown_if parser = true ↔
      ¬ (occurs "Connection: close".toList buffer = true ∨ parser.version = Version.HTTP1_0
          ∨ pass.shutdown_if = true) := by
    unfold keep_alive_after occurs
    simp only [Bool.not_eq_true', Bool.or_eq_false_iff, decide_eq_false_iff_not, not_or,
      Bool.not_eq_true]
    tauto
  refine ⟨[Action.read, Action.parser_alloc, Action.response_alloc,
      Action.send response.header]
    ++ (if parser.status = HttpStatusCode.HTTP_OK ∧ parser.method ≠ Method.OPTIONS
        then [Action.send ((send_file [] response).getD []).flatten] else [])
    ++ [Action.parser_free, Action.response_free], by simp, ?_, ?_, ?_, ?_, ?_⟩
  all_goals
    have hw : worker_pass env conf pass
        = if keep_alive_after buffer pass.shutdown_if parser = true then
            PassResult.again ([Action.read, Action.parser_alloc, Action.response_alloc,
                Action.send response.header]
              ++ (if parser.status = HttpStatusCode.HTTP_OK ∧ parser.method ≠ Method.OPTIONS
                  then [Action.send ((send_file [] response).getD []).flatten] else [])
              ++ [Action.parser_free, Action.response_free])
          else
            PassResult.exit ([Action.read, Action.parser_alloc, Action.response_alloc,
                Action.send response.header]
              ++ (if parser.status = HttpStatusCode.HTTP_OK ∧ parser.method ≠ Method.OPTIONS
                  then [Action.send ((send_file [] response).getD []).flatten] else [])
              ++ [Action.parser_free, Action.response_free]) ⟨false, false⟩ := by
      simp [worker_pass, hh, hread, hp, hb, hr]
  · rw [hw]
    by_cases hk : keep_alive_after buffer pass.shutdown_if parser = true
    · rw [if_pos hk]
      constructor
      · intro h
        cases h
      · intro hc
        exact absurd hc (hcond.mp hk)
    · rw [if_neg hk]
      constructor
      · intro _
        exact Classical.byContradiction (fun hn => hk (hcond.mpr hn))
      · intro _
        rfl
  · rw [hw]
    by_cases hk : keep_alive_after buffer pass.shutdown_if parser = true
    · rw [if_pos hk]
      constructor
      · intro _
        exact hcond.mp hk
      · intro _
        rfl
    · rw [if_neg hk]
      constructor
      · intro h
        cases h
      · intro hc
        exact absurd (hcond.mpr hc) hk
  · intro rest hw
    simp [worker_loop, hw]
  · intro rest hw
    simp [worker_loop, hw]
  · intro next
    constructor
    · intro hw
      by_contra hne
      have hf : next.shutdown_head = false := by simpa using hne
      have key : ∀ t held, worker_pass env conf next = PassResult.exit t held →
          Action.read ∈ t := by
        intro t held hx
        unfold worker_pass at hx
        simp only [hf, Bool.false_eq_true, if_false] at hx
        split at hx
        · cases hx; simp
        · split at hx
          · cases hx
          · cases hx; simp
          · split at hx
            · cases hx
            · cases hx
            · split at hx
              · cases hx; simp
              · split_ifs at hx <;> (cases hx; simp)
      have := key [] _ hw
      simp at this
    · intro hs
      simp [worker_pass, hs]

theorem keep_alive_decision_witness :
    (pars_http sample_env sample_garbage
        "GET /index.html HTTP/1.1\r\nConnection: close\r\n\r\n".toList sample_conf
        = Outcome.ok ⟨Method.GET, "/srv/index.html".toList, [], File_type.HTML,
            HttpStatusCode.HTTP_OK, Version.HTTP1_1⟩ ∧
      take_post_body "GET /index.html HTTP/1.1\r\nConnection: close\r\n\r\n".toList
          ⟨Method.GET, "/srv/index.html".toList, [], File_type.HTML,
            HttpStatusCode.HTTP_OK, Version.HTTP1_1⟩
        = Outcome.ok ⟨Method.GET, "/srv/index.html".toList, [], File_type.HTML,
            HttpStatusCode.HTTP_OK, Version.HTTP1_1⟩ ∧
      (create_response sample_env ⟨Method.GET, "/srv/index.html".toList, [], File_type.HTML,
            HttpStatusCode.HTTP_OK, Version.HTTP1_1⟩).2
        = some ⟨some ("<html>hello</html>".toList ++ [NUL]),
            "HTTP/1.1 200 OK\r\nContent-Type: html; charset=UTF-8\r\nContent-Length: 18\r\n\r\n".toList,
            18⟩) ∧
    ∃ trace,
      (worker_pass sample_env sample_conf
          ⟨false, some "GET /index.html HTTP/1.1\r\nConnection: close\r\n\r\n".toList,
            sample_garbage, false⟩ = PassResult.exit trace ⟨false, false⟩ ↔
        (occurs "Connection: close".toList
            "GET /index.html HTTP/1.1\r\nConnection: close\r\n\r\n".toList = true
          ∨ Version.HTTP1_1 = Version.HTTP1_0 ∨ false = true)) := by
  refine ⟨⟨by rfl, by rfl, by rfl⟩, ?_⟩
  obtain ⟨trace, _, h2, _⟩ :=
    keep_alive_decision sample_env sample_conf
      ⟨false, some "GET /index.html HTTP/1.1\r\nConnection: close\r\n\r\n".toList,
        sample_garbage, false⟩
      "GET /index.html HTTP/1.1\r\nConnection: close\r\n\r\n".toList
      ⟨Method.GET, "/srv/index.html".toList, [], File_type.HTML, HttpStatusCode.HTTP_OK,
        Version.HTTP1_1⟩
      ⟨Method.GET, "/srv/index.html".toList, [], File_type.HTML, HttpStatusCode.HTTP_OK,
        Version.HTTP1_1⟩
      ⟨some ("<html>hello</html>".toList ++ [NUL]),
        "HTTP/1.1 200 OK\r\nContent-Type: html; charset=UTF-8\r\nContent-Length: 18\r\n\r\n".toList,
        18⟩
      rfl rfl (by rfl) (by rfl) (by rfl)
  exact ⟨trace, h2⟩

/-- C18: for every descriptor, every list of passes and every state of the
globals at the time the worker leaves, either one pass of the loop ends in
`crash` (a read through a null pointer, which ends the process, or a write
past the end of a block: no exit is taken from the loop by the code as
written), or
`_handle_client` ends and its trace is the trace of the loop followed by the
release sequence, run once: every parser and every response allocated is
freed once and none is freed twice, the descriptor is closed once,
`active_clients` is decremented once and is one less than before, and the
registry differs from the one before only in the first of the first
`max_clients` slots that holds the descriptor, which is set to 0. -/
theorem cleanup_runs_once (env : Env) (conf : Dict) (fd : Int) (passes : List Pass)
    (g : Globals) :
    (∃ pass ∈ passes, worker_pass env conf pass = PassResult.crash) ∨
    ∃ loop_trace held,
      worker_loop env conf passes = some (loop_trace, held) ∧
      releases loop_trace = false ∧
      _handle_client env conf fd passes g
        = some (loop_trace ++ (_cleanup_handler held fd g).1, (_cleanup_handler held fd g).2) ∧
      resources (loop_trace ++ (_cleanup_handler held fd g).1) ⟨false, false⟩
        = some ⟨false, false⟩ ∧
      (loop_trace ++ (_cleanup_handler held fd g).1).count (Action.close fd) = 1 ∧
      (loop_trace ++ (_cleanup_handler held fd g).1).count Action.decrement = 1 ∧
      (_cleanup_handler held fd g).2.active_clients = g.active_clients - 1 ∧
      (_cleanup_handler held fd g).2.client_sockets
        = (if fd ∈ g.client_sockets.take g.max_clients
            then g.client_sockets.set ((g.client_sockets.take g.max_clients).indexOf fd) 0
            else g.client_sockets) := by
  cases hl : worker_loop env conf passes with
  | none => exact Or.inl ((worker_loop_trace env conf passes).2 hl)
  | some r =>
    obtain ⟨loop_trace, held⟩ := r
    obtain ⟨hres, hrel⟩ := (worker_loop_trace env conf passes).1 loop_trace held hl
    have hcount : ∀ (t : List Action), releases t = false →
        t.count (Action.close fd) = 0 ∧ t.count Action.decrement = 0 := by
      intro t
      induction t with
      | nil => intro _; simp
      | cons a t ih =>
        intro h
        cases a <;> simp [releases] at h <;>
          simp [List.count_cons, ih h]
    have hc := hcount loop_trace hrel
    refine Or.inr ⟨loop_trace, held, rfl, hrel, ?_, ?_, ?_, ?_, ?_, ?_⟩
    · simp [_handle_client, hl]
    · rw [resources_append, hres]
      obtain ⟨hp, hr⟩ := held
      cases hp <;> cases hr <;> rfl
    · rw [List.count_append, hc.1]
      obtain ⟨hp, hr⟩ := held
      cases hp <;> cases hr <;> simp [_cleanup_handler, List.count_cons]
    · rw [List.count_append, hc.2]
      obtain ⟨hp, hr⟩ := held
      cases hp <;> cases hr <;> simp [_cleanup_handler, List.count_cons]
    · rfl
    · simp only [_cleanup_handler]
      exact release_slot_spec _ _ _

/-- C17: in every state reachable from the start of the loop of
`server_listen` by the steps of the system (loop condition, admission check,
accept, test of the flag, slot reservation, test of the descriptor, thread
creation succeeding or failing, counter increment, worker cleanup,
interrupt), `active_clients` is at most `max_clients`; and whenever the
supervisor is between a passed admission check and its increment (so
whenever it is about to accept) `active_clients` is below `max_clients`. -/
theorem active_clients_bounded (max : Nat) (ls : List Label) (s : System)
    (h : run ls (initial max) = some s) :
    s.g.active_clients ≤ (s.g.max_clients : Int) ∧
    (post_admission s.phase = true → s.g.active_clients < (s.g.max_clients : Int)) ∧
    (s.phase = Phase.accepting → s.g.active_clients < (s.g.max_clients : Int)) := by
  have hinv := run_keeps (counter_invariant max) (step_counter max) ls (initial max) s
    (initial_counter max) h
  obtain ⟨h1, h2, h3, _⟩ := hinv
  rw [h1]
  refine ⟨h2, h3, ?_⟩
  intro hp
  exact h3 (by rw [hp]; rfl)

set_option maxRecDepth 100000 in
theorem active_clients_bounded_witness :
    (run [Label.loop_test, Label.admission_check, Label.accept 4, Label.shutdown_test,
        Label.reserve, Label.descriptor_test, Label.create_thread true, Label.increment,
        Label.loop_test, Label.admission_check] (initial 1)
      = some ⟨⟨1, 1, 4 :: List.replicate 1023 0, false⟩, Phase.loop_head, [4]⟩) ∧
    (1 : Int) ≤ ((1 : Nat) : Int) :=
  ⟨by rfl,
    (active_clients_bounded 1
      [Label.loop_test, Label.admission_check, Label.accept 4, Label.shutdown_test,
        Label.reserve, Label.descriptor_test, Label.create_thread true, Label.increment,
        Label.loop_test, Label.admission_check]
      ⟨⟨1, 1, 4 :: List.replicate 1023 0, false⟩, Phase.loop_head, [4]⟩ (by rfl)).1⟩

set_option maxRecDepth 100000 in
/-- C19 fails in the state that follows `pthread_create`: one worker has
been started and has not gone through its cleanup, and `active_clients` is
still 0. -/
theorem active_clients_counts_workers_counterexample :
    (run [Label.loop_test, Label.admission_check, Label.accept 4, Label.shutdown_test,
        Label.reserve, Label.descriptor_test, Label.create_thread true] (initial 2)).map
      (fun s => (s.g.active_clients, s.workers, s.phase))
      = some (0, [4], Phase.created 4) := by
  rfl

/-- C19 (amended): in every reachable state in which the supervisor is not
between `pthread_create` and the increment of `active_clients`,
`active_clients` is not negative and equals the number of workers that have
been started and have not gone through their cleanup; so in such a state the
counter is 0 once every started worker has gone through its cleanup. -/
theorem active_clients_counts_workers (max : Nat) (ls : List Label) (s : System)
    (h : run ls (initial max) = some s) (hp : ∀ fd, s.phase ≠ Phase.created fd) :
    0 ≤ s.g.active_clients ∧ s.g.active_clients = (s.workers.length : Int) ∧
    (s.workers = [] → s.g.active_clients = 0) := by
  have hinv := run_keeps (counter_invariant max) (step_counter max) ls (initial max) s
    (initial_counter max) h
  obtain ⟨_, _, _, h4⟩ := hinv
  have hz : pending_increment s.phase = 0 := by
    cases hph : s.phase <;> first | rfl | exact absurd hph (hp _)
  rw [hz] at h4
  simp only [Nat.cast_zero, add_zero] at h4
  refine ⟨by omega, h4, ?_⟩
  intro hw
  rw [h4, hw]
  rfl

set_option maxRecDepth 100000 in
theorem active_clients_counts_workers_witness :
    (run [Label.loop_test, Label.admission_check, Label.accept 4, Label.shutdown_test,
        Label.reserve, Label.descriptor_test, Label.create_thread true, Label.increment,
        Label.worker_cleanup 4] (initial 2)
      = some ⟨⟨2, 0, List.replicate 1024 0, false⟩, Phase.loop_head, []⟩) ∧
    (0 : Int) = (([] : List Int).length : Int) :=
  ⟨by rfl,
    (active_clients_counts_workers 2
      [Label.loop_test, Label.admission_check, Label.accept 4, Label.shutdown_test,
        Label.reserve, Label.descriptor_test, Label.create_thread true, Label.increment,
        Label.worker_cleanup 4]
      ⟨⟨2, 0, List.replicate 1024 0, false⟩, Phase.loop_head, []⟩ (by rfl)
      (by intro fd h; cases h)).2.1⟩

set_option maxRecDepth 100000 in
/-- A run in which the worker goes through its cleanup between
`pthread_create` and the increment: `active_clients` is -1. -/
theorem cleanup_before_increment_run :
    (run [Label.loop_test, Label.admission_check, Label.accept 4, Label.shutdown_test,
        Label.reserve, Label.descriptor_test, Label.create_thread true,
        Label.worker_cleanup 4] (initial 2)).map
      (fun s => (s.g.active_clients, s.workers, s.phase))
      = some (-1, [], Phase.created 4) := by
  rfl

/-- C21: no step of the supervisor, of a worker cleanup or of the interrupt
handler takes `shutdown_flag` from set to clear, and `_cleanup_handler`
leaves it as it is; `sigint_handler` leaves the flag set and each of the
first `max_clients` slots of the registry at 0; and in every run that
holds a step of `sigint_handler`, the flag is set in the state reached, no
`accept` taken after the handler is followed by the start of a worker
thread, and at most one thread is started after the handler (the one of an
iteration that was past its test of the flag when the handler ran). -/
theorem shutdown_is_final (max : Nat) (ls1 ls2 : List Label) (s : System)
    (h : run (ls1 ++ Label.interrupt :: ls2) (initial max) = some s) :
    (∀ (l : Label) (a b : System), step l a = some b → a.g.shutdown_flag = true →
      b.g.shutdown_flag = true) ∧
    (∀ (held : Held) (fd : Int) (g : Globals),
      (_cleanup_handler held fd g).2.shutdown_flag = g.shutdown_flag) ∧
    (∀ g : Globals, (sigint_handler g).shutdown_flag = true ∧
      ∀ x ∈ (sigint_handler g).client_sockets.take g.max_clients, x = 0) ∧
    s.g.shutdown_flag = true ∧ accept_then_spawn ls2 = false ∧ spawns ls2 ≤ 1 := by
  refine ⟨step_keeps_flag, fun _ _ _ => rfl,
    fun g => ⟨rfl, close_all_take g.max_clients g.client_sockets⟩, ?_⟩
  rw [run_append] at h
  cases h1 : run ls1 (initial max) with
  | none => simp [h1] at h
  | some u =>
    simp only [h1, Option.some_bind, run, step_interrupt] at h
    exact run_after_flag ls2 _ s h rfl

set_option maxRecDepth 100000 in
theorem shutdown_is_final_witness :
    run ([Label.loop_test, Label.admission_check]
        ++ Label.interrupt :: [Label.accept (-1), Label.shutdown_test]) (initial 2)
      = some ⟨⟨2, 0, List.replicate 1024 0, true⟩, Phase.returned, []⟩ ∧
    accept_then_spawn [Label.accept (-1), Label.shutdown_test] = false :=
  ⟨by rfl,
    (shutdown_is_final 2 [Label.loop_test, Label.admission_check]
      [Label.accept (-1), Label.shutdown_test]
      ⟨⟨2, 0, List.replicate 1024 0, true⟩, Phase.returned, []⟩ (by rfl)).2.2.2.2.1⟩

set_option maxRecDepth 100000 in
/-- A run in which the handler runs between the test of the flag that
follows `accept` and the reservation of the slot: the iteration under way
goes on, the descriptor is registered after the handler has cleared the
registry, and its worker is started; the loop is left at its next test. -/
theorem interrupt_before_reserve_run :
    (run [Label.loop_test, Label.admission_check, Label.accept 4, Label.shutdown_test,
        Label.interrupt, Label.reserve, Label.descriptor_test, Label.create_thread true,
        Label.increment, Label.loop_test] (initial 2)).map
      (fun s => (s.g.shutdown_flag, s.g.client_sockets.take 2, s.workers, s.phase))
      = some (true, [4, 0], [4], Phase.returned) := by
  rfl

/-- C22: take a pass of the worker loop, reached after passes that all
looped back, in which a request is read and parsed and the POST block is
gone through, and in which `create_response` calls a body source that
returns no buffer (`open_file` or `open_script` returning `NULL`). Then
`create_response` returns no response, the pass leaves the loop having
sent nothing (it holds the read and the allocation of the parser only), and
`_handle_client` ends with the release sequence: the parser is freed, the
descriptor closed, its slot cleared and `active_clients` decremented. -/
theorem body_failure_sends_nothing (env : Env) (conf : Dict) (fd : Int) (pre : List Pass)
    (traces : List (List Action)) (pass : Pass) (rest : List Pass) (g : Globals)
    (buffer : List Char) (parsed parser : Parser) (c : Call)
    (hpre : List.Forall₂ (fun p t => worker_pass env conf p = PassResult.again t) pre traces)
    (hh : pass.shutdown_head = false) (hr : pass.read = some buffer)
    (hp : pars_http env pass.garbage buffer conf = Outcome.ok parsed)
    (hb : take_post_body buffer parsed = Outcome.ok parser)
    (hc : (create_response env parser).1 = [c]) (hn : call_result env c = none) :
    (create_response env parser).2 = none ∧
    worker_pass env conf pass
      = PassResult.exit [Action.read, Action.parser_alloc] ⟨true, false⟩ ∧
    _handle_client env conf fd (pre ++ pass :: rest) g
      = some (traces.flatten ++ [Action.read, Action.parser_alloc, Action.parser_free,
            Action.close fd, Action.decrement],
          { g with
            client_sockets := release_slot g.max_clients g.client_sockets fd
            active_clients := g.active_clients - 1 }) := by
  have hnone := create_response_call env parser c hc hn
  have hw : worker_pass env conf pass
      = PassResult.exit [Action.read, Action.parser_alloc] ⟨true, false⟩ := by
    simp [worker_pass, hh, hr, hp, hb, hnone]
  refine ⟨hnone, hw, ?_⟩
  simp [_handle_client, worker_loop_again env conf (pass :: rest) pre traces hpre, worker_loop,
    hw, _cleanup_handler]

set_option maxRecDepth 100000 in
theorem body_failure_sends_nothing_witness :
    worker_pass sample_env sample_conf
        ⟨false, some "GET /index.html HTTP/1.1\r\n\r\n".toList, sample_garbage, false⟩
      = PassResult.again
        [Action.read, Action.parser_alloc, Action.response_alloc,
          Action.send
            "HTTP/1.1 200 OK\r\nContent-Type: html; charset=UTF-8\r\nContent-Length: 18\r\n\r\n".toList,
          Action.send "<html>hello</html>".toList, Action.parser_free, Action.response_free] ∧
    call_result sample_env (Call.open_file "/srv/empty.gif".toList File_type.GIF) = none ∧
    worker_pass sample_env sample_conf
        ⟨false, some "GET /empty.gif HTTP/1.1\r\n\r\n".toList, sample_garbage, false⟩
      = PassResult.exit [Action.read, Action.parser_alloc] ⟨true, false⟩ :=
  ⟨by rfl, by rfl,
    (body_failure_sends_nothing sample_env sample_conf 4
      [⟨false, some "GET /index.html HTTP/1.1\r\n\r\n".toList, sample_garbage, false⟩]
      [[Action.read, Action.parser_alloc, Action.response_alloc,
          Action.send
            "HTTP/1.1 200 OK\r\nContent-Type: html; charset=UTF-8\r\nContent-Length: 18\r\n\r\n".toList,
          Action.send "<html>hello</html>".toList, Action.parser_free, Action.response_free]]
      ⟨false, some "GET /empty.gif HTTP/1.1\r\n\r\n".toList, sample_garbage, false⟩ []
      ⟨5, 1, 4 :: List.replicate 1023 0, false⟩
      "GET /empty.gif HTTP/1.1\r\n\r\n".toList
      ⟨Method.GET, "/srv/empty.gif".toList, [], File_type.GIF, HttpStatusCode.HTTP_OK,
        Version.HTTP1_1⟩
      ⟨Method.GET, "/srv/empty.gif".toList, [], File_type.GIF, HttpStatusCode.HTTP_OK,
        Version.HTTP1_1⟩
      (Call.open_file "/srv/empty.gif".toList File_type.GIF)
      (List.Forall₂.cons (by rfl) List.Forall₂.nil) rfl rfl (by rfl) (by rfl) (by rfl)
      (by rfl)).2.1⟩

/-- C23: let the configuration hold a value for `MAX_CLIENTS`. When `atoi`
of it is less than 1 or more than `MAX_THREADS` (1024), `server_listen`
returns -1 having taken no step of its loop, whatever else the
configuration holds. When it is in 1..1024 and the value of `TIMEOUT` has
`atoi` at most 0, `server_listen` returns -1 having taken no step. When it
is in 1..1024, `atoi` of `TIMEOUT` is positive and `PORT` has a value (as
`main` has checked before the call), `server_listen` enters its loop with
`max_clients` set to the value parsed, and along every run of the loop it
returns 0 once the loop is left and nothing before; the loop is left, for
one, when the interrupt handler has run. -/
theorem server_listen_checks (conf : Dict) (v : List Char)
    (hv : get_value conf "MAX_CLIENTS".toList = some v) :
    ((atoi v < 1 ∨ (MAX_THREADS : Int) < atoi v) →
      server_listen_entry conf = Outcome.ok (Entry.refused (-1)) ∧
      ∀ ls : List Label, server_listen conf ls = Outcome.ok ([], some (-1))) ∧
    (1 ≤ atoi v → atoi v ≤ (MAX_THREADS : Int) →
      ∀ t : List Char, get_value conf "TIMEOUT".toList = some t →
        (atoi t ≤ 0 →
          server_listen_entry conf = Outcome.ok (Entry.refused (-1)) ∧
          ∀ ls : List Label, server_listen conf ls = Outcome.ok ([], some (-1))) ∧
        (0 < atoi t → ∀ port : List Char, get_value conf "PORT".toList = some port →
          server_listen_entry conf
            = Outcome.ok (Entry.listening (initial (atoi v).toNat) (atoi t)) ∧
          (((atoi v).toNat : Nat) : Int) = atoi v ∧
          (∀ (ls : List Label) (s : System), run ls (initial (atoi v).toNat) = some s →
            server_listen conf ls
              = Outcome.ok (ls, if s.phase = Phase.returned then some 0 else none)) ∧
          server_listen conf [Label.interrupt, Label.loop_test]
            = Outcome.ok ([Label.interrupt, Label.loop_test], some 0))) := by
  constructor
  · intro hbad
    have hc : atoi v ≤ 0 ∨ atoi v > (MAX_THREADS : Int) := by
      rcases hbad with h | h
      · left; omega
      · right; exact h
    have he : server_listen_entry conf = Outcome.ok (Entry.refused (-1)) := by
      unfold server_listen_entry
      rw [hv]
      simp only [if_pos hc]
    exact ⟨he, fun ls => by simp [server_listen, he]⟩
  · intro h1 h2 t ht
    have hc : ¬ (atoi v ≤ 0 ∨ atoi v > (MAX_THREADS : Int)) := by
      push_neg
      exact ⟨by omega, h2⟩
    constructor
    · intro hbad
      have he : server_listen_entry conf = Outcome.ok (Entry.refused (-1)) := by
        unfold server_listen_entry
        rw [hv]
        simp only [if_neg hc]
        rw [ht]
        simp only [if_pos hbad]
      exact ⟨he, fun ls => by simp [server_listen, he]⟩
    · intro hpos port hport
      have he : server_listen_entry conf
          = Outcome.ok (Entry.listening (initial (atoi v).toNat) (atoi t)) := by
        unfold server_listen_entry
        rw [hv]
        simp only [if_neg hc]
        rw [ht]
        simp only [if_neg (not_le.mpr hpos)]
        rw [hport]
      refine ⟨he, Int.toNat_of_nonneg (by omega), ?_, ?_⟩
      · intro ls s hrun
        simp [server_listen, he, hrun]
      · simp [server_listen, he, run, step, initial, sigint_handler]

theorem server_listen_checks_witness :
    get_value sample_conf "MAX_CLIENTS".toList = some "5".toList ∧
    server_listen_entry sample_conf = Outcome.ok (Entry.listening (initial 5) 10) ∧
    server_listen sample_conf [Label.interrupt, Label.loop_test]
      = Outcome.ok ([Label.interrupt, Label.loop_test], some 0) ∧
    server_listen [("MAX_CLIENTS".toList, "1025".toList)] [Label.loop_test]
      = Outcome.ok ([], some (-1)) :=
  ⟨by rfl, by rfl,
    (((server_listen_checks sample_conf "5".toList (by rfl)).2 (by decide) (by decide)
      "10".toList (by rfl)).2 (by decide) "8080".toList (by rfl)).2.2.2,
    ((server_listen_checks [("MAX_CLIENTS".toList, "1025".toList)] "1025".toList (by rfl)).1
      (Or.inr (by decide))).2 [Label.loop_test]⟩

/-- C24: take a pass of the worker loop, reached after passes that all
looped back, in which the loop condition passes and `read` returns 0 or a
negative value. The pass holds the read and nothing else (no parser is
allocated, nothing is sent) and leaves the loop, and `_handle_client` ends
with the release sequence: the descriptor is closed, its slot cleared and
`active_clients` is one less than before. -/
theorem read_failure_closes (env : Env) (conf : Dict) (fd : Int) (pre : List Pass)
    (traces : List (List Action)) (pass : Pass) (rest : List Pass) (g : Globals)
    (hpre : List.Forall₂ (fun p t => worker_pass env conf p = PassResult.again t) pre traces)
    (hh : pass.shutdown_head = false) (hr : pass.read = none) :
    worker_pass env conf pass = PassResult.exit [Action.read] ⟨false, false⟩ ∧
    _handle_client env conf fd (pre ++ pass :: rest) g
      = some (traces.flatten ++ [Action.read, Action.close fd, Action.decrement],
          { g with
            client_sockets := release_slot g.max_clients g.client_sockets fd
            active_clients := g.active_clients - 1 }) := by
  have hw : worker_pass env conf pass = PassResult.exit [Action.read] ⟨false, false⟩ := by
    simp [worker_pass, hh, hr]
  refine ⟨hw, ?_⟩
  simp [_handle_client, worker_loop_again env conf (pass :: rest) pre traces hpre, worker_loop,
    hw, _cleanup_handler]

set_option maxRecDepth 100000 in
theorem read_failure_closes_witness :
    worker_pass sample_env sample_conf
        ⟨false, some "GET /index.html HTTP/1.1\r\n\r\n".toList, sample_garbage, false⟩
      = PassResult.again
        [Action.read, Action.parser_alloc, Action.response_alloc,
          Action.send
            "HTTP/1.1 200 OK\r\nContent-Type: html; charset=UTF-8\r\nContent-Length: 18\r\n\r\n".toList,
          Action.send "<html>hello</html>".toList, Action.parser_free, Action.response_free] ∧
    _handle_client sample_env sample_conf 4
        ([⟨false, some "GET /index.html HTTP/1.1\r\n\r\n".toList, sample_garbage, false⟩]
          ++ ⟨false, none, sample_garbage, false⟩ :: [])
        ⟨5, 1, [4, 0, 0, 0, 0], false⟩
      = some ([[Action.read, Action.parser_alloc, Action.response_alloc,
          Action.send
            "HTTP/1.1 200 OK\r\nContent-Type: html; charset=UTF-8\r\nContent-Length: 18\r\n\r\n".toList,
          Action.send "<html>hello</html>".toList, Action.parser_free,
          Action.response_free]].flatten
          ++ [Action.read, Action.close 4, Action.decrement],
        ⟨5, 0, [0, 0, 0, 0, 0], false⟩) :=
  ⟨by rfl,
    (read_failure_closes sample_env sample_conf 4
      [⟨false, some "GET /index.html HTTP/1.1\r\n\r\n".toList, sample_garbage, false⟩]
      [[Action.read, Action.parser_alloc, Action.response_alloc,
          Action.send
            "HTTP/1.1 200 OK\r\nContent-Type: html; charset=UTF-8\r\nContent-Length: 18\r\n\r\n".toList,
          Action.send "<html>hello</html>".toList, Action.parser_free, Action.response_free]]
      ⟨false, none, sample_garbage, false⟩ [] ⟨5, 1, [4, 0, 0, 0, 0], false⟩
      (List.Forall₂.cons (by rfl) List.Forall₂.nil) rfl rfl).2⟩

/-- C25: for every response and every sequence of results of `send` that
are all positive (each call takes at least one byte and at most what it is
asked for; once the sequence is used up every call takes all it is given),
`send_file` ends; each call of `send` is asked for at least 1 and at most
`BUFFER_SIZE` bytes and takes no more than it is asked for; the bytes taken
by the calls, put end to end in the order of the calls, are the first
`content_length` bytes of `content`, each call starting at the first byte
not yet taken; and when `content_length` is 0 no call is made. -/
theorem send_file_streams (response : Response) (sock : List (Option Nat))
    (hs : ∀ x ∈ sock, ∃ k, 0 < k ∧ x = some k) :
    ∃ calls, send_file_trace sock response = some calls ∧
      send_file sock response = some (calls.filterMap Prod.snd) ∧
      (∀ c ∈ calls, 0 < c.1 ∧ c.1 ≤ BUFFER_SIZE ∧
        ∃ chunk, c.2 = some chunk ∧ chunk.length ≤ c.1) ∧
      (calls.filterMap Prod.snd).flatten
        = (response.content.getD []).take response.content_length ∧
      (response.content_length = 0 → calls = []) := by
  obtain ⟨calls, h1, h2, h3, h4⟩ :=
    send_file_calls_spec (response.content.getD []) response.content_length
      (response.content_length + 1) 0 sock hs (by omega)
  refine ⟨calls, h1, ?_, h2, by simpa using h3, fun h0 => h4 (by omega)⟩
  unfold send_file
  rw [← send_file_calls_chunks, h1]
  rfl

theorem send_file_streams_witness :
    send_file_trace [some 2, some 1] ⟨some "GIF89a".toList, [], 6⟩
      = some [(6, some "GI".toList), (4, some "F".toList), (3, some "89a".toList)] ∧
    ∃ calls, send_file_trace [some 2, some 1] ⟨some "GIF89a".toList, [], 6⟩ = some calls ∧
      (calls.filterMap Prod.snd).flatten = "GIF89a".toList := by
  refine ⟨by rfl, ?_⟩
  obtain ⟨calls, h1, _, _, h4, _⟩ :=
    send_file_streams ⟨some "GIF89a".toList, [], 6⟩ [some 2, some 1]
      (by
        intro x hx
        simp only [List.mem_cons, List.mem_singleton, List.not_mem_nil, or_false] at hx
        rcases hx with rfl | rfl
        · exact ⟨2, by decide, rfl⟩
        · exact ⟨1, by decide, rfl⟩)
  exact ⟨calls, h1, h4⟩

set_option maxRecDepth 100000 in
/-- C26, at the name `/srv/README`, which holds no `.`: `strrchr` returns
a null pointer and the first `strcmp` of `get_file_type` reads through it,
so no category is returned; the request `GET /README` for that existing
file ends `pars_http`, and with it the worker and the process, on that
fault. The same holds for every name without a `.`; for every name with a
`.` a category is returned. -/
theorem get_file_type_without_dot_faults :
    get_file_type "/srv/README".toList = Outcome.fault ∧
    readme_env.files "/srv/README".toList = some "read me\n".toList ∧
    pars_http readme_env sample_garbage "GET /README HTTP/1.1\r\n\r\n".toList sample_conf
      = Outcome.fault ∧
    worker_pass readme_env sample_conf
      ⟨false, some "GET /README HTTP/1.1\r\n\r\n".toList, sample_garbage, false⟩
      = PassResult.crash ∧
    (∀ filename : List Char, '.' ∉ filename → get_file_type filename = Outcome.fault) ∧
    (∀ filename : List Char, '.' ∈ filename → ∃ t, get_file_type filename = Outcome.ok t) := by
  refine ⟨by rfl, by rfl, by rfl, by rfl, ?_, ?_⟩
  · intro filename h
    have hn : strrchr filename '.' = none := (strrchr_eq_none_iff filename '.').mpr h
    simp [get_file_type, hn]
  · intro filename h
    exact get_file_type_of_dot filename h

/-- C27: for every GET or POST request with status `HTTP_OK` and category
TEXT or HTML whose file `F` has at least one byte and holds no NUL byte,
`open_file` returns a buffer holding `F` without its last byte, followed by
a NUL; `create_response` returns a response with that buffer, whose
`content_length` and declared Content-Length are the length of `F` minus 1,
and the bytes the worker writes after the blank line are `F` without its
last byte. -/
theorem text_file_loses_last_byte (env : Env) (p : Parser) (F : List Char)
    (hm : p.method = Method.GET ∨ p.method = Method.POST)
    (hs : p.status = HttpStatusCode.HTTP_OK)
    (ht : p.type = File_type.TEXT ∨ p.type = File_type.HTML)
    (hf : env.files p.filename = some F) (hne : 1 ≤ F.length) (hnul : NUL ∉ F) :
    open_file env p.filename p.type = some (F.dropLast ++ [NUL]) ∧
    F.dropLast.length = F.length - 1 ∧
    ∃ r, (create_response env p).2 = some r ∧
      r.content = some (F.dropLast ++ [NUL]) ∧
      r.content_length = F.length - 1 ∧
      declared_length r.header = some (F.length - 1) ∧
      body_of (transmitted p r) = some F.dropLast := by
  have hlen : F.dropLast.length = F.length - 1 := by simp
  have hof : open_file env p.filename p.type = some (F.dropLast ++ [NUL]) := by
    have h1 : F.length - (F.length - 1) = 1 := by omega
    have h0 : F.length ≠ 0 := by omega
    rcases ht with h | h <;>
      simp [open_file, get_file_size, h, hf, h0, List.length_take, h1, List.dropLast_eq_take]
  have hnd : NUL ∉ F.dropLast := fun h => hnul (List.dropLast_subset F h)
  have hstr : strlen (F.dropLast ++ [NUL]) = F.length - 1 := by
    rw [strlen_append_NUL _ _ hnd, hlen]
  have hb : p.type ≠ File_type.BINARY ∧ p.type ≠ File_type.UNKNOWN := by
    rcases ht with h | h <;> simp [h]
  have hr : (create_response env p).2
      = some ⟨some (F.dropLast ++ [NUL]),
          (if p.method = Method.GET
            then _create_GET_header p.filename (F.length - 1) p.type
            else _create_POST_header p.filename (F.length - 1) p.type), F.length - 1⟩ := by
    rcases hm with hm | hm <;> rcases ht with h | h <;>
      (rw [h] at hof; simp [create_response, hs, hm, h, hof, hstr])
  have hno : p.method ≠ Method.OPTIONS := by
    rcases hm with h | h <;> simp [h]
  refine ⟨hof, hlen, _, hr, rfl, rfl, ?_, ?_⟩
  · by_cases hget : p.method = Method.GET
    · simp only [hget, if_true]
      have := (get_header_wire p.filename [] (F.length - 1) p.type hb).2
      simpa using this
    · simp only [hget, if_false]
      have := (post_header_wire p.filename [] (F.length - 1) p.type).2
      simpa using this
  · have htake : (F.dropLast ++ [NUL]).take (F.length - 1) = F.dropLast := by
      rw [← hlen]
      simp
    have hw : ∀ h : List Char,
        transmitted p ⟨some (F.dropLast ++ [NUL]), h, F.length - 1⟩ = h ++ F.dropLast := by
      intro h
      simp [transmitted, hs, hno, send_file_all, htake]
    rw [hw]
    by_cases hget : p.method = Method.GET
    · simp only [hget, if_true]
      exact (get_header_wire p.filename _ (F.length - 1) p.type hb).1
    · simp only [hget, if_false]
      exact (post_header_wire p.filename _ (F.length - 1) p.type).1

set_option maxRecDepth 100000 in
theorem text_file_loses_last_byte_witness :
    sample_env.files "/srv/a.txt".toList = some "hi".toList ∧
    open_file sample_env "/srv/a.txt".toList File_type.TEXT = some ['h', NUL] ∧
    (create_response sample_env ⟨Method.GET, "/srv/a.txt".toList, [], File_type.TEXT,
        HttpStatusCode.HTTP_OK, Version.HTTP1_1⟩).2
      = some ⟨some ['h', NUL],
          "HTTP/1.1 200 OK\r\nContent-Type: text/plain; charset=UTF-8\r\nContent-Length: 1\r\n\r\n".toList,
          1⟩ :=
  ⟨by rfl,
    (text_file_loses_last_byte sample_env
      ⟨Method.GET, "/srv/a.txt".toList, [], File_type.TEXT, HttpStatusCode.HTTP_OK,
        Version.HTTP1_1⟩
      "hi".toList (Or.inl rfl) rfl (Or.inl rfl) (by rfl) (by decide) (by decide)).1,
    by rfl⟩

set_option maxRecDepth 100000 in
/-- C28 fails at a script whose output starts with a NUL byte: for
`GET /calc.py` and for `POST /calc.py` the output buffer is not null, its
length as a C string is 0, and `create_response` returns a response whose
header declares Content-Length 0. -/
theorem zero_length_script_counterexample :
    pars_http nul_env sample_garbage "GET /calc.py HTTP/1.1\r\n\r\n".toList sample_conf
      = Outcome.ok ⟨Method.GET, "/srv/calc.py".toList, [], File_type.PYTHON,
          HttpStatusCode.HTTP_OK, Version.HTTP1_1⟩ ∧
    nul_env.popen "python3 /srv/calc.py ".toList = some [NUL, 'x'] ∧
    open_script nul_env "/srv/calc.py".toList File_type.PYTHON Method.GET [] = some [NUL] ∧
    (create_response nul_env ⟨Method.GET, "/srv/calc.py".toList, [], File_type.PYTHON,
        HttpStatusCode.HTTP_OK, Version.HTTP1_1⟩).2
      = some ⟨some [NUL],
          "HTTP/1.1 200 OK\r\nContent-Type: text/plain; charset=UTF-8\r\nContent-Length: 0\r\n\r\n".toList,
          0⟩ ∧
    (create_response nul_env ⟨Method.POST, "/srv/calc.py".toList, [], File_type.PYTHON,
        HttpStatusCode.HTTP_OK, Version.HTTP1_1⟩).2
      = some ⟨some [NUL, 'x', NUL],
          "HTTP/1.1 200 OK\r\nContent-Type: text/plain; charset=UTF-8\r\nContent-Length: 0\r\n\r\n".toList,
          0⟩ := by
  refine ⟨by rfl, by rfl, by rfl, by rfl, by rfl⟩

/-- C28 (amended): for every GET or POST request with status `HTTP_OK`.
When the category is not a script and the file has size 0, `open_file`
returns null and `create_response` returns no response. When the category is
PYTHON or PHP and `out` is what the script writes (to the pipe of `popen`
for GET, to its standard output for POST): if `out` is empty, `open_script`
returns null and `create_response` returns no response; and every response
returned has `content_length` at least 1 when `out` does not start with a
NUL byte. Every response returned for a category read in binary mode has
`content_length` at least 1. -/
theorem zero_byte_body_is_failure (env : Env) (p : Parser)
    (hm : p.method = Method.GET ∨ p.method = Method.POST)
    (hs : p.status = HttpStatusCode.HTTP_OK) :
    (p.type ≠ File_type.PYTHON ∧ p.type ≠ File_type.PHP → env.files p.filename = some [] →
      open_file env p.filename p.type = none ∧ (create_response env p).2 = none) ∧
    (p.type = File_type.PYTHON ∨ p.type = File_type.PHP →
      ∀ out : List Char,
        (p.method = Method.GET ∧
          env.popen (((if p.type = File_type.PYTHON then "python3 ".toList
            else "php ".toList) ++ p.filename ++ " ".toList
              ++ _replace_ampersand p.args).take 255) = some out) ∨
        (p.method = Method.POST ∧
          env.spawn (if p.type = File_type.PYTHON then "python3".toList else "php".toList)
            p.filename (_replace_ampersand p.args) = some out) →
        (out = [] →
          open_script env p.filename p.type p.method p.args = none ∧
          (create_response env p).2 = none) ∧
        (∀ r : Response, (create_response env p).2 = some r →
          out ≠ [] ∧ (out.head? ≠ some NUL → 1 ≤ r.content_length))) ∧
    (∀ r : Response, (create_response env p).2 = some r →
      (p.type = File_type.BINARY ∨ p.type = File_type.JPG ∨ p.type = File_type.GIF
        ∨ p.type = File_type.MPEG ∨ p.type = File_type.MP4) →
      1 ≤ r.content_length) := by
  have hno : p.method ≠ Method.OPTIONS := by
    rcases hm with h | h <;> simp [h]
  refine ⟨?_, ?_, ?_⟩
  · intro ht hf
    have hof : open_file env p.filename p.type = none := by
      unfold open_file
      simp only [hf, get_file_size]
      split_ifs <;> first | rfl | simp_all
    refine ⟨hof, ?_⟩
    simp [create_response, hs, hno, ht, hof]
  · intro ht out hout
    have hcr := create_response_script env p hm hs ht
    have hos : open_script env p.filename p.type p.method p.args
        = if out = [] then none
          else some ((if p.method = Method.GET then read_lines out.length out else out)
            ++ [NUL]) := by
      rcases hout with ⟨hg, ho⟩ | ⟨hp, ho⟩
      · rw [hg, open_script_get env _ _ _ ht, ho]
        simp
      · rw [hp, open_script_post env _ _ _ ht, ho]
        simp
    constructor
    · intro he
      rw [if_pos he] at hos
      refine ⟨hos, ?_⟩
      rw [hcr, hos]
      rfl
    · intro r hr
      by_cases he : out = []
      · rw [if_pos he] at hos
        rw [hcr, hos] at hr
        cases hr
      · refine ⟨he, fun hh => ?_⟩
        rw [if_neg he] at hos
        rw [hcr, hos] at hr
        simp only [Option.map_some', Option.some.injEq] at hr
        rw [← hr]
        by_cases hg : p.method = Method.GET
        · simp only [hg, if_true]
          exact read_lines_strlen out he hh
        · simp only [hg, if_false]
          exact output_strlen out he hh
  · intro r hr ht
    have hscript : p.type ≠ File_type.PYTHON ∧ p.type ≠ File_type.PHP := by
      rcases ht with h | h | h | h | h <;> simp [h]
    cases hf : env.files p.filename with
    | none =>
      have hof : open_file env p.filename p.type = none := by
        unfold open_file
        simp only [hf]
        split_ifs <;> rfl
      simp [create_response, hs, hno, hscript, hof] at hr
    | some data =>
      by_cases hd : data.length = 0
      · have hof : open_file env p.filename p.type = none := by
          unfold open_file
          simp only [hf, get_file_size]
          split_ifs <;> rfl
        simp [create_response, hs, hno, hscript, hof] at hr
      · have hsz : get_file_size env p.filename = data.length := by
          simp [get_file_size, hf]
        cases hof : open_file env p.filename p.type with
        | none => simp [create_response, hs, hno, hscript, hof] at hr
        | some file =>
          have hlen : r.content_length = data.length := by
            rcases hm with hm | hm <;> rcases ht with h | h | h | h | h <;>
              (rw [h] at hof
               simp [create_response, hs, hm, h, hof, hsz] at hr
               rw [← hr])
          omega

set_option maxRecDepth 100000 in
theorem zero_byte_body_is_failure_witness :
    sample_env.files "/srv/empty.gif".toList = some [] ∧
    open_file sample_env "/srv/empty.gif".toList File_type.GIF = none ∧
    (create_response sample_env ⟨Method.GET, "/srv/empty.gif".toList, [], File_type.GIF,
      HttpStatusCode.HTTP_OK, Version.HTTP1_1⟩).2 = none ∧
    echo_env.popen "python3 /srv/calc.py a=1".toList = some "python3 /srv/calc.py a=1".toList ∧
    ∀ r : Response,
      (create_response echo_env ⟨Method.GET, "/srv/calc.py".toList, "a=1".toList,
        File_type.PYTHON, HttpStatusCode.HTTP_OK, Version.HTTP1_1⟩).2 = some r →
      1 ≤ r.content_length :=
  ⟨by rfl,
    ((zero_byte_body_is_failure sample_env
      ⟨Method.GET, "/srv/empty.gif".toList, [], File_type.GIF, HttpStatusCode.HTTP_OK,
        Version.HTTP1_1⟩ (Or.inl rfl) rfl).1 (by decide) (by rfl)).1,
    ((zero_byte_body_is_failure sample_env
      ⟨Method.GET, "/srv/empty.gif".toList, [], File_type.GIF, HttpStatusCode.HTTP_OK,
        Version.HTTP1_1⟩ (Or.inl rfl) rfl).1 (by decide) (by rfl)).2,
    by rfl,
    fun r hr =>
      ((((zero_byte_body_is_failure echo_env
        ⟨Method.GET, "/srv/calc.py".toList, "a=1".toList, File_type.PYTHON,
          HttpStatusCode.HTTP_OK, Version.HTTP1_1⟩ (Or.inl rfl) rfl).2.1 (Or.inl rfl)
        "python3 /srv/calc.py a=1".toList (Or.inl ⟨rfl, by rfl⟩)).2 r hr).2 (by decide))⟩

set_option maxRecDepth 100000 in
/-- C30, at the buffer `POST /calc.py HTTP/1.1` followed by one CR LF, as
read when the blank line has not arrived yet: `pars_http` parses it with
method POST, `strstr` finds no CR LF CR LF and returns a null pointer, and
`strcpy` reads through it, which ends the worker and the process. The same
holds for every buffer without a blank line, and the copy writes past the
block of `MAX_ARGS` bytes when the text from the blank line on has
`MAX_ARGS` characters or more. For every other buffer parsed with method
POST the block is defined: `parser->args` is left 4 bytes into its block,
at the text that follows the first CR LF CR LF, whatever it held before,
and the release of the parser passes the start of the block to `free`. -/
theorem post_body_extraction_undefined :
    pars_http echo_env sample_garbage "POST /calc.py HTTP/1.1\r\n".toList sample_conf
      = Outcome.ok ⟨Method.POST, "/srv/calc.py".toList, [], File_type.PYTHON,
          HttpStatusCode.HTTP_OK, Version.HTTP1_1⟩ ∧
    strstr "POST /calc.py HTTP/1.1\r\n".toList "\r\n\r\n".toList = none ∧
    post_block "POST /calc.py HTTP/1.1\r\n".toList = Outcome.fault ∧
    worker_pass echo_env sample_conf
      ⟨false, some "POST /calc.py HTTP/1.1\r\n".toList, sample_garbage, false⟩
      = PassResult.crash ∧
    (∀ (buffer : List Char) (p : Parser), p.method = Method.POST →
      strstr buffer "\r\n\r\n".toList = none →
      post_block buffer = Outcome.fault ∧ take_post_body buffer p = Outcome.fault) ∧
    (∀ (buffer postargs : List Char), strstr buffer "\r\n\r\n".toList = some postargs →
      MAX_ARGS ≤ postargs.length → post_block buffer = Outcome.fault) ∧
    (∀ (buffer postargs : List Char) (p : Parser), p.method = Method.POST →
      strstr buffer "\r\n\r\n".toList = some postargs → postargs.length < MAX_ARGS →
      post_block buffer = Outcome.ok ⟨postargs, 4⟩ ∧
      args_of ⟨postargs, 4⟩ = postargs.drop 4 ∧
      body_of buffer = some (postargs.drop 4) ∧
      take_post_body buffer p = Outcome.ok { p with args := args_of ⟨postargs, 4⟩ } ∧
      free_parser_args p.method ⟨postargs, 4⟩ = 0) := by
  refine ⟨by rfl, by rfl, by rfl, by rfl, ?_, ?_, ?_⟩
  · intro buffer p hm hst
    constructor
    · unfold post_block
      rw [hst]
    · unfold take_post_body
      rw [if_pos hm, hst]
  · intro buffer postargs hst hlen
    unfold post_block
    rw [hst]
    simp only
    rw [if_pos (by omega)]
  · intro buffer postargs p hm hst hlen
    refine ⟨?_, rfl, ?_, ?_, ?_⟩
    · unfold post_block
      rw [hst]
      simp only
      rw [if_neg (by omega)]
    · unfold body_of
      rw [hst]
      rfl
    · unfold take_post_body
      rw [if_pos hm, hst]
      simp only
      rw [if_neg (by omega)]
      rfl
    · simp [free_parser_args, hm]

end HttpServer
